import Mathlib

/-!
# Preview back-ends of libcamera-apps (dual camera fork)

A shallow embedding of `preview/egl_preview.cpp` (windowed back-end, `EglPreview`) and
`preview/drm_preview.cpp` (overlay back-end, `DrmPreview`).

* Objects are records; a member function takes the object and returns a `Res`: the object
  after the call, the calls made to the outside world (EGL, GL, DRM, GBM, the release callback)
  in order, and the exception thrown, if any. A C++ exception leaves the object as mutated so far.
* What the outside world answers (does `eglMakeCurrent` succeed, which texture name does
  `glGenTextures` hand out, ...) is an explicit argument of the call.
* `unsigned int` and `uint32_t` are natural numbers below `WORD = 2^32`, with explicit reduction.
* `std::map<int, Buffer>` is an association list kept in key order.
-/

namespace Preview

/-! ## Machine arithmetic -/

/-- Number of values of a 32-bit machine word (`unsigned int`, `uint32_t`). -/
def WORD : Nat := 4294967296

/-- The conversion `static_cast<EGLint>(u)` of an unsigned 32-bit value to the signed 32-bit
type `EGLint`. -/
def toEGLint (u : Nat) : Int :=
  if u % WORD < 2147483648 then ((u % WORD : Nat) : Int) else ((u % WORD : Nat) : Int) - 4294967296

/-- The conversion of an `int` to `uint32_t`, as in `previous_fb = fd`. -/
def toU32 (i : Int) : Nat := (i % 4294967296).toNat

/-! ## Stream metadata -/

/-- The named colour spaces of `libcamera::ColorSpace` (a library type); `Other` stands for any
combination of primaries, transfer function, encoding and range without a name. -/
inductive ColorSpace where
  | Raw
  | Jpeg
  | Srgb
  | Smpte170m
  | Rec709
  | Rec2020
  | Other (tag : Nat)
  deriving DecidableEq, Repr

/-- Modelled from the spec: `StreamInfo` is declared in a header that is not part of the two
source files. The spec gives it as the stream metadata of a shareable buffer: pixel width,
height, row stride and colour-space tag; the code reads the first three as `unsigned int`
and the tag as `std::optional<libcamera::ColorSpace>`. -/
structure StreamInfo where
  width : Nat
  height : Nat
  stride : Nat
  colour_space : Option ColorSpace
  deriving DecidableEq, Repr

/-! ## Planar YUV 4:2:0 layout -/

/-- The expression `info.stride * info.height` in `unsigned int` arithmetic. -/
def plane1Offset (info : StreamInfo) : Nat :=
  (info.stride * info.height) % WORD

/-- The expression `info.stride * info.height + (info.stride / 2) * (info.height / 2)` in
`unsigned int` arithmetic. -/
def plane2Offset (info : StreamInfo) : Nat :=
  ((info.stride * info.height) % WORD + ((info.stride / 2) * (info.height / 2)) % WORD) % WORD

/-- The array `uint32_t offsets[4]` of `DrmPreview::makeBuffer` (its first three entries). -/
def drmOffsets (info : StreamInfo) : List Nat :=
  [0, plane1Offset info, plane2Offset info]

/-- The array `uint32_t pitches[4]` of `DrmPreview::makeBuffer` (its first three entries). -/
def drmPitches (info : StreamInfo) : List Nat :=
  [info.stride, info.stride / 2, info.stride / 2]

/-! ## GPU image attribute list -/

/-- Keys of the `EGLint attribs[]` list given to `eglCreateImageKHR`. -/
inductive AttrKey where
  | EGL_WIDTH
  | EGL_HEIGHT
  | EGL_LINUX_DRM_FOURCC_EXT
  | EGL_DMA_BUF_PLANE0_FD_EXT
  | EGL_DMA_BUF_PLANE0_OFFSET_EXT
  | EGL_DMA_BUF_PLANE0_PITCH_EXT
  | EGL_DMA_BUF_PLANE1_FD_EXT
  | EGL_DMA_BUF_PLANE1_OFFSET_EXT
  | EGL_DMA_BUF_PLANE1_PITCH_EXT
  | EGL_DMA_BUF_PLANE2_FD_EXT
  | EGL_DMA_BUF_PLANE2_OFFSET_EXT
  | EGL_DMA_BUF_PLANE2_PITCH_EXT
  | EGL_YUV_COLOR_SPACE_HINT_EXT
  | EGL_SAMPLE_RANGE_HINT_EXT
  deriving DecidableEq, Repr

/-- Values of the attribute list: a number, or one of the named constants the code uses. -/
inductive AttrVal where
  | num (v : Int)
  | DRM_FORMAT_YUV420
  | EGL_ITU_REC601_EXT
  | EGL_ITU_REC709_EXT
  | EGL_YUV_FULL_RANGE_EXT
  | EGL_YUV_NARROW_RANGE_EXT
  deriving DecidableEq, Repr

/-- The function `get_colour_space_info` of `egl_preview.cpp`: the pair (encoding, range). -/
def eglColourSpaceInfo (cs : Option ColorSpace) : AttrVal × AttrVal :=
  if cs = some ColorSpace.Jpeg then (AttrVal.EGL_ITU_REC601_EXT, AttrVal.EGL_YUV_FULL_RANGE_EXT)
  else if cs = some ColorSpace.Smpte170m then
    (AttrVal.EGL_ITU_REC601_EXT, AttrVal.EGL_YUV_NARROW_RANGE_EXT)
  else if cs = some ColorSpace.Rec709 then
    (AttrVal.EGL_ITU_REC709_EXT, AttrVal.EGL_YUV_NARROW_RANGE_EXT)
  else (AttrVal.EGL_ITU_REC601_EXT, AttrVal.EGL_YUV_NARROW_RANGE_EXT)

/-- The function `get_colour_space_info` of `drm_preview.cpp`: the pair of strings
(encoding, range). -/
def drmColourSpaceInfo (cs : Option ColorSpace) : String × String :=
  if cs = some ColorSpace.Jpeg then ("601", "full")
  else if cs = some ColorSpace.Smpte170m then ("601", "limited")
  else if cs = some ColorSpace.Rec709 then ("709", "limited")
  else ("601", "limited")

/-- The plane part of the attribute list, which the two back-ends write with the same text:
width, height, pixel format and the three (fd, offset, pitch) triples. -/
def planeAttribs (fd : Int) (info : StreamInfo) : List (AttrKey × AttrVal) :=
  [ (AttrKey.EGL_WIDTH, AttrVal.num (toEGLint info.width)),
    (AttrKey.EGL_HEIGHT, AttrVal.num (toEGLint info.height)),
    (AttrKey.EGL_LINUX_DRM_FOURCC_EXT, AttrVal.DRM_FORMAT_YUV420),
    (AttrKey.EGL_DMA_BUF_PLANE0_FD_EXT, AttrVal.num fd),
    (AttrKey.EGL_DMA_BUF_PLANE0_OFFSET_EXT, AttrVal.num 0),
    (AttrKey.EGL_DMA_BUF_PLANE0_PITCH_EXT, AttrVal.num (toEGLint info.stride)),
    (AttrKey.EGL_DMA_BUF_PLANE1_FD_EXT, AttrVal.num fd),
    (AttrKey.EGL_DMA_BUF_PLANE1_OFFSET_EXT, AttrVal.num (toEGLint (plane1Offset info))),
    (AttrKey.EGL_DMA_BUF_PLANE1_PITCH_EXT, AttrVal.num (toEGLint (info.stride / 2))),
    (AttrKey.EGL_DMA_BUF_PLANE2_FD_EXT, AttrVal.num fd),
    (AttrKey.EGL_DMA_BUF_PLANE2_OFFSET_EXT, AttrVal.num (toEGLint (plane2Offset info))),
    (AttrKey.EGL_DMA_BUF_PLANE2_PITCH_EXT, AttrVal.num (toEGLint (info.stride / 2))) ]

/-- The attribute list built by `EglPreview::makeBuffer`. -/
def eglAttribs (fd : Int) (info : StreamInfo) : List (AttrKey × AttrVal) :=
  planeAttribs fd info ++
    [ (AttrKey.EGL_YUV_COLOR_SPACE_HINT_EXT, (eglColourSpaceInfo info.colour_space).1),
      (AttrKey.EGL_SAMPLE_RANGE_HINT_EXT, (eglColourSpaceInfo info.colour_space).2) ]

/-- The attribute list built by `DrmPreview::makeBuffer`; the two hints are written as the
constants `EGL_ITU_REC601_EXT` and `EGL_YUV_NARROW_RANGE_EXT`. -/
def drmAttribs (fd : Int) (info : StreamInfo) : List (AttrKey × AttrVal) :=
  planeAttribs fd info ++
    [ (AttrKey.EGL_YUV_COLOR_SPACE_HINT_EXT, AttrVal.EGL_ITU_REC601_EXT),
      (AttrKey.EGL_SAMPLE_RANGE_HINT_EXT, AttrVal.EGL_YUV_NARROW_RANGE_EXT) ]

/-- Value stored under a key of an attribute list. -/
def attr (l : List (AttrKey × AttrVal)) (k : AttrKey) : Option AttrVal :=
  (l.find? (fun kv => decide (kv.1 = k))).map Prod.snd

/-- The three plane offsets of an attribute list. -/
def attribOffsets (l : List (AttrKey × AttrVal)) : List (Option AttrVal) :=
  [attr l AttrKey.EGL_DMA_BUF_PLANE0_OFFSET_EXT, attr l AttrKey.EGL_DMA_BUF_PLANE1_OFFSET_EXT,
   attr l AttrKey.EGL_DMA_BUF_PLANE2_OFFSET_EXT]

/-- The three plane pitches of an attribute list. -/
def attribPitches (l : List (AttrKey × AttrVal)) : List (Option AttrVal) :=
  [attr l AttrKey.EGL_DMA_BUF_PLANE0_PITCH_EXT, attr l AttrKey.EGL_DMA_BUF_PLANE1_PITCH_EXT,
   attr l AttrKey.EGL_DMA_BUF_PLANE2_PITCH_EXT]

/-! ## Calls to the outside world -/

/-- One call made by a preview object to EGL, GL, DRM, GBM or to the release callback.
A flag `ok` records what a call that can fail answered. -/
inductive Event where
  /-- The call `eglMakeCurrent(display, surface, surface, context)`. -/
  | makeCurrent (ok : Bool)
  /-- The call `eglMakeCurrent(display, EGL_NO_SURFACE, EGL_NO_SURFACE, EGL_NO_CONTEXT)`. -/
  | releaseCurrent
  /-- Shader compilation, program link and mesh construction (`gl_setup`, and the second half
  of `setup_colour_space`). -/
  | glSetup (ok : Bool)
  /-- The call `drmModeObjectSetProperty(fd, plane, DRM_MODE_OBJECT_PLANE, prop_id, value)`. -/
  | setProperty (prop_id : Nat) (value : Nat) (ret : Int)
  /-- The call `drmPrimeFDToHandle(drmfd, fd, &bo_handle)`. -/
  | primeFDToHandle (fd : Int) (ok : Bool)
  /-- The call `eglSwapBuffers`. -/
  | swapBuffers
  /-- The call `gbm_surface_lock_front_buffer`, with the buffer object it returned. -/
  | lockFrontBuffer (bo : Nat)
  /-- The call `drmModeAddFB2`. -/
  | addFB2 (width height : Nat) (bo_handles pitches offsets : List Nat) (fb : Nat) (ok : Bool)
  /-- The call `eglCreateImageKHR`. -/
  | createImage (attribs : List (AttrKey × AttrVal)) (ok : Bool)
  /-- The call `glGenTextures`, followed by binding the image to the new texture. -/
  | genTexture (texture : Nat)
  /-- The call `eglDestroyImageKHR`. -/
  | destroyImage
  /-- The call `glDeleteTextures`. -/
  | deleteTexture (texture : Nat)
  /-- The call `drmModeRmFB`. -/
  | rmFB (fb : Nat)
  /-- The call `gbm_surface_release_buffer`. -/
  | releaseBuffer (bo : Nat)
  /-- The calls `glClearColor` and `glClear`. -/
  | clear
  /-- The call `glBindTexture(GL_TEXTURE_EXTERNAL_OES, texture)` of `Show`. -/
  | bindTexture (texture : Nat)
  /-- The call `glViewport`. -/
  | viewport (x y w h : Nat)
  /-- The call `glBindFramebuffer(GL_FRAMEBUFFER, 0)`. -/
  | bindFramebuffer
  /-- Drawing the mesh. -/
  | meshDraw
  /-- The call `glDrawArrays(GL_TRIANGLE_FAN, 0, 4)`. -/
  | drawArrays
  /-- The call `drmModeSetPlane`. -/
  | setPlane (plane crtc fb x y w h src_w src_h : Nat) (ok : Bool)
  /-- The release callback `done_callback_(fd)`. -/
  | doneCallback (fd : Int)
  deriving DecidableEq, Repr

/-- Result of a member function: the object after the call, the calls made, the exception. -/
structure Res (σ : Type) where
  state : σ
  events : List Event
  error : Option String

/-- The ids handed to the release callback, in order. -/
def releases : List Event → List Int
  | [] => []
  | Event.doneCallback fd :: rest => fd :: releases rest
  | _ :: rest => releases rest

/-- The attribute lists of the GPU images created (successful `eglCreateImageKHR` calls). -/
def imports : List Event → List (List (AttrKey × AttrVal))
  | [] => []
  | Event.createImage a true :: rest => a :: imports rest
  | _ :: rest => imports rest

/-- The texture names created. -/
def texturesCreated : List Event → List Nat
  | [] => []
  | Event.genTexture t :: rest => t :: texturesCreated rest
  | _ :: rest => texturesCreated rest

/-- The texture names deleted. -/
def texturesDeleted : List Event → List Nat
  | [] => []
  | Event.deleteTexture t :: rest => t :: texturesDeleted rest
  | _ :: rest => texturesDeleted rest

/-- The framebuffers registered (successful `drmModeAddFB2` calls). -/
def framebuffersCreated : List Event → List Nat
  | [] => []
  | Event.addFB2 _ _ _ _ _ fb true :: rest => fb :: framebuffersCreated rest
  | _ :: rest => framebuffersCreated rest

/-- The framebuffers unregistered (`drmModeRmFB` calls). -/
def framebuffersRemoved : List Event → List Nat
  | [] => []
  | Event.rmFB fb :: rest => fb :: framebuffersRemoved rest
  | _ :: rest => framebuffersRemoved rest

/-- Number of display submissions (`eglSwapBuffers` calls). -/
def swaps : List Event → Nat
  | [] => 0
  | Event.swapBuffers :: rest => swaps rest + 1
  | _ :: rest => swaps rest

/-! ## The map from buffer id to cache entry -/

/-- The member `std::map::find`: the entry stored under a key. -/
def mapFind {β : Type} : List (Int × β) → Int → Option β
  | [], _ => none
  | (k, v) :: rest, key => if key = k then some v else mapFind rest key

/-- Store an entry under a key, keeping key order and replacing an entry already there:
what writing through the reference returned by `operator[]` does. -/
def mapSet {β : Type} : List (Int × β) → Int → β → List (Int × β)
  | [], key, b => [(key, b)]
  | (k, v) :: rest, key, b =>
    if key < k then (key, b) :: (k, v) :: rest
    else if key = k then (key, b) :: rest
    else (k, v) :: mapSet rest key b

/-- The member `operator[]`: the map with a default-constructed entry added when the key is
absent, and the entry under the key. -/
def mapIndex {β : Type} (dflt : β) (m : List (Int × β)) (key : Int) : List (Int × β) × β :=
  match mapFind m key with
  | some b => (m, b)
  | none => (mapSet m key dflt, dflt)

/-! ## The windowed back-end: `EglPreview` -/

/-- The cache entry `EglPreview::Buffer`. The constructor sets `fd` to -1 and leaves the other
members without a value; they are given as zero here. -/
structure EglPreview.Buffer where
  fd : Int
  size : Nat
  info : StreamInfo
  texture : Nat
  deriving DecidableEq, Repr

/-- The constructor `Buffer() : fd(-1)`. -/
def EglPreview.Buffer.new : EglPreview.Buffer :=
  { fd := -1, size := 0, info := { width := 0, height := 0, stride := 0, colour_space := none },
    texture := 0 }

/-- The members of `EglPreview` that `Show`, `Reset`, `makeBuffer` and `MaxImageSize` read or
write (the window-system handles are left out). -/
structure EglPreview where
  buffers_ : List (Int × EglPreview.Buffer)
  buffers2_ : List (Int × EglPreview.Buffer)
  last_fd_ : Int
  last_fd2_ : Int
  first_time_ : Bool
  x_ : Int
  y_ : Int
  width_ : Int
  height_ : Int
  max_image_width_ : Nat
  max_image_height_ : Nat
  deriving DecidableEq, Repr

/-- What the outside world answers during one `EglPreview::makeBuffer` call. -/
structure EglImportEnv where
  /-- The call `eglMakeCurrent` succeeds. -/
  makeCurrentOk : Bool
  /-- The shaders compile and the program links (`gl_setup` does not throw). -/
  setupOk : Bool
  /-- The call `eglCreateImageKHR` returns an image. -/
  imageOk : Bool
  /-- The texture name `glGenTextures` hands out. -/
  texture : Nat
  deriving DecidableEq, Repr

/-- The arguments of one `EglPreview::Show` call (`span.size()` stands for the span), with the
answers of the outside world for the import of each of the two streams. -/
structure EglShowArgs where
  fd : Int
  size : Nat
  info : StreamInfo
  fd2 : Int
  size2 : Nat
  info2 : StreamInfo
  env : EglImportEnv
  env2 : EglImportEnv
  deriving DecidableEq, Repr

/-- The member function `EglPreview::makeBuffer`; the buffer is passed by reference, so it is
returned next to the object. -/
def EglPreview.makeBuffer (p : EglPreview) (e : EglImportEnv) (fd : Int) (size : Nat)
    (info : StreamInfo) (buffer : EglPreview.Buffer) : Res (EglPreview × EglPreview.Buffer) :=
  let pre : Res EglPreview :=
    if p.first_time_ then
      if e.makeCurrentOk then
        if e.setupOk then
          { state := { p with first_time_ := false },
            events := [Event.makeCurrent true, Event.glSetup true], error := none }
        else
          { state := p, events := [Event.makeCurrent true, Event.glSetup false],
            error := some "failed to compile shader" }
      else
        { state := p, events := [Event.makeCurrent false], error := some "eglMakeCurrent failed" }
    else { state := p, events := [], error := none }
  match pre.error with
  | some err => { state := (pre.state, buffer), events := pre.events, error := some err }
  | none =>
    let buffer1 : EglPreview.Buffer := { buffer with fd := fd, size := size, info := info }
    if e.imageOk then
      { state := (pre.state, { buffer1 with texture := e.texture }),
        events := pre.events ++
          [Event.createImage (eglAttribs fd info) true, Event.genTexture e.texture,
           Event.destroyImage],
        error := none }
    else
      { state := (pre.state, buffer1),
        events := pre.events ++ [Event.createImage (eglAttribs fd info) false],
        error := some "failed to import fd" }

/-- First statement pair of `EglPreview::Show`: `Buffer &buffer = buffers_[fd]` and the import
when `buffer.fd == -1`. The object is returned with the entry written back. -/
def EglPreview.lookup1 (p : EglPreview) (a : EglShowArgs) : Res (EglPreview × EglPreview.Buffer) :=
  let ix := mapIndex EglPreview.Buffer.new p.buffers_ a.fd
  if ix.2.fd = -1 then
    let r := EglPreview.makeBuffer { p with buffers_ := ix.1 } a.env a.fd a.size a.info ix.2
    { state := ({ r.state.1 with buffers_ := mapSet r.state.1.buffers_ a.fd r.state.2 }, r.state.2),
      events := r.events, error := r.error }
  else { state := ({ p with buffers_ := ix.1 }, ix.2), events := [], error := none }

/-- Second statement pair of `EglPreview::Show`: `Buffer &buffer2 = buffers2_[fd2]`, then
the import when `buffer2.fd == -1`. -/
def EglPreview.lookup2 (p : EglPreview) (a : EglShowArgs) : Res (EglPreview × EglPreview.Buffer) :=
  let ix := mapIndex EglPreview.Buffer.new p.buffers2_ a.fd2
  if ix.2.fd = -1 then
    let r := EglPreview.makeBuffer { p with buffers2_ := ix.1 } a.env2 a.fd2 a.size2 a.info2 ix.2
    { state := ({ r.state.1 with buffers2_ := mapSet r.state.1.buffers2_ a.fd2 r.state.2 },
                r.state.2),
      events := r.events, error := r.error }
  else { state := ({ p with buffers2_ := ix.1 }, ix.2), events := [], error := none }

/-- The drawing and submission calls of `EglPreview::Show`. -/
def EglPreview.drawEvents (texture texture2 : Nat) : List Event :=
  [Event.clear, Event.bindTexture texture, Event.viewport 0 0 960 1080, Event.meshDraw,
   Event.bindTexture texture2, Event.viewport 960 0 960 1080, Event.bindFramebuffer,
   Event.meshDraw, Event.swapBuffers]

/-- The statement `if (last_fd_ >= 0) done_callback_(last_fd_);`. -/
def releaseEvents (last_fd : Int) : List Event :=
  if 0 ≤ last_fd then [Event.doneCallback last_fd] else []

/-- The member function `EglPreview::Show`. -/
def EglPreview.Show (p : EglPreview) (a : EglShowArgs) : Res EglPreview :=
  let r1 := EglPreview.lookup1 p a
  match r1.error with
  | some err => { state := r1.state.1, events := r1.events, error := some err }
  | none =>
    let r2 := EglPreview.lookup2 r1.state.1 a
    match r2.error with
    | some err => { state := r2.state.1, events := r1.events ++ r2.events, error := some err }
    | none =>
      { state := { r2.state.1 with last_fd_ := a.fd },
        events := r1.events ++ r2.events ++
          EglPreview.drawEvents r1.state.2.texture r2.state.2.texture ++
          releaseEvents r2.state.1.last_fd_,
        error := none }

/-- The member function `EglPreview::Reset`. -/
def EglPreview.Reset (p : EglPreview) : Res EglPreview :=
  { state := { p with buffers_ := [], last_fd_ := -1, first_time_ := true },
    events := p.buffers_.map (fun kv => Event.deleteTexture kv.2.texture) ++
      [Event.releaseCurrent],
    error := none }

/-- The member function `EglPreview::MaxImageSize`. -/
def EglPreview.MaxImageSize (p : EglPreview) : Nat × Nat :=
  (p.max_image_width_, p.max_image_height_)

/-- The members set by the initialiser list of the constructor, `last_fd_(-1)`, `last_fd2_(-1)`
and `first_time_(true)`, with empty caches; the geometry and the maximum image size are what
`makeWindow` computed. -/
def EglPreview.constructed (x y width height : Int) (max_texture_size : Nat) : EglPreview :=
  { buffers_ := [], buffers2_ := [], last_fd_ := -1, last_fd2_ := -1, first_time_ := true,
    x_ := x, y_ := y, width_ := width, height_ := height,
    max_image_width_ := max_texture_size, max_image_height_ := max_texture_size }

/-! ## The overlay back-end: `DrmPreview` -/

/-- The library function `strstr(hay, needle) != NULL` on character lists. -/
def strstrChars : List Char → List Char → Bool
  | [], needle => needle.isEmpty
  | c :: hay, needle => needle.isPrefixOf (c :: hay) || strstrChars hay needle

/-- The library function `strstr(hay, needle) != NULL`: the needle occurs in the hay. -/
def strstr (hay needle : String) : Bool := strstrChars hay.data needle.data

/-- One entry of the enum table of a plane property, with what `drmModeObjectSetProperty`
answers when the property is set to it. -/
structure DrmEnumEntry where
  name : String
  value : Nat
  setResult : Int
  deriving DecidableEq, Repr

/-- One property id of the plane, as `drmModeGetProperty` reports it. -/
structure DrmProperty where
  prop_id : Nat
  /-- The call `drmModeGetProperty` returns the property. -/
  present : Bool
  /-- The test `drm_property_type_is(prop, DRM_MODE_PROP_ENUM)`. -/
  isEnum : Bool
  name : String
  enums : List DrmEnumEntry
  deriving DecidableEq, Repr

/-- The inner loop of `drm_set_property` over the enum table: the first entry whose name
contains the value name. -/
def findEnum (val : String) : List DrmEnumEntry → Option DrmEnumEntry
  | [] => none
  | e :: rest => if strstr e.name val then some e else findEnum val rest

/-- The function `drm_set_property`: the calls made and the value returned. -/
def drm_set_property (props : List DrmProperty) (name val : String) : List Event × Int :=
  match props with
  | [] => ([], -1)
  | prop :: rest =>
    if !prop.present then drm_set_property rest name val
    else if !prop.isEnum || !strstr prop.name name then drm_set_property rest name val
    else
      match findEnum val prop.enums with
      | some e => ([Event.setProperty prop.prop_id e.value e.setResult], e.setResult)
      | none => ([], -1)

/-- The function `setup_colour_space`: the two property settings, then shaders, program and
mesh; `setupOk` says that the shaders compile and the program links. -/
def setup_colour_space (props : List DrmProperty) (cs : Option ColorSpace) (setupOk : Bool) :
    List Event × Option String :=
  let encoding := (drmColourSpaceInfo cs).1
  let range := (drmColourSpaceInfo cs).2
  let evs := (drm_set_property props "COLOR_ENCODING" encoding).1 ++
    (drm_set_property props "COLOR_RANGE" range).1
  if setupOk then (evs ++ [Event.glSetup true], none)
  else (evs ++ [Event.glSetup false], some "failed to compile shader")

/-- The cache entry `DrmPreview::Buffer`. The constructor sets `fd` to -1 and leaves the other
members without a value; they are given as zero here. -/
structure DrmPreview.Buffer where
  fd : Int
  size : Nat
  info : StreamInfo
  bo_handle : Nat
  fb_handle : Nat
  texture : Nat
  deriving DecidableEq, Repr

/-- The constructor `Buffer() : fd(-1)`. -/
def DrmPreview.Buffer.new : DrmPreview.Buffer :=
  { fd := -1, size := 0, info := { width := 0, height := 0, stride := 0, colour_space := none },
    bo_handle := 0, fb_handle := 0, texture := 0 }

/-- The members of `DrmPreview`, and the file-scope variables `bo`, `previous_bo` and
`previous_fb` that `makeBuffer` reads and writes (a null pointer is 0). -/
structure DrmPreview where
  conId_ : Int
  crtcId_ : Nat
  crtcIdx_ : Int
  planeId_ : Nat
  x_ : Nat
  y_ : Nat
  width_ : Nat
  height_ : Nat
  screen_width_ : Nat
  screen_height_ : Nat
  buffers_ : List (Int × DrmPreview.Buffer)
  last_fd_ : Int
  max_image_width_ : Nat
  max_image_height_ : Nat
  first_time_ : Bool
  bo : Nat
  previous_bo : Nat
  previous_fb : Nat
  deriving DecidableEq, Repr

/-- What the outside world answers during one `DrmPreview::Show` call. -/
structure DrmEnv where
  /-- The call `eglMakeCurrent` succeeds. -/
  makeCurrentOk : Bool
  /-- The property list of the plane. -/
  props : List DrmProperty
  /-- The shaders compile and the program links. -/
  setupOk : Bool
  /-- The call `drmPrimeFDToHandle` succeeds. -/
  primeOk : Bool
  /-- The handle `drmPrimeFDToHandle` stores. -/
  bo_handle : Nat
  /-- The buffer object `gbm_surface_lock_front_buffer` returns (0 for a null pointer). -/
  lockedBo : Nat
  /-- The call `drmModeAddFB2` succeeds. -/
  addFbOk : Bool
  /-- The framebuffer id `drmModeAddFB2` stores. -/
  fb_handle : Nat
  /-- The call `eglCreateImageKHR` returns an image. -/
  imageOk : Bool
  /-- The texture name `glGenTextures` hands out. -/
  texture : Nat
  /-- The call `drmModeSetPlane` succeeds. -/
  setPlaneOk : Bool
  deriving DecidableEq, Repr

/-- The arguments of one `DrmPreview::Show` call (`span.size()` stands for the span), with the
answers of the outside world. -/
structure DrmShowArgs where
  fd : Int
  size : Nat
  info : StreamInfo
  env : DrmEnv
  deriving DecidableEq, Repr

/-- The first-time block at the head of `DrmPreview::makeBuffer`. -/
def DrmPreview.firstTime (p : DrmPreview) (e : DrmEnv) (info : StreamInfo) : Res DrmPreview :=
  if p.first_time_ then
    if e.makeCurrentOk then
      { state := { p with first_time_ := false },
        events := Event.makeCurrent true :: (setup_colour_space e.props info.colour_space e.setupOk).1,
        error := (setup_colour_space e.props info.colour_space e.setupOk).2 }
    else
      { state := { p with first_time_ := false }, events := [Event.makeCurrent false],
        error := some "eglMakeCurrent failed" }
  else { state := p, events := [], error := none }

/-- The tail of `DrmPreview::makeBuffer`: the previous buffer object, when there is one, is
unregistered and released, then `previous_bo = bo; previous_fb = fd`. -/
def DrmPreview.rotate (p : DrmPreview) (fd : Int) : DrmPreview × List Event :=
  ({ p with previous_bo := p.bo, previous_fb := toU32 fd },
   if p.previous_bo ≠ 0 then [Event.rmFB p.previous_fb, Event.releaseBuffer p.previous_bo] else [])

/-- The member function `DrmPreview::makeBuffer`; the buffer is passed by reference, so it is
returned next to the object. -/
def DrmPreview.makeBuffer (p : DrmPreview) (e : DrmEnv) (fd : Int) (size : Nat)
    (info : StreamInfo) (buffer : DrmPreview.Buffer) : Res (DrmPreview × DrmPreview.Buffer) :=
  let pre := DrmPreview.firstTime p e info
  match pre.error with
  | some err => { state := (pre.state, buffer), events := pre.events, error := some err }
  | none =>
    let b1 : DrmPreview.Buffer := { buffer with fd := fd, size := size, info := info }
    if e.primeOk then
      let b2 : DrmPreview.Buffer := { b1 with bo_handle := e.bo_handle }
      let p1 : DrmPreview := { pre.state with bo := e.lockedBo }
      let evs1 := pre.events ++
        [Event.primeFDToHandle fd true, Event.swapBuffers, Event.lockFrontBuffer e.lockedBo]
      let handles := [e.bo_handle, e.bo_handle, e.bo_handle]
      if e.addFbOk then
        let b3 : DrmPreview.Buffer := { b2 with fb_handle := e.fb_handle }
        let evs2 := evs1 ++
          [Event.addFB2 info.width info.height handles (drmPitches info) (drmOffsets info)
            e.fb_handle true]
        if e.imageOk then
          { state := ((DrmPreview.rotate p1 fd).1, { b3 with texture := e.texture }),
            events := evs2 ++
              [Event.createImage (drmAttribs fd info) true, Event.genTexture e.texture,
               Event.destroyImage] ++ (DrmPreview.rotate p1 fd).2,
            error := none }
        else
          { state := (p1, b3), events := evs2 ++ [Event.createImage (drmAttribs fd info) false],
            error := some "no image made" }
      else
        { state := (p1, b2),
          events := evs1 ++
            [Event.addFB2 info.width info.height handles (drmPitches info) (drmOffsets info)
              e.fb_handle false],
          error := some "drmModeAddFB2 failed" }
    else
      { state := (pre.state, b1), events := pre.events ++ [Event.primeFDToHandle fd false],
        error := some "drmPrimeFDToHandle failed for fd" }

/-- The destination rectangle computed by `DrmPreview::Show`. -/
structure Rect where
  x_off : Nat
  y_off : Nat
  w : Nat
  h : Nat
  deriving DecidableEq, Repr

/-- The letterbox computation of `DrmPreview::Show` in `unsigned int` arithmetic, for a
destination `width_` by `height_` and a source `iw` by `ih` (all below `WORD`); `none` when
the division that is executed has divisor zero. -/
def letterbox (width_ height_ iw ih : Nat) : Option Rect :=
  if (iw * height_) % WORD > (width_ * ih) % WORD then
    if iw = 0 then none
    else
      let h := ((width_ * ih) % WORD) / iw
      some { x_off := 0, y_off := ((height_ + WORD - h) % WORD) / 2, w := width_, h := h }
  else
    if ih = 0 then none
    else
      let w := ((height_ * iw) % WORD) / ih
      some { x_off := ((width_ + WORD - w) % WORD) / 2, y_off := 0, w := w, h := height_ }

/-- First statement pair of `DrmPreview::Show`: `Buffer &buffer = buffers_[fd]` and the import
when `buffer.fd == -1`. The object is returned with the entry written back. -/
def DrmPreview.lookup (p : DrmPreview) (a : DrmShowArgs) : Res (DrmPreview × DrmPreview.Buffer) :=
  let ix := mapIndex DrmPreview.Buffer.new p.buffers_ a.fd
  if ix.2.fd = -1 then
    let r := DrmPreview.makeBuffer { p with buffers_ := ix.1 } a.env a.fd a.size a.info ix.2
    { state := ({ r.state.1 with buffers_ := mapSet r.state.1.buffers_ a.fd r.state.2 }, r.state.2),
      events := r.events, error := r.error }
  else { state := ({ p with buffers_ := ix.1 }, ix.2), events := [], error := none }

/-- The drawing and submission calls of `DrmPreview::Show`, up to `eglSwapBuffers`. -/
def DrmPreview.drawEvents (texture : Nat) : List Event :=
  [Event.clear, Event.bindTexture texture, Event.viewport 0 0 960 1080, Event.bindFramebuffer,
   Event.meshDraw, Event.viewport 960 0 960 1080, Event.bindFramebuffer, Event.meshDraw,
   Event.drawArrays, Event.swapBuffers]

/-- The call `drmModeSetPlane` of `DrmPreview::Show` for a destination rectangle. -/
def DrmPreview.setPlaneEvent (p : DrmPreview) (buffer : DrmPreview.Buffer) (r : Rect)
    (ok : Bool) : Event :=
  Event.setPlane p.planeId_ p.crtcId_ buffer.fb_handle ((r.x_off + p.x_) % WORD)
    ((r.y_off + p.y_) % WORD) r.w r.h ((buffer.info.width * 65536) % WORD)
    ((buffer.info.height * 65536) % WORD) ok

/-- The member function `DrmPreview::Show`. -/
def DrmPreview.Show (p : DrmPreview) (a : DrmShowArgs) : Res DrmPreview :=
  let r1 := DrmPreview.lookup p a
  match r1.error with
  | some err => { state := r1.state.1, events := r1.events, error := some err }
  | none =>
    match letterbox r1.state.1.width_ r1.state.1.height_ a.info.width a.info.height with
    | none => { state := r1.state.1, events := r1.events, error := some "division by zero" }
    | some rect =>
      let evs := r1.events ++ DrmPreview.drawEvents r1.state.2.texture ++
        [DrmPreview.setPlaneEvent r1.state.1 r1.state.2 rect a.env.setPlaneOk]
      if a.env.setPlaneOk then
        { state := { r1.state.1 with last_fd_ := a.fd },
          events := evs ++ releaseEvents r1.state.1.last_fd_, error := none }
      else { state := r1.state.1, events := evs, error := some "drmModeSetPlane failed" }

/-- The member function `DrmPreview::Reset`. -/
def DrmPreview.Reset (p : DrmPreview) : Res DrmPreview :=
  { state := { p with buffers_ := [], last_fd_ := -1, first_time_ := true },
    events := (p.buffers_.map (fun kv =>
        [Event.rmFB kv.2.fb_handle, Event.deleteTexture kv.2.texture])).flatten ++
      [Event.releaseCurrent],
    error := none }

/-- The member function `DrmPreview::MaxImageSize`. -/
def DrmPreview.MaxImageSize (p : DrmPreview) : Nat × Nat :=
  (p.max_image_width_, p.max_image_height_)

/-- The members set by the initialiser list of the constructor, `last_fd_(-1)` and
`first_time_(true)`, with an empty cache and no previous buffer object; the other members are
what the constructor computed. -/
def DrmPreview.constructed (conId : Int) (crtcId : Nat) (crtcIdx : Int) (planeId : Nat)
    (x y width height screen_width screen_height max_width max_height : Nat) : DrmPreview :=
  { conId_ := conId, crtcId_ := crtcId, crtcIdx_ := crtcIdx, planeId_ := planeId,
    x_ := x, y_ := y, width_ := width, height_ := height,
    screen_width_ := screen_width, screen_height_ := screen_height,
    buffers_ := [], last_fd_ := -1, max_image_width_ := max_width,
    max_image_height_ := max_height, first_time_ := true,
    bo := 0, previous_bo := 0, previous_fb := 0 }

/-! ## Construction of the overlay back-end -/

/-- The conversion of a `uint32_t` to `int`, as in `conId_ = con->connector_id`. -/
def toInt32 (u : Nat) : Int :=
  if u % WORD < 2147483648 then ((u % WORD : Nat) : Int) else ((u % WORD : Nat) : Int) - 4294967296

/-- The constant `DRM_FORMAT_YUV420`, the four-character code `YU12`. -/
def DRM_FORMAT_YUV420 : Nat := 842093913

/-- Modelled from the spec: `Options` is declared in a header that is not part of the two
source files. The spec gives the configuration the preview consumes: overlay geometry
(position and size), full-screen flag and verbosity flag; the code reads the geometry into
`unsigned int` members. -/
structure Options where
  preview_x : Nat
  preview_y : Nat
  preview_width : Nat
  preview_height : Nat
  fullscreen : Bool
  verbose : Bool
  deriving DecidableEq, Repr

/-- A controller as `drmModeGetCrtc` reports it. -/
structure DrmCrtc where
  crtc_id : Nat
  x : Nat
  y : Nat
  width : Nat
  height : Nat
  deriving DecidableEq, Repr

/-- A connector as `drmModeGetConnector` reports it, together with the controller id of its
encoder, `drmModeGetEncoder(con->encoder_id)->crtc_id`. -/
structure DrmConnector where
  connector_id : Nat
  encoder_id : Nat
  encoder_crtc_id : Nat
  count_modes : Nat
  deriving DecidableEq, Repr

/-- A plane as `drmModeGetPlane` reports it. -/
structure DrmPlane where
  plane_id : Nat
  possible_crtcs : Nat
  formats : List Nat
  deriving DecidableEq, Repr

/-- The display device as the DRM, GBM and EGL calls of the constructor report it. -/
structure DrmDevice where
  /-- The call `drmOpen` succeeds. -/
  openOk : Bool
  /-- The call `drmIsMaster` answers yes. -/
  isMaster : Bool
  /-- The call `drmModeGetResources` returns the resources. -/
  resourcesOk : Bool
  /-- The controllers `res->crtcs`, in order, each as `drmModeGetCrtc` reports it. -/
  crtcs : List DrmCrtc
  /-- The connectors `res->connectors`, in order. -/
  connectors : List DrmConnector
  max_width : Nat
  max_height : Nat
  /-- The GBM surface, the EGL display, configuration and context are created. -/
  gbmEglOk : Bool
  /-- The call `drmModeGetPlaneResources` returns the planes. -/
  planeResourcesOk : Bool
  /-- The planes, in order. -/
  planes : List DrmPlane
  deriving DecidableEq, Repr

/-- The call `drmModeGetCrtc(drmfd_, id)`: the controller with that id, if there is one. -/
def getCrtc (dev : DrmDevice) (id : Nat) : Option DrmCrtc :=
  dev.crtcs.find? (fun c => decide (c.crtc_id = id))

/-- The local `crtc` of the connector loop of `findCrtc`: the controller of the encoder of the
connector, when the connector has an encoder id, the encoder a controller id, and
`drmModeGetCrtc` returns the controller. -/
def connectorCrtc (dev : DrmDevice) (con : DrmConnector) : Option DrmCrtc :=
  if con.encoder_id ≠ 0 then
    if con.encoder_crtc_id ≠ 0 then getCrtc dev con.encoder_crtc_id else none
  else none

/-- The members written by the connector loop of `findCrtc`. -/
structure Selection where
  conId_ : Int
  crtcId_ : Nat
  screen_width_ : Nat
  screen_height_ : Nat
  deriving DecidableEq, Repr

/-- One turn of the connector loop of `findCrtc`. -/
def selectStep (dev : DrmDevice) (s : Selection) (con : DrmConnector) : Selection :=
  match connectorCrtc dev con with
  | none => s
  | some crtc =>
    let s1 : Selection :=
      if s.conId_ = 0 then
        { s with conId_ := toInt32 con.connector_id, crtcId_ := crtc.crtc_id }
      else s
    { s1 with screen_width_ := crtc.width, screen_height_ := crtc.height }

/-- The connector loop of `findCrtc`, over the connectors in order. -/
def selectLoop (dev : DrmDevice) : Selection → List DrmConnector → Selection
  | s, [] => s
  | s, con :: rest => selectLoop dev (selectStep dev s con) rest

/-- The controller loop of `findCrtc`: the index of the first entry of `res->crtcs` with the
given id, counted from `i`, with the controller itself. -/
def crtcIndexFrom (crtcId : Nat) : List DrmCrtc → Nat → Option (Nat × DrmCrtc)
  | [], _ => none
  | c :: rest, i => if crtcId = c.crtc_id then some (i, c) else crtcIndexFrom crtcId rest (i + 1)

/-- The geometry block of `findCrtc`: with the full-screen flag or a zero size the rectangle
of the controller is taken. -/
def DrmPreview.crtcGeometry (opts : Options) (crtc : DrmCrtc) (p : DrmPreview) : DrmPreview :=
  if opts.fullscreen || decide (p.width_ = 0) || decide (p.height_ = 0) then
    { p with x_ := crtc.x, y_ := crtc.y, width_ := crtc.width, height_ := crtc.height }
  else p

/-- The member function `DrmPreview::findCrtc`, on the object under construction. -/
def DrmPreview.findCrtc (dev : DrmDevice) (opts : Options) (p : DrmPreview) :
    Except String DrmPreview :=
  if !dev.resourcesOk then Except.error "drmModeGetResources failed"
  else if dev.crtcs.length = 0 then Except.error "drm: no crts"
  else
    let sel0 : Selection :=
      { conId_ := p.conId_, crtcId_ := p.crtcId_, screen_width_ := p.screen_width_,
        screen_height_ := p.screen_height_ }
    let sel := if p.conId_ = 0 then selectLoop dev sel0 dev.connectors else sel0
    if sel.conId_ = 0 then Except.error "No suitable enabled connector found"
    else
      match crtcIndexFrom sel.crtcId_ dev.crtcs 0 with
      | none => Except.error "drm: CRTC not found"
      | some (idx, crtc) =>
        if dev.connectors.length = 0 then Except.error "drm: no connectors"
        else
          match dev.connectors.find? (fun c => decide (c.connector_id = toU32 sel.conId_)) with
          | none => Except.error "drmModeGetConnector failed"
          | some c =>
            if c.count_modes = 0 then Except.error "connector supports no mode"
            else
              let p1 : DrmPreview :=
                { p with max_image_width_ := dev.max_width, max_image_height_ := dev.max_height,
                         conId_ := sel.conId_, crtcId_ := sel.crtcId_, crtcIdx_ := (idx : Int),
                         screen_width_ := sel.screen_width_,
                         screen_height_ := sel.screen_height_ }
              if dev.gbmEglOk then Except.ok (DrmPreview.crtcGeometry opts crtc p1)
              else Except.error "Failed to create GBM surface or EGL context"

/-- The inner loop of `findPlane` over the formats of a plane: the value of `j` when the loop
ends, the index of the first entry equal to the pixel format or the number of formats. -/
def formatIndex (fourcc : Nat) : List Nat → Nat
  | [] => 0
  | f :: rest => if f = fourcc then 0 else formatIndex fourcc rest + 1

/-- The outer loop of `findPlane`: the plane id assigned to `planeId_`, if any. The test
`plane->possible_crtcs & (1 << crtcIdx_)` is the bit of index `crtcIdx_` of the mask. -/
def findPlaneLoop (crtcIdx : Nat) (fourcc : Nat) : List DrmPlane → Option Nat
  | [] => none
  | plane :: rest =>
    if !(plane.possible_crtcs.testBit crtcIdx) then findPlaneLoop crtcIdx fourcc rest
    else if formatIndex fourcc plane.formats = plane.formats.length then
      findPlaneLoop crtcIdx fourcc rest
    else some plane.plane_id

/-- The member function `DrmPreview::findPlane`, on the object under construction with the
required pixel format `out_fourcc_`; when no plane passes, `planeId_` is not assigned. -/
def DrmPreview.findPlane (dev : DrmDevice) (out_fourcc : Nat) (p : DrmPreview) :
    Except String DrmPreview :=
  if !dev.planeResourcesOk then Except.error "drmModeGetPlaneResources failed"
  else
    match findPlaneLoop p.crtcIdx_.toNat out_fourcc dev.planes with
    | some id => Except.ok { p with planeId_ := id }
    | none => Except.ok p

/-- The last block of the constructor: full screen when asked for, when a size is zero, or
when the rectangle does not fit the screen, the sums being taken in `unsigned int`. -/
def DrmPreview.finalGeometry (opts : Options) (p : DrmPreview) : DrmPreview :=
  if opts.fullscreen || decide (p.width_ = 0) || decide (p.height_ = 0) ||
      decide ((p.x_ + p.width_) % WORD > p.screen_width_) ||
      decide ((p.y_ + p.height_) % WORD > p.screen_height_) then
    { p with x_ := 0, y_ := 0, width_ := p.screen_width_, height_ := p.screen_height_ }
  else p

/-- The constructor `DrmPreview::DrmPreview`: the object, or the exception thrown. Members the
constructor has not written yet are given as zero. -/
def DrmPreview.construct (dev : DrmDevice) (opts : Options) : Except String DrmPreview :=
  if !dev.openOk then Except.error "drmOpen failed"
  else
    let p0 : DrmPreview :=
      { conId_ := 0, crtcId_ := 0, crtcIdx_ := 0, planeId_ := 0,
        x_ := opts.preview_x, y_ := opts.preview_y, width_ := opts.preview_width,
        height_ := opts.preview_height, screen_width_ := 0, screen_height_ := 0,
        buffers_ := [], last_fd_ := -1, max_image_width_ := 0, max_image_height_ := 0,
        first_time_ := true, bo := 0, previous_bo := 0, previous_fb := 0 }
    if !dev.isMaster then Except.error "DRM preview unavailable - not master"
    else
      match DrmPreview.findCrtc dev opts p0 with
      | Except.error e => Except.error e
      | Except.ok p1 =>
        match DrmPreview.findPlane dev DRM_FORMAT_YUV420 p1 with
        | Except.error e => Except.error e
        | Except.ok p2 => Except.ok (DrmPreview.finalGeometry opts p2)

/-! ## Sequences of calls -/

/-- One call of the producer on a preview object: `Show` with its arguments, or `Reset`. -/
inductive Call (κ : Type) where
  | present (a : κ)
  | reset
  deriving DecidableEq, Repr

/-- One call on the windowed back-end. -/
def EglPreview.call (p : EglPreview) : Call EglShowArgs → Res EglPreview
  | Call.present a => EglPreview.Show p a
  | Call.reset => EglPreview.Reset p

/-- One call on the overlay back-end. -/
def DrmPreview.call (p : DrmPreview) : Call DrmShowArgs → Res DrmPreview
  | Call.present a => DrmPreview.Show p a
  | Call.reset => DrmPreview.Reset p

/-- The result of every call of a sequence, each call made on the object the call before it
left behind (also when that call threw). -/
def outcomes {σ κ : Type} (step : σ → Call κ → Res σ) : σ → List (Call κ) → List (Res σ)
  | _, [] => []
  | s, c :: cs => step s c :: outcomes step (step s c).state cs

/-- The object after a sequence of calls. -/
def finalState {σ κ : Type} (step : σ → Call κ → Res σ) : σ → List (Call κ) → σ
  | s, [] => s
  | s, c :: cs => finalState step (step s c).state cs

/-- All calls made to the outside world during a sequence of calls, in order. -/
def allEvents {σ : Type} (rs : List (Res σ)) : List Event :=
  (rs.map Res.events).flatten

/-- The ids of the `Show` calls of a sequence that returned without an exception, in order. -/
def completedIds {σ κ : Type} (step : σ → Call κ → Res σ) (fdOf : κ → Int) :
    σ → List (Call κ) → List Int
  | _, [] => []
  | s, Call.reset :: cs => completedIds step fdOf (step s Call.reset).state cs
  | s, Call.present a :: cs =>
    (if (step s (Call.present a)).error = none then [fdOf a] else []) ++
      completedIds step fdOf (step s (Call.present a)).state cs

/-- The in-flight id found by each `Reset` call of a sequence, in order. -/
def droppedIds {σ κ : Type} (step : σ → Call κ → Res σ) (last : σ → Int) :
    σ → List (Call κ) → List Int
  | _, [] => []
  | s, Call.reset :: cs => last s :: droppedIds step last (step s Call.reset).state cs
  | s, Call.present a :: cs => droppedIds step last (step s (Call.present a)).state cs

/-- A sequence of `Show` calls with no `Reset` in between. -/
def presents {κ : Type} (as : List κ) : List (Call κ) := as.map Call.present

/-- The release lists a one-call lag gives: the first call releases the in-flight id `l` when
it is not negative, every later call the id of the call before it. -/
def lagged : Int → List Int → List (List Int)
  | _, [] => []
  | l, fd :: rest => (if 0 ≤ l then [l] else []) :: lagged fd rest

/-- What the reclaim code of a back-end does in one call: a `Show` that returns releases the
in-flight id, when not negative, and makes its own id the in-flight one; a `Show` that throws
releases nothing and keeps the in-flight id; `Reset` releases nothing and sets it to -1. -/
def ReclaimStep {σ κ : Type} (step : σ → Call κ → Res σ) (last : σ → Int) (fdOf : κ → Int) :
    Prop :=
  (∀ s a, (step s (Call.present a)).error = none →
    releases (step s (Call.present a)).events = (if 0 ≤ last s then [last s] else []) ∧
    last (step s (Call.present a)).state = fdOf a) ∧
  (∀ s a, (step s (Call.present a)).error ≠ none →
    releases (step s (Call.present a)).events = [] ∧
    last (step s (Call.present a)).state = last s) ∧
  (∀ s, releases (step s Call.reset).events = [] ∧ last (step s Call.reset).state = -1)

/-! ## Sample objects and calls -/

/-- Sample metadata: a 640 by 480 stream with a stride of 640 and no colour-space tag. -/
def sampleInfo : StreamInfo :=
  { width := 640, height := 480, stride := 640, colour_space := none }

/-- An outside world in which every call of an import succeeds, handing out a given texture
name. -/
def eglOk (texture : Nat) : EglImportEnv :=
  { makeCurrentOk := true, setupOk := true, imageOk := true, texture := texture }

/-- A sample `EglPreview::Show` call for two ids with the sample metadata, every outside call
succeeding; the textures handed out are numbered 11 and 12. -/
def eglShow (fd fd2 : Int) : EglShowArgs :=
  { fd := fd, size := 460800, info := sampleInfo, fd2 := fd2, size2 := 460800,
    info2 := sampleInfo, env := eglOk 11, env2 := eglOk 12 }

/-- A windowed preview as constructed: a 1024 by 768 window, maximum texture size 4096. -/
def egl0 : EglPreview := EglPreview.constructed 0 0 1024 768 4096

/-- An outside world in which every call of `DrmPreview::Show` succeeds: the plane has no
properties, the import gets memory handle 3, buffer object `bo`, framebuffer `fb` and
texture `texture`. -/
def drmOk (bo fb texture : Nat) : DrmEnv :=
  { makeCurrentOk := true, props := [], setupOk := true, primeOk := true, bo_handle := 3,
    lockedBo := bo, addFbOk := true, fb_handle := fb, imageOk := true, texture := texture,
    setPlaneOk := true }

/-- A sample `DrmPreview::Show` call with the sample metadata, every outside call
succeeding. -/
def drmShow (fd : Int) (bo fb texture : Nat) : DrmShowArgs :=
  { fd := fd, size := 460800, info := sampleInfo, env := drmOk bo fb texture }

/-- An overlay preview as constructed: connector 32, controller 91 (index 0), plane 65,
a full-screen rectangle on a 1920 by 1080 screen. -/
def drm0 : DrmPreview :=
  DrmPreview.constructed 32 91 0 65 0 0 1920 1080 1920 1080 8192 8192

/-- A sample `EglPreview::Show` call during which `eglMakeCurrent` fails. -/
def eglShowNoContext (fd fd2 : Int) : EglShowArgs :=
  { fd := fd, size := 460800, info := sampleInfo, fd2 := fd2, size2 := 460800,
    info2 := sampleInfo,
    env := { makeCurrentOk := false, setupOk := true, imageOk := true, texture := 11 },
    env2 := eglOk 12 }

/-- The one-time setup calls among the calls made: `eglMakeCurrent` on the render surface,
and shader, program and mesh construction. -/
def setupCalls : List Event → List Event
  | [] => []
  | Event.makeCurrent ok :: rest => Event.makeCurrent ok :: setupCalls rest
  | Event.glSetup ok :: rest => Event.glSetup ok :: setupCalls rest
  | _ :: rest => setupCalls rest

/-- The calls that concern the hand-off to the display controller and the release of the
previous buffer object: `drmModeRmFB`, `gbm_surface_release_buffer`, `drmModeSetPlane`. -/
def handoffCalls : List Event → List Event
  | [] => []
  | Event.rmFB fb :: rest => Event.rmFB fb :: handoffCalls rest
  | Event.releaseBuffer bo :: rest => Event.releaseBuffer bo :: handoffCalls rest
  | Event.setPlane a b c d e f g h i ok :: rest =>
    Event.setPlane a b c d e f g h i ok :: handoffCalls rest
  | _ :: rest => handoffCalls rest

/-- A sample `DrmPreview::Show` call in which every outside call succeeds except
`drmModeSetPlane`. -/
def drmShowRejected (fd : Int) (bo fb texture : Nat) : DrmShowArgs :=
  { fd := fd, size := 460800, info := sampleInfo,
    env := { makeCurrentOk := true, props := [], setupOk := true, primeOk := true,
             bo_handle := 3, lockedBo := bo, addFbOk := true, fb_handle := fb, imageOk := true,
             texture := texture, setPlaneOk := false } }

/-- Sample metadata of a buffer whose luma plane is 2 GiB: stride 65536, height 32768. -/
def hugeInfo : StreamInfo :=
  { width := 640, height := 32768, stride := 65536, colour_space := none }

/-- Sample metadata tagged Rec709: a 1920 by 1080 stream with a stride of 1920. -/
def rec709Info : StreamInfo :=
  { width := 1920, height := 1080, stride := 1920, colour_space := some ColorSpace.Rec709 }

/-- Sample metadata tagged Jpeg: a 640 by 480 stream with a stride of 640. -/
def jpegInfo : StreamInfo :=
  { width := 640, height := 480, stride := 640, colour_space := some ColorSpace.Jpeg }

/-- The test of the outer loop of `drm_set_property`: the property is reported, is of enum
type, and its name contains the requested name. -/
def propertyMatches (name : String) (prop : DrmProperty) : Bool :=
  prop.present && prop.isEnum && strstr prop.name name

/-- Sample property list of a plane: a range property (id 7, not an enum) and the enum
property `COLOR_ENCODING` (id 8) with the entries the vc4 driver names. -/
def sampleProps : List DrmProperty :=
  [ { prop_id := 7, present := true, isEnum := false, name := "zpos", enums := [] },
    { prop_id := 8, present := true, isEnum := true, name := "COLOR_ENCODING",
      enums := [ { name := "ITU-R BT.601 YCbCr", value := 0, setResult := 0 },
                 { name := "ITU-R BT.709 YCbCr", value := 1, setResult := 0 } ] } ]

/-- A sample `EglPreview::Show` call during which `eglCreateImageKHR` fails for the first
stream. -/
def eglShowNoImage (fd fd2 : Int) : EglShowArgs :=
  { fd := fd, size := 460800, info := sampleInfo, fd2 := fd2, size2 := 460800,
    info2 := sampleInfo,
    env := { makeCurrentOk := true, setupOk := true, imageOk := false, texture := 11 },
    env2 := eglOk 12 }

/-- A sample `DrmPreview::Show` call during which `drmPrimeFDToHandle` fails. -/
def drmShowNoHandle (fd : Int) : DrmShowArgs :=
  { fd := fd, size := 460800, info := sampleInfo,
    env := { makeCurrentOk := true, props := [], setupOk := true, primeOk := false,
             bo_handle := 0, lockedBo := 1, addFbOk := true, fb_handle := 21, imageOk := true,
             texture := 11, setPlaneOk := true } }

/-- The object with another maximum image size, all other members as they are. -/
def EglPreview.withMax (p : EglPreview) (w h : Nat) : EglPreview :=
  { p with max_image_width_ := w, max_image_height_ := h }

/-- The object with another maximum image size, all other members as they are. -/
def DrmPreview.withMax (p : DrmPreview) (w h : Nat) : DrmPreview :=
  { p with max_image_width_ := w, max_image_height_ := h }

/-- Sample metadata of an image of 16384 by 12288 pixels. -/
def bigInfo : StreamInfo :=
  { width := 16384, height := 12288, stride := 16384, colour_space := none }

/-- A sample `EglPreview::Show` call whose metadata, for both streams, is the big sample;
every outside call succeeds. -/
def eglShowBig (fd fd2 : Int) : EglShowArgs :=
  { fd := fd, size := 301989888, info := bigInfo, fd2 := fd2, size2 := 301989888,
    info2 := bigInfo, env := eglOk 11, env2 := eglOk 12 }

/-- A sample `DrmPreview::Show` call whose metadata is the big sample; every outside call
succeeds. -/
def drmShowBig (fd : Int) (bo fb texture : Nat) : DrmShowArgs :=
  { fd := fd, size := 301989888, info := bigInfo, env := drmOk bo fb texture }

/-- Sample planes: plane 60 is for another controller, plane 62 for controller index 0 but
without the format YUV420, plane 65 passes both tests, and so does plane 70. -/
def samplePlanes : List DrmPlane :=
  [ { plane_id := 60, possible_crtcs := 2, formats := [875713112, 842093913] },
    { plane_id := 62, possible_crtcs := 1, formats := [875713112, 875713089] },
    { plane_id := 65, possible_crtcs := 3, formats := [875713112, 842093913] },
    { plane_id := 70, possible_crtcs := 1, formats := [842093913] } ]

/-- A sample device with one connector (id 32) on controller 91, a 1920 by 1080 output. -/
def dev1 : DrmDevice :=
  { openOk := true, isMaster := true, resourcesOk := true,
    crtcs := [ { crtc_id := 91, x := 0, y := 0, width := 1920, height := 1080 } ],
    connectors := [ { connector_id := 32, encoder_id := 31, encoder_crtc_id := 91,
                      count_modes := 4 } ],
    max_width := 8192, max_height := 8192, gbmEglOk := true, planeResourcesOk := true,
    planes := samplePlanes }

/-- A sample device with three connectors: connector 30 has no encoder, connector 32 is on
controller 91 (a 1280 by 720 output), connector 34 on controller 92 (1920 by 1080). -/
def dev2 : DrmDevice :=
  { openOk := true, isMaster := true, resourcesOk := true,
    crtcs := [ { crtc_id := 91, x := 0, y := 0, width := 1280, height := 720 },
               { crtc_id := 92, x := 0, y := 0, width := 1920, height := 1080 } ],
    connectors := [ { connector_id := 30, encoder_id := 0, encoder_crtc_id := 0,
                      count_modes := 0 },
                    { connector_id := 32, encoder_id := 31, encoder_crtc_id := 91,
                      count_modes := 4 },
                    { connector_id := 34, encoder_id := 33, encoder_crtc_id := 92,
                      count_modes := 4 } ],
    max_width := 8192, max_height := 8192, gbmEglOk := true, planeResourcesOk := true,
    planes := samplePlanes }

/-- Sample options: no rectangle requested, full-screen flag off. -/
def optsDefault : Options :=
  { preview_x := 0, preview_y := 0, preview_width := 0, preview_height := 0,
    fullscreen := false, verbose := false }

/-- Sample options: the rectangle 640 by 480 at (100, 50), full-screen flag off. -/
def optsWindow : Options :=
  { preview_x := 100, preview_y := 50, preview_width := 640, preview_height := 480,
    fullscreen := false, verbose := false }

/-- Sample options: a rectangle 2 wide at x = 4294967295, so that x + width is 2^32 + 1. -/
def optsWrap : Options :=
  { preview_x := 4294967295, preview_y := 0, preview_width := 2, preview_height := 100,
    fullscreen := false, verbose := false }

/-- The on-screen rectangle of an overlay preview: the members `x_`, `y_`, `width_`,
`height_`. -/
def DrmPreview.rect (p : DrmPreview) : Nat × Nat × Nat × Nat :=
  (p.x_, p.y_, p.width_, p.height_)

/-- A connector has an active controller: the local `crtc` of the connector loop is set. -/
def activeConnector (dev : DrmDevice) (con : DrmConnector) : Bool :=
  (connectorCrtc dev con).isSome

/-- A sample device whose first connector with an active controller reports the id 0. -/
def dev3 : DrmDevice :=
  { openOk := true, isMaster := true, resourcesOk := true,
    crtcs := [ { crtc_id := 91, x := 0, y := 0, width := 1280, height := 720 },
               { crtc_id := 92, x := 0, y := 0, width := 1920, height := 1080 } ],
    connectors := [ { connector_id := 0, encoder_id := 31, encoder_crtc_id := 91,
                      count_modes := 4 },
                    { connector_id := 34, encoder_id := 33, encoder_crtc_id := 92,
                      count_modes := 4 } ],
    max_width := 8192, max_height := 8192, gbmEglOk := true, planeResourcesOk := true,
    planes := samplePlanes }

/-- The release list of every call of a sequence. -/
def releasesPerCall {σ : Type} (rs : List (Res σ)) : List (List Int) :=
  rs.map (fun r => releases r.events)

/-- Every call of a sequence returned without an exception. -/
def allCompleted {σ : Type} (rs : List (Res σ)) : Prop :=
  ∀ r ∈ rs, r.error = none

/-- A cache holds a marked entry for an id: an entry is stored under the id and its `fd`
member is not -1, so that `Show` takes it for an imported buffer. -/
def marked {β : Type} (fdOf : β → Int) (m : List (Int × β)) (id : Int) : Prop :=
  ∃ b, mapFind m id = some b ∧ fdOf b ≠ -1

/-! ## Lemmas on the cache -/

theorem mapFind_mapSet_self {β : Type} (m : List (Int × β)) (k : Int) (b : β) :
    mapFind (mapSet m k b) k = some b := by
  induction m with
  | nil => simp [mapSet, mapFind]
  | cons x xs ih =>
    obtain ⟨k1, v1⟩ := x
    unfold mapSet
    by_cases h1 : k < k1
    · simp [h1, mapFind]
    · by_cases h2 : k = k1
      · simp [h2, mapFind]
      · simp [h1, h2, mapFind, ih]

theorem mapFind_mapSet_ne {β : Type} (m : List (Int × β)) (k k2 : Int) (b : β) (hne : k2 ≠ k) :
    mapFind (mapSet m k b) k2 = mapFind m k2 := by
  induction m with
  | nil => simp [mapSet, mapFind, hne]
  | cons x xs ih =>
    obtain ⟨k1, v1⟩ := x
    unfold mapSet
    by_cases h1 : k < k1
    · simp [h1, mapFind, hne]
    · by_cases h2 : k = k1
      · subst h2
        simp [mapFind, hne]
      · simp only [h1, h2, if_false, mapFind, ih]

theorem mapIndex_hit {β : Type} (dflt : β) (m : List (Int × β)) (k : Int) (b : β)
    (h : mapFind m k = some b) : mapIndex dflt m k = (m, b) := by
  simp [mapIndex, h]

theorem mapIndex_find_ne {β : Type} (dflt : β) (m : List (Int × β)) (k k2 : Int)
    (hne : k2 ≠ k) : mapFind (mapIndex dflt m k).1 k2 = mapFind m k2 := by
  unfold mapIndex
  cases h : mapFind m k with
  | none => simp [mapFind_mapSet_ne _ _ _ _ hne]
  | some b => simp

theorem mapIndex_snd {β : Type} (dflt : β) (m : List (Int × β)) (k : Int) :
    (mapIndex dflt m k).2 = (mapFind m k).getD dflt := by
  unfold mapIndex
  cases h : mapFind m k <;> simp

/-! ## Lemmas on event lists -/

theorem releases_append (xs ys : List Event) :
    releases (xs ++ ys) = releases xs ++ releases ys := by
  induction xs with
  | nil => rfl
  | cons x xs ih => cases x <;> simp [releases, ih]

theorem releases_releaseEvents (l : Int) :
    releases (releaseEvents l) = if 0 ≤ l then [l] else [] := by
  unfold releaseEvents; split <;> simp [releases]

theorem releases_map_deleteTexture {β : Type} (f : β → Nat) (l : List β) :
    releases (l.map (fun kv => Event.deleteTexture (f kv))) = [] := by
  induction l with
  | nil => rfl
  | cons x xs ih => simpa [releases] using ih

theorem releases_drm_set_property (props : List DrmProperty) (name val : String) :
    releases (drm_set_property props name val).1 = [] := by
  induction props with
  | nil => simp [drm_set_property, releases]
  | cons prop rest ih =>
    unfold drm_set_property
    split
    · exact ih
    · split
      · exact ih
      · split <;> simp [releases]

theorem releases_setup_colour_space (props : List DrmProperty) (cs : Option ColorSpace)
    (ok : Bool) : releases (setup_colour_space props cs ok).1 = [] := by
  unfold setup_colour_space
  split <;> simp [releases_append, releases_drm_set_property, releases]

theorem egl_makeBuffer_releases (p : EglPreview) (e : EglImportEnv) (fd : Int)
    (size : Nat) (info : StreamInfo) (b : EglPreview.Buffer) :
    releases (EglPreview.makeBuffer p e fd size info b).events = [] ∧
    (EglPreview.makeBuffer p e fd size info b).state.1.last_fd_ = p.last_fd_ := by
  unfold EglPreview.makeBuffer
  cases p.first_time_ <;> cases e.makeCurrentOk <;> cases e.setupOk <;> cases e.imageOk <;>
    simp [releases]

theorem egl_lookup1_releases (p : EglPreview) (a : EglShowArgs) :
    releases (EglPreview.lookup1 p a).events = [] ∧
    (EglPreview.lookup1 p a).state.1.last_fd_ = p.last_fd_ := by
  by_cases hc : (mapIndex EglPreview.Buffer.new p.buffers_ a.fd).2.fd = -1 <;>
    simp only [EglPreview.lookup1, hc, if_true, if_false]
  · have h := egl_makeBuffer_releases
      { p with buffers_ := (mapIndex EglPreview.Buffer.new p.buffers_ a.fd).1 }
      a.env a.fd a.size a.info (mapIndex EglPreview.Buffer.new p.buffers_ a.fd).2
    exact ⟨h.1, h.2⟩
  · simp [releases]

theorem egl_lookup2_releases (p : EglPreview) (a : EglShowArgs) :
    releases (EglPreview.lookup2 p a).events = [] ∧
    (EglPreview.lookup2 p a).state.1.last_fd_ = p.last_fd_ := by
  by_cases hc : (mapIndex EglPreview.Buffer.new p.buffers2_ a.fd2).2.fd = -1 <;>
    simp only [EglPreview.lookup2, hc, if_true, if_false]
  · have h := egl_makeBuffer_releases
      { p with buffers2_ := (mapIndex EglPreview.Buffer.new p.buffers2_ a.fd2).1 }
      a.env2 a.fd2 a.size2 a.info2 (mapIndex EglPreview.Buffer.new p.buffers2_ a.fd2).2
    exact ⟨h.1, h.2⟩
  · simp [releases]

theorem egl_reclaimStep :
    ReclaimStep EglPreview.call EglPreview.last_fd_ EglShowArgs.fd := by
  refine ⟨?_, ?_, ?_⟩
  · intro s a h
    have h1 := egl_lookup1_releases s a
    have h2 := egl_lookup2_releases (EglPreview.lookup1 s a).state.1 a
    simp only [EglPreview.call, EglPreview.Show] at h ⊢
    cases e1 : (EglPreview.lookup1 s a).error with
    | some err => simp [e1] at h
    | none =>
      cases e2 : (EglPreview.lookup2 (EglPreview.lookup1 s a).state.1 a).error with
      | some err => simp [e1, e2] at h
      | none =>
        simp [e1, e2, releases_append, h1.1, h2.1, EglPreview.drawEvents, releases,
          releases_releaseEvents, h2.2, h1.2]
  · intro s a h
    have h1 := egl_lookup1_releases s a
    have h2 := egl_lookup2_releases (EglPreview.lookup1 s a).state.1 a
    simp only [EglPreview.call, EglPreview.Show] at h ⊢
    cases e1 : (EglPreview.lookup1 s a).error with
    | some err => simp [e1, h1.1, h1.2]
    | none =>
      cases e2 : (EglPreview.lookup2 (EglPreview.lookup1 s a).state.1 a).error with
      | some err => simp [e1, e2, releases_append, h1.1, h2.1, h2.2, h1.2]
      | none => simp [e1, e2] at h
  · intro s
    simp [EglPreview.call, EglPreview.Reset, releases_append, releases,
      releases_map_deleteTexture (fun kv : Int × EglPreview.Buffer => kv.2.texture)]

theorem drm_firstTime_releases (p : DrmPreview) (e : DrmEnv) (info : StreamInfo) :
    releases (DrmPreview.firstTime p e info).events = [] ∧
    (DrmPreview.firstTime p e info).state.last_fd_ = p.last_fd_ := by
  unfold DrmPreview.firstTime
  cases p.first_time_ <;> cases e.makeCurrentOk <;>
    simp [releases, releases_setup_colour_space]

theorem drm_rotate_releases (p : DrmPreview) (fd : Int) :
    releases (DrmPreview.rotate p fd).2 = [] ∧ (DrmPreview.rotate p fd).1.last_fd_ = p.last_fd_ := by
  unfold DrmPreview.rotate
  by_cases h : p.previous_bo = 0 <;> simp [h, releases]

theorem drm_makeBuffer_releases (p : DrmPreview) (e : DrmEnv) (fd : Int)
    (size : Nat) (info : StreamInfo) (b : DrmPreview.Buffer) :
    releases (DrmPreview.makeBuffer p e fd size info b).events = [] ∧
    (DrmPreview.makeBuffer p e fd size info b).state.1.last_fd_ = p.last_fd_ := by
  have h1 := drm_firstTime_releases p e info
  simp only [DrmPreview.makeBuffer]
  cases e1 : (DrmPreview.firstTime p e info).error with
  | some err => simp [h1.1, h1.2]
  | none =>
    cases e.primeOk <;> cases e.addFbOk <;> cases e.imageOk <;>
      simp [releases_append, releases, h1.1, h1.2, (drm_rotate_releases _ _).1,
        (drm_rotate_releases _ _).2]

theorem drm_lookup_releases (p : DrmPreview) (a : DrmShowArgs) :
    releases (DrmPreview.lookup p a).events = [] ∧
    (DrmPreview.lookup p a).state.1.last_fd_ = p.last_fd_ := by
  by_cases hc : (mapIndex DrmPreview.Buffer.new p.buffers_ a.fd).2.fd = -1 <;>
    simp only [DrmPreview.lookup, hc, if_true, if_false]
  · have h := drm_makeBuffer_releases
      { p with buffers_ := (mapIndex DrmPreview.Buffer.new p.buffers_ a.fd).1 }
      a.env a.fd a.size a.info (mapIndex DrmPreview.Buffer.new p.buffers_ a.fd).2
    exact ⟨h.1, h.2⟩
  · simp [releases]

theorem releases_flatten_rmFB (l : List (Int × DrmPreview.Buffer)) :
    releases (l.map (fun kv =>
      [Event.rmFB kv.2.fb_handle, Event.deleteTexture kv.2.texture])).flatten = [] := by
  induction l with
  | nil => rfl
  | cons x xs ih => simpa [releases] using ih

theorem drm_reclaimStep :
    ReclaimStep DrmPreview.call DrmPreview.last_fd_ DrmShowArgs.fd := by
  refine ⟨?_, ?_, ?_⟩
  · intro s a h
    have h1 := drm_lookup_releases s a
    simp only [DrmPreview.call, DrmPreview.Show] at h ⊢
    cases e1 : (DrmPreview.lookup s a).error with
    | some err => simp [e1] at h
    | none =>
      cases e2 : letterbox (DrmPreview.lookup s a).state.1.width_
          (DrmPreview.lookup s a).state.1.height_ a.info.width a.info.height with
      | none => simp [e1, e2] at h
      | some rect =>
        cases e3 : a.env.setPlaneOk with
        | false => simp [e1, e2, e3] at h
        | true =>
          simp [e1, e2, e3, releases_append, h1.1, h1.2, DrmPreview.drawEvents, releases,
            releases_releaseEvents, DrmPreview.setPlaneEvent]
  · intro s a h
    have h1 := drm_lookup_releases s a
    simp only [DrmPreview.call, DrmPreview.Show] at h ⊢
    cases e1 : (DrmPreview.lookup s a).error with
    | some err => simp [e1, h1.1, h1.2]
    | none =>
      cases e2 : letterbox (DrmPreview.lookup s a).state.1.width_
          (DrmPreview.lookup s a).state.1.height_ a.info.width a.info.height with
      | none => simp [e1, e2, h1.1, h1.2]
      | some rect =>
        cases e3 : a.env.setPlaneOk with
        | false =>
          simp [e1, e2, e3, releases_append, h1.1, h1.2, DrmPreview.drawEvents, releases,
            DrmPreview.setPlaneEvent]
        | true => simp [e1, e2, e3] at h
  · intro s
    simp [DrmPreview.call, DrmPreview.Reset, releases_append, releases,
      releases_flatten_rmFB]

/-! ## The import cache of the windowed back-end -/

theorem egl_makeBuffer_frame (p : EglPreview) (e : EglImportEnv) (fd : Int)
    (size : Nat) (info : StreamInfo) (b : EglPreview.Buffer) :
    (EglPreview.makeBuffer p e fd size info b).state.1.buffers_ = p.buffers_ ∧
    (EglPreview.makeBuffer p e fd size info b).state.1.buffers2_ = p.buffers2_ ∧
    ((EglPreview.makeBuffer p e fd size info b).error = none →
      (EglPreview.makeBuffer p e fd size info b).state.2.fd = fd) := by
  unfold EglPreview.makeBuffer
  cases p.first_time_ <;> cases e.makeCurrentOk <;> cases e.setupOk <;> cases e.imageOk <;>
    simp

theorem egl_lookup1_hit (p : EglPreview) (a : EglShowArgs)
    (h : marked EglPreview.Buffer.fd p.buffers_ a.fd) :
    (EglPreview.lookup1 p a).events = [] ∧ (EglPreview.lookup1 p a).error = none ∧
    (EglPreview.lookup1 p a).state.1 = p := by
  obtain ⟨b, hb, hfd⟩ := h
  simp [EglPreview.lookup1, mapIndex_hit _ _ _ _ hb, hfd]

theorem egl_lookup2_hit (p : EglPreview) (a : EglShowArgs)
    (h : marked EglPreview.Buffer.fd p.buffers2_ a.fd2) :
    (EglPreview.lookup2 p a).events = [] ∧ (EglPreview.lookup2 p a).error = none ∧
    (EglPreview.lookup2 p a).state.1 = p := by
  obtain ⟨b, hb, hfd⟩ := h
  simp [EglPreview.lookup2, mapIndex_hit _ _ _ _ hb, hfd]

theorem egl_lookup1_frame (p : EglPreview) (a : EglShowArgs) :
    (EglPreview.lookup1 p a).state.1.buffers2_ = p.buffers2_ ∧
    (∀ id, id ≠ a.fd →
      mapFind (EglPreview.lookup1 p a).state.1.buffers_ id = mapFind p.buffers_ id) ∧
    ((EglPreview.lookup1 p a).error = none → a.fd ≠ -1 →
      marked EglPreview.Buffer.fd (EglPreview.lookup1 p a).state.1.buffers_ a.fd) := by
  by_cases hc : (mapIndex EglPreview.Buffer.new p.buffers_ a.fd).2.fd = -1
  · have hf := egl_makeBuffer_frame
      { p with buffers_ := (mapIndex EglPreview.Buffer.new p.buffers_ a.fd).1 }
      a.env a.fd a.size a.info (mapIndex EglPreview.Buffer.new p.buffers_ a.fd).2
    simp only [EglPreview.lookup1, hc, if_true]
    refine ⟨hf.2.1, ?_, ?_⟩
    · intro id hne
      rw [mapFind_mapSet_ne _ _ _ _ hne, hf.1]
      exact mapIndex_find_ne _ _ _ _ hne
    · intro he hne
      exact ⟨_, mapFind_mapSet_self _ _ _, by rw [hf.2.2 he]; exact hne⟩
  · simp only [EglPreview.lookup1, hc, if_false]
    refine ⟨trivial, ?_, ?_⟩
    · intro id hne
      exact mapIndex_find_ne _ _ _ _ hne
    · intro _ _
      rw [mapIndex_snd] at hc
      cases hm : mapFind p.buffers_ a.fd with
      | none => simp [hm, EglPreview.Buffer.new] at hc
      | some b =>
        simp only [hm, Option.getD_some] at hc
        exact ⟨b, by simp [mapIndex_hit _ _ _ _ hm, hm], hc⟩

theorem egl_lookup2_frame (p : EglPreview) (a : EglShowArgs) :
    (EglPreview.lookup2 p a).state.1.buffers_ = p.buffers_ ∧
    (∀ id, id ≠ a.fd2 →
      mapFind (EglPreview.lookup2 p a).state.1.buffers2_ id = mapFind p.buffers2_ id) ∧
    ((EglPreview.lookup2 p a).error = none → a.fd2 ≠ -1 →
      marked EglPreview.Buffer.fd (EglPreview.lookup2 p a).state.1.buffers2_ a.fd2) := by
  by_cases hc : (mapIndex EglPreview.Buffer.new p.buffers2_ a.fd2).2.fd = -1
  · have hf := egl_makeBuffer_frame
      { p with buffers2_ := (mapIndex EglPreview.Buffer.new p.buffers2_ a.fd2).1 }
      a.env2 a.fd2 a.size2 a.info2 (mapIndex EglPreview.Buffer.new p.buffers2_ a.fd2).2
    simp only [EglPreview.lookup2, hc, if_true]
    refine ⟨hf.1, ?_, ?_⟩
    · intro id hne
      rw [mapFind_mapSet_ne _ _ _ _ hne, hf.2.1]
      exact mapIndex_find_ne _ _ _ _ hne
    · intro he hne
      exact ⟨_, mapFind_mapSet_self _ _ _, by rw [hf.2.2 he]; exact hne⟩
  · simp only [EglPreview.lookup2, hc, if_false]
    refine ⟨trivial, ?_, ?_⟩
    · intro id hne
      exact mapIndex_find_ne _ _ _ _ hne
    · intro _ _
      rw [mapIndex_snd] at hc
      cases hm : mapFind p.buffers2_ a.fd2 with
      | none => simp [hm, EglPreview.Buffer.new] at hc
      | some b =>
        simp only [hm, Option.getD_some] at hc
        exact ⟨b, by simp [mapIndex_hit _ _ _ _ hm, hm], hc⟩

theorem egl_lookup1_marked (p : EglPreview) (a : EglShowArgs) (id : Int)
    (h : marked EglPreview.Buffer.fd p.buffers_ id) :
    marked EglPreview.Buffer.fd (EglPreview.lookup1 p a).state.1.buffers_ id := by
  by_cases hid : id = a.fd
  · subst hid
    rw [(egl_lookup1_hit p a h).2.2]
    exact h
  · obtain ⟨b, hb, hfd⟩ := h
    exact ⟨b, by rw [(egl_lookup1_frame p a).2.1 id hid]; exact hb, hfd⟩

theorem egl_lookup2_marked (p : EglPreview) (a : EglShowArgs) (id : Int)
    (h : marked EglPreview.Buffer.fd p.buffers2_ id) :
    marked EglPreview.Buffer.fd (EglPreview.lookup2 p a).state.1.buffers2_ id := by
  by_cases hid : id = a.fd2
  · subst hid
    rw [(egl_lookup2_hit p a h).2.2]
    exact h
  · obtain ⟨b, hb, hfd⟩ := h
    exact ⟨b, by rw [(egl_lookup2_frame p a).2.1 id hid]; exact hb, hfd⟩

/-- The caches after `EglPreview::Show`, in terms of the two lookups. -/
theorem egl_Show_buffers (p : EglPreview) (a : EglShowArgs) :
    ((EglPreview.Show p a).state.buffers_ = (EglPreview.lookup1 p a).state.1.buffers_) ∧
    ((EglPreview.Show p a).state.buffers2_ = (EglPreview.lookup1 p a).state.1.buffers2_ ∨
      (EglPreview.Show p a).state.buffers2_ =
        (EglPreview.lookup2 (EglPreview.lookup1 p a).state.1 a).state.1.buffers2_) ∧
    ((EglPreview.Show p a).error = none →
      (EglPreview.lookup1 p a).error = none ∧
      (EglPreview.lookup2 (EglPreview.lookup1 p a).state.1 a).error = none ∧
      (EglPreview.Show p a).state.buffers2_ =
        (EglPreview.lookup2 (EglPreview.lookup1 p a).state.1 a).state.1.buffers2_) := by
  have h2 := (egl_lookup2_frame (EglPreview.lookup1 p a).state.1 a).1
  simp only [EglPreview.Show]
  cases e1 : (EglPreview.lookup1 p a).error with
  | some err => simp
  | none =>
    cases e2 : (EglPreview.lookup2 (EglPreview.lookup1 p a).state.1 a).error with
    | some err => simp [h2]
    | none => simp [h2]

/-- Marked entries of either cache stay marked through `EglPreview::Show`. -/
theorem egl_Show_marked (p : EglPreview) (a : EglShowArgs) (id : Int) :
    (marked EglPreview.Buffer.fd p.buffers_ id →
      marked EglPreview.Buffer.fd (EglPreview.Show p a).state.buffers_ id) ∧
    (marked EglPreview.Buffer.fd p.buffers2_ id →
      marked EglPreview.Buffer.fd (EglPreview.Show p a).state.buffers2_ id) := by
  have hs := egl_Show_buffers p a
  constructor
  · intro h
    rw [hs.1]
    exact egl_lookup1_marked p a id h
  · intro h
    have h1 : marked EglPreview.Buffer.fd (EglPreview.lookup1 p a).state.1.buffers2_ id := by
      rw [(egl_lookup1_frame p a).1]; exact h
    rcases hs.2.1 with hb | hb
    · rw [hb]; exact h1
    · rw [hb]; exact egl_lookup2_marked _ a id h1

/-- After `EglPreview::Show` has returned, each of its two ids other than -1 is marked in the
cache of its stream. -/
theorem egl_Show_ok_marked (p : EglPreview) (a : EglShowArgs)
    (he : (EglPreview.Show p a).error = none) :
    (a.fd ≠ -1 → marked EglPreview.Buffer.fd (EglPreview.Show p a).state.buffers_ a.fd) ∧
    (a.fd2 ≠ -1 → marked EglPreview.Buffer.fd (EglPreview.Show p a).state.buffers2_ a.fd2) := by
  have hs := egl_Show_buffers p a
  obtain ⟨e1, e2, hb2⟩ := hs.2.2 he
  constructor
  · intro hne
    rw [hs.1]
    exact (egl_lookup1_frame p a).2.2 e1 hne
  · intro hne
    rw [hb2]
    exact (egl_lookup2_frame _ a).2.2 e2 hne

theorem egl_presents_marked (p : EglPreview) (as : List EglShowArgs) (id : Int) :
    (marked EglPreview.Buffer.fd p.buffers_ id →
      marked EglPreview.Buffer.fd (finalState EglPreview.call p (presents as)).buffers_ id) ∧
    (marked EglPreview.Buffer.fd p.buffers2_ id →
      marked EglPreview.Buffer.fd (finalState EglPreview.call p (presents as)).buffers2_ id) := by
  induction as generalizing p with
  | nil => simp [presents, finalState]
  | cons a as ih =>
    have h1 := egl_Show_marked p a id
    have h2 := ih (EglPreview.Show p a).state
    exact ⟨fun h => h2.1 (h1.1 h), fun h => h2.2 (h1.2 h)⟩

/-! ## The import cache of the overlay back-end -/

theorem drm_makeBuffer_frame (p : DrmPreview) (e : DrmEnv) (fd : Int)
    (size : Nat) (info : StreamInfo) (b : DrmPreview.Buffer) :
    (DrmPreview.makeBuffer p e fd size info b).state.1.buffers_ = p.buffers_ ∧
    ((DrmPreview.makeBuffer p e fd size info b).error = none →
      (DrmPreview.makeBuffer p e fd size info b).state.2.fd = fd) := by
  have hft : (DrmPreview.firstTime p e info).state.buffers_ = p.buffers_ := by
    unfold DrmPreview.firstTime
    cases p.first_time_ <;> cases e.makeCurrentOk <;> simp
  simp only [DrmPreview.makeBuffer]
  cases e1 : (DrmPreview.firstTime p e info).error with
  | some err => simp [hft]
  | none =>
    cases e.primeOk <;> cases e.addFbOk <;> cases e.imageOk <;>
      simp [hft, DrmPreview.rotate]

theorem drm_lookup_hit (p : DrmPreview) (a : DrmShowArgs)
    (h : marked DrmPreview.Buffer.fd p.buffers_ a.fd) :
    (DrmPreview.lookup p a).events = [] ∧ (DrmPreview.lookup p a).error = none ∧
    (DrmPreview.lookup p a).state.1 = p := by
  obtain ⟨b, hb, hfd⟩ := h
  simp [DrmPreview.lookup, mapIndex_hit _ _ _ _ hb, hfd]

theorem drm_lookup_frame (p : DrmPreview) (a : DrmShowArgs) :
    (∀ id, id ≠ a.fd →
      mapFind (DrmPreview.lookup p a).state.1.buffers_ id = mapFind p.buffers_ id) ∧
    ((DrmPreview.lookup p a).error = none → a.fd ≠ -1 →
      marked DrmPreview.Buffer.fd (DrmPreview.lookup p a).state.1.buffers_ a.fd) := by
  by_cases hc : (mapIndex DrmPreview.Buffer.new p.buffers_ a.fd).2.fd = -1
  · have hf := drm_makeBuffer_frame
      { p with buffers_ := (mapIndex DrmPreview.Buffer.new p.buffers_ a.fd).1 }
      a.env a.fd a.size a.info (mapIndex DrmPreview.Buffer.new p.buffers_ a.fd).2
    simp only [DrmPreview.lookup, hc, if_true]
    refine ⟨?_, ?_⟩
    · intro id hne
      rw [mapFind_mapSet_ne _ _ _ _ hne, hf.1]
      exact mapIndex_find_ne _ _ _ _ hne
    · intro he hne
      exact ⟨_, mapFind_mapSet_self _ _ _, by rw [hf.2 he]; exact hne⟩
  · simp only [DrmPreview.lookup, hc, if_false]
    refine ⟨?_, ?_⟩
    · intro id hne
      exact mapIndex_find_ne _ _ _ _ hne
    · intro _ _
      rw [mapIndex_snd] at hc
      cases hm : mapFind p.buffers_ a.fd with
      | none => simp [hm, DrmPreview.Buffer.new] at hc
      | some b =>
        simp only [hm, Option.getD_some] at hc
        exact ⟨b, by simp [mapIndex_hit _ _ _ _ hm, hm], hc⟩

theorem drm_lookup_marked (p : DrmPreview) (a : DrmShowArgs) (id : Int)
    (h : marked DrmPreview.Buffer.fd p.buffers_ id) :
    marked DrmPreview.Buffer.fd (DrmPreview.lookup p a).state.1.buffers_ id := by
  by_cases hid : id = a.fd
  · subst hid
    rw [(drm_lookup_hit p a h).2.2]
    exact h
  · obtain ⟨b, hb, hfd⟩ := h
    exact ⟨b, by rw [(drm_lookup_frame p a).1 id hid]; exact hb, hfd⟩

/-- The cache after `DrmPreview::Show` is the cache after its lookup. -/
theorem drm_Show_buffers (p : DrmPreview) (a : DrmShowArgs) :
    (DrmPreview.Show p a).state.buffers_ = (DrmPreview.lookup p a).state.1.buffers_ ∧
    ((DrmPreview.Show p a).error = none → (DrmPreview.lookup p a).error = none) := by
  simp only [DrmPreview.Show]
  cases e1 : (DrmPreview.lookup p a).error with
  | some err => simp
  | none =>
    cases e2 : letterbox (DrmPreview.lookup p a).state.1.width_
        (DrmPreview.lookup p a).state.1.height_ a.info.width a.info.height with
    | none => simp
    | some rect => cases e3 : a.env.setPlaneOk <;> simp

theorem drm_Show_marked (p : DrmPreview) (a : DrmShowArgs) (id : Int)
    (h : marked DrmPreview.Buffer.fd p.buffers_ id) :
    marked DrmPreview.Buffer.fd (DrmPreview.Show p a).state.buffers_ id := by
  rw [(drm_Show_buffers p a).1]
  exact drm_lookup_marked p a id h

/-- After `DrmPreview::Show` has returned, its id, when not -1, is marked in the cache. -/
theorem drm_Show_ok_marked (p : DrmPreview) (a : DrmShowArgs)
    (he : (DrmPreview.Show p a).error = none) (hne : a.fd ≠ -1) :
    marked DrmPreview.Buffer.fd (DrmPreview.Show p a).state.buffers_ a.fd := by
  rw [(drm_Show_buffers p a).1]
  exact (drm_lookup_frame p a).2 ((drm_Show_buffers p a).2 he) hne

theorem drm_presents_marked (p : DrmPreview) (as : List DrmShowArgs) (id : Int)
    (h : marked DrmPreview.Buffer.fd p.buffers_ id) :
    marked DrmPreview.Buffer.fd (finalState DrmPreview.call p (presents as)).buffers_ id := by
  induction as generalizing p with
  | nil => simpa [presents, finalState] using h
  | cons a as ih => exact ih (DrmPreview.Show p a).state (drm_Show_marked p a id h)

/-! ## Lemmas on imports, textures and framebuffers -/

theorem imports_append (xs ys : List Event) : imports (xs ++ ys) = imports xs ++ imports ys := by
  induction xs with
  | nil => rfl
  | cons x xs ih =>
    cases x <;> simp [imports, ih]
    rename_i a ok
    cases ok <;> simp [imports, ih]

theorem texturesCreated_append (xs ys : List Event) :
    texturesCreated (xs ++ ys) = texturesCreated xs ++ texturesCreated ys := by
  induction xs with
  | nil => rfl
  | cons x xs ih => cases x <;> simp [texturesCreated, ih]

theorem framebuffersCreated_append (xs ys : List Event) :
    framebuffersCreated (xs ++ ys) = framebuffersCreated xs ++ framebuffersCreated ys := by
  induction xs with
  | nil => rfl
  | cons x xs ih =>
    cases x <;> simp [framebuffersCreated, ih]
    rename_i w h hs ps os fb ok
    cases ok <;> simp [framebuffersCreated, ih]

theorem swaps_append (xs ys : List Event) : swaps (xs ++ ys) = swaps xs + swaps ys := by
  induction xs with
  | nil => simp [swaps]
  | cons x xs ih =>
    cases x <;> simp [swaps, ih]
    omega

theorem releaseEvents_no_import (l : Int) :
    imports (releaseEvents l) = [] ∧ texturesCreated (releaseEvents l) = [] ∧
    framebuffersCreated (releaseEvents l) = [] ∧ swaps (releaseEvents l) = 0 := by
  unfold releaseEvents
  split <;> simp [imports, texturesCreated, framebuffersCreated, swaps]

theorem drm_set_property_no_import (props : List DrmProperty) (name val : String) :
    imports (drm_set_property props name val).1 = [] ∧
    texturesCreated (drm_set_property props name val).1 = [] ∧
    framebuffersCreated (drm_set_property props name val).1 = [] := by
  induction props with
  | nil => simp [drm_set_property, imports, texturesCreated, framebuffersCreated]
  | cons prop rest ih =>
    unfold drm_set_property
    split
    · exact ih
    · split
      · exact ih
      · split <;> simp [imports, texturesCreated, framebuffersCreated]

theorem setup_colour_space_no_import (props : List DrmProperty) (cs : Option ColorSpace)
    (ok : Bool) :
    imports (setup_colour_space props cs ok).1 = [] ∧
    texturesCreated (setup_colour_space props cs ok).1 = [] ∧
    framebuffersCreated (setup_colour_space props cs ok).1 = [] := by
  unfold setup_colour_space
  split <;>
    simp [imports_append, texturesCreated_append, framebuffersCreated_append,
      drm_set_property_no_import, imports, texturesCreated, framebuffersCreated]

/-- An `EglPreview::makeBuffer` call that returns has created one image, from the attribute
list of its arguments, and one texture. -/
theorem egl_makeBuffer_ok (p : EglPreview) (e : EglImportEnv) (fd : Int)
    (size : Nat) (info : StreamInfo) (b : EglPreview.Buffer)
    (he : (EglPreview.makeBuffer p e fd size info b).error = none) :
    imports (EglPreview.makeBuffer p e fd size info b).events = [eglAttribs fd info] ∧
    texturesCreated (EglPreview.makeBuffer p e fd size info b).events = [e.texture] ∧
    swaps (EglPreview.makeBuffer p e fd size info b).events = 0 := by
  revert he
  unfold EglPreview.makeBuffer
  cases p.first_time_ <;> cases e.makeCurrentOk <;> cases e.setupOk <;> cases e.imageOk <;>
    simp [imports, texturesCreated, swaps]

/-- A `DrmPreview::makeBuffer` call that returns has created one image, from the attribute
list of its arguments, one texture and one framebuffer. -/
theorem drm_makeBuffer_ok (p : DrmPreview) (e : DrmEnv) (fd : Int)
    (size : Nat) (info : StreamInfo) (b : DrmPreview.Buffer)
    (he : (DrmPreview.makeBuffer p e fd size info b).error = none) :
    imports (DrmPreview.makeBuffer p e fd size info b).events = [drmAttribs fd info] ∧
    texturesCreated (DrmPreview.makeBuffer p e fd size info b).events = [e.texture] ∧
    framebuffersCreated (DrmPreview.makeBuffer p e fd size info b).events = [e.fb_handle] := by
  have hft : imports (DrmPreview.firstTime p e info).events = [] ∧
      texturesCreated (DrmPreview.firstTime p e info).events = [] ∧
      framebuffersCreated (DrmPreview.firstTime p e info).events = [] := by
    unfold DrmPreview.firstTime
    cases p.first_time_ <;> cases e.makeCurrentOk <;>
      simp [imports, texturesCreated, framebuffersCreated, setup_colour_space_no_import]
  have hrot : ∀ q : DrmPreview, imports (DrmPreview.rotate q fd).2 = [] ∧
      texturesCreated (DrmPreview.rotate q fd).2 = [] ∧
      framebuffersCreated (DrmPreview.rotate q fd).2 = [] := by
    intro q
    unfold DrmPreview.rotate
    by_cases h : q.previous_bo = 0 <;> simp [h, imports, texturesCreated, framebuffersCreated]
  revert he
  simp only [DrmPreview.makeBuffer]
  cases e1 : (DrmPreview.firstTime p e info).error with
  | some err => simp
  | none =>
    cases e.primeOk <;> cases e.addFbOk <;> cases e.imageOk <;>
      simp [imports_append, texturesCreated_append, framebuffersCreated_append, imports,
        texturesCreated, framebuffersCreated, hft, hrot]

/-- Every `makeBuffer` call makes at least one call to the outside world. -/
theorem makeBuffer_events_ne_nil :
    (∀ (p : EglPreview) (e : EglImportEnv) (fd : Int) (size : Nat) (info : StreamInfo)
      (b : EglPreview.Buffer), (EglPreview.makeBuffer p e fd size info b).events ≠ []) ∧
    (∀ (p : DrmPreview) (e : DrmEnv) (fd : Int) (size : Nat) (info : StreamInfo)
      (b : DrmPreview.Buffer), (DrmPreview.makeBuffer p e fd size info b).events ≠ []) := by
  constructor
  · intro p e fd size info b
    unfold EglPreview.makeBuffer
    cases p.first_time_ <;> cases e.makeCurrentOk <;> cases e.setupOk <;> cases e.imageOk <;>
      simp
  · intro p e fd size info b
    simp only [DrmPreview.makeBuffer]
    cases e1 : (DrmPreview.firstTime p e info).error with
    | some err =>
      revert e1
      unfold DrmPreview.firstTime
      cases p.first_time_ <;> cases e.makeCurrentOk <;> simp
    | none =>
      cases e.primeOk <;> cases e.addFbOk <;> cases e.imageOk <;> simp

/-- The lookup of an id with no marked entry runs `makeBuffer`; when it returns, one image and
one texture have been created. -/
theorem egl_lookup1_miss (p : EglPreview) (a : EglShowArgs)
    (hm : ¬ marked EglPreview.Buffer.fd p.buffers_ a.fd)
    (he : (EglPreview.lookup1 p a).error = none) :
    imports (EglPreview.lookup1 p a).events = [eglAttribs a.fd a.info] ∧
    texturesCreated (EglPreview.lookup1 p a).events = [a.env.texture] ∧
    swaps (EglPreview.lookup1 p a).events = 0 := by
  have hc : (mapIndex EglPreview.Buffer.new p.buffers_ a.fd).2.fd = -1 := by
    by_contra hne
    apply hm
    rw [mapIndex_snd] at hne
    cases hf : mapFind p.buffers_ a.fd with
    | none => simp [hf, EglPreview.Buffer.new] at hne
    | some b => exact ⟨b, hf, by simpa [hf] using hne⟩
  simp only [EglPreview.lookup1, hc, if_true] at he ⊢
  exact egl_makeBuffer_ok _ _ _ _ _ _ he

theorem egl_lookup2_miss (p : EglPreview) (a : EglShowArgs)
    (hm : ¬ marked EglPreview.Buffer.fd p.buffers2_ a.fd2)
    (he : (EglPreview.lookup2 p a).error = none) :
    imports (EglPreview.lookup2 p a).events = [eglAttribs a.fd2 a.info2] ∧
    texturesCreated (EglPreview.lookup2 p a).events = [a.env2.texture] ∧
    swaps (EglPreview.lookup2 p a).events = 0 := by
  have hc : (mapIndex EglPreview.Buffer.new p.buffers2_ a.fd2).2.fd = -1 := by
    by_contra hne
    apply hm
    rw [mapIndex_snd] at hne
    cases hf : mapFind p.buffers2_ a.fd2 with
    | none => simp [hf, EglPreview.Buffer.new] at hne
    | some b => exact ⟨b, hf, by simpa [hf] using hne⟩
  simp only [EglPreview.lookup2, hc, if_true] at he ⊢
  exact egl_makeBuffer_ok _ _ _ _ _ _ he

theorem drm_lookup_miss (p : DrmPreview) (a : DrmShowArgs)
    (hm : ¬ marked DrmPreview.Buffer.fd p.buffers_ a.fd)
    (he : (DrmPreview.lookup p a).error = none) :
    imports (DrmPreview.lookup p a).events = [drmAttribs a.fd a.info] ∧
    texturesCreated (DrmPreview.lookup p a).events = [a.env.texture] ∧
    framebuffersCreated (DrmPreview.lookup p a).events = [a.env.fb_handle] := by
  have hc : (mapIndex DrmPreview.Buffer.new p.buffers_ a.fd).2.fd = -1 := by
    by_contra hne
    apply hm
    rw [mapIndex_snd] at hne
    cases hf : mapFind p.buffers_ a.fd with
    | none => simp [hf, DrmPreview.Buffer.new] at hne
    | some b => exact ⟨b, hf, by simpa [hf] using hne⟩
  simp only [DrmPreview.lookup, hc, if_true] at he ⊢
  exact drm_makeBuffer_ok _ _ _ _ _ _ he

/-- The events of an `EglPreview::Show` call that returns: the two lookups, the drawing calls
with one buffer swap, the release. -/
theorem egl_Show_ok_events (p : EglPreview) (a : EglShowArgs)
    (he : (EglPreview.Show p a).error = none) :
    (EglPreview.Show p a).events =
      (EglPreview.lookup1 p a).events ++
      (EglPreview.lookup2 (EglPreview.lookup1 p a).state.1 a).events ++
      EglPreview.drawEvents (EglPreview.lookup1 p a).state.2.texture
        (EglPreview.lookup2 (EglPreview.lookup1 p a).state.1 a).state.2.texture ++
      releaseEvents p.last_fd_ := by
  have h1 := (egl_lookup1_releases p a).2
  have h2 := (egl_lookup2_releases (EglPreview.lookup1 p a).state.1 a).2
  revert he
  simp only [EglPreview.Show]
  cases e1 : (EglPreview.lookup1 p a).error with
  | some err => simp
  | none =>
    cases e2 : (EglPreview.lookup2 (EglPreview.lookup1 p a).state.1 a).error with
    | some err => simp
    | none => simp [h1, h2]

/-- The imports, textures and framebuffers created by a `DrmPreview::Show` call are those of
its lookup. -/
theorem drm_Show_imports (p : DrmPreview) (a : DrmShowArgs) :
    imports (DrmPreview.Show p a).events = imports (DrmPreview.lookup p a).events ∧
    texturesCreated (DrmPreview.Show p a).events =
      texturesCreated (DrmPreview.lookup p a).events ∧
    framebuffersCreated (DrmPreview.Show p a).events =
      framebuffersCreated (DrmPreview.lookup p a).events := by
  simp only [DrmPreview.Show]
  cases e1 : (DrmPreview.lookup p a).error with
  | some err => simp
  | none =>
    cases e2 : letterbox (DrmPreview.lookup p a).state.1.width_
        (DrmPreview.lookup p a).state.1.height_ a.info.width a.info.height with
    | none => simp
    | some rect =>
      cases e3 : a.env.setPlaneOk <;>
        simp [imports_append, texturesCreated_append, framebuffersCreated_append,
          DrmPreview.drawEvents, DrmPreview.setPlaneEvent, imports, texturesCreated,
          framebuffersCreated, releaseEvents_no_import]

/-! ## Hand-off and release of the previous buffer object -/

theorem handoffCalls_append (xs ys : List Event) :
    handoffCalls (xs ++ ys) = handoffCalls xs ++ handoffCalls ys := by
  induction xs with
  | nil => rfl
  | cons x xs ih => cases x <;> simp [handoffCalls, ih]

theorem handoffCalls_drm_set_property (props : List DrmProperty) (name val : String) :
    handoffCalls (drm_set_property props name val).1 = [] := by
  induction props with
  | nil => simp [drm_set_property, handoffCalls]
  | cons prop rest ih =>
    unfold drm_set_property
    split
    · exact ih
    · split
      · exact ih
      · split <;> simp [handoffCalls]

theorem handoffCalls_firstTime (p : DrmPreview) (e : DrmEnv) (info : StreamInfo) :
    handoffCalls (DrmPreview.firstTime p e info).events = [] := by
  unfold DrmPreview.firstTime setup_colour_space
  cases p.first_time_ <;> cases e.makeCurrentOk <;> cases e.setupOk <;>
    simp [handoffCalls, handoffCalls_append, handoffCalls_drm_set_property]

/-- The members that `DrmPreview::makeBuffer` leaves alone in its first-time block. -/
theorem drm_firstTime_frame (p : DrmPreview) (e : DrmEnv) (info : StreamInfo) :
    (DrmPreview.firstTime p e info).state.previous_bo = p.previous_bo ∧
    (DrmPreview.firstTime p e info).state.previous_fb = p.previous_fb ∧
    (DrmPreview.firstTime p e info).state.width_ = p.width_ ∧
    (DrmPreview.firstTime p e info).state.height_ = p.height_ := by
  unfold DrmPreview.firstTime
  cases p.first_time_ <;> cases e.makeCurrentOk <;> simp

/-- The hand-off and release calls of `DrmPreview::makeBuffer`: none when it throws; when it
returns, the release of the previous buffer object, if there is one. -/
theorem drm_makeBuffer_handoff (p : DrmPreview) (e : DrmEnv) (fd : Int)
    (size : Nat) (info : StreamInfo) (b : DrmPreview.Buffer) :
    ((DrmPreview.makeBuffer p e fd size info b).error ≠ none →
      handoffCalls (DrmPreview.makeBuffer p e fd size info b).events = []) ∧
    ((DrmPreview.makeBuffer p e fd size info b).error = none →
      handoffCalls (DrmPreview.makeBuffer p e fd size info b).events =
        if p.previous_bo ≠ 0 then [Event.rmFB p.previous_fb, Event.releaseBuffer p.previous_bo]
        else []) ∧
    (DrmPreview.makeBuffer p e fd size info b).state.1.width_ = p.width_ ∧
    (DrmPreview.makeBuffer p e fd size info b).state.1.height_ = p.height_ := by
  have hf := drm_firstTime_frame p e info
  have hh := handoffCalls_firstTime p e info
  simp only [DrmPreview.makeBuffer]
  cases e1 : (DrmPreview.firstTime p e info).error with
  | some err => simp [hh, hf]
  | none =>
    cases e.primeOk <;> cases e.addFbOk <;> cases e.imageOk <;>
      simp [handoffCalls_append, handoffCalls, hh, hf, DrmPreview.rotate]
    by_cases hp : p.previous_bo = 0 <;> simp [hp, handoffCalls]

theorem drm_lookup_handoff (p : DrmPreview) (a : DrmShowArgs) :
    ((DrmPreview.lookup p a).error ≠ none → handoffCalls (DrmPreview.lookup p a).events = []) ∧
    (marked DrmPreview.Buffer.fd p.buffers_ a.fd →
      handoffCalls (DrmPreview.lookup p a).events = []) ∧
    (¬ marked DrmPreview.Buffer.fd p.buffers_ a.fd → (DrmPreview.lookup p a).error = none →
      handoffCalls (DrmPreview.lookup p a).events =
        if p.previous_bo ≠ 0 then [Event.rmFB p.previous_fb, Event.releaseBuffer p.previous_bo]
        else []) ∧
    (DrmPreview.lookup p a).state.1.width_ = p.width_ ∧
    (DrmPreview.lookup p a).state.1.height_ = p.height_ := by
  refine ⟨?_, ?_, ?_, ?_, ?_⟩
  · by_cases hc : (mapIndex DrmPreview.Buffer.new p.buffers_ a.fd).2.fd = -1 <;>
      simp only [DrmPreview.lookup, hc, if_true, if_false]
    · exact (drm_makeBuffer_handoff _ _ _ _ _ _).1
    · simp [handoffCalls]
  · intro hm
    rw [(drm_lookup_hit p a hm).1]; rfl
  · intro hm
    have hc : (mapIndex DrmPreview.Buffer.new p.buffers_ a.fd).2.fd = -1 := by
      by_contra hne
      apply hm
      rw [mapIndex_snd] at hne
      cases hf : mapFind p.buffers_ a.fd with
      | none => simp [hf, DrmPreview.Buffer.new] at hne
      | some b => exact ⟨b, hf, by simpa [hf] using hne⟩
    simp only [DrmPreview.lookup, hc, if_true]
    exact (drm_makeBuffer_handoff _ _ _ _ _ _).2.1
  · by_cases hc : (mapIndex DrmPreview.Buffer.new p.buffers_ a.fd).2.fd = -1 <;>
      simp only [DrmPreview.lookup, hc, if_true, if_false]
    exact (drm_makeBuffer_handoff _ _ _ _ _ _).2.2.1
  · by_cases hc : (mapIndex DrmPreview.Buffer.new p.buffers_ a.fd).2.fd = -1 <;>
      simp only [DrmPreview.lookup, hc, if_true, if_false]
    exact (drm_makeBuffer_handoff _ _ _ _ _ _).2.2.2

/-- The hand-off and release calls of `DrmPreview::Show`: those of the lookup, then the
`drmModeSetPlane` call when the call gets that far. -/
theorem drm_Show_handoff (p : DrmPreview) (a : DrmShowArgs) :
    ((DrmPreview.lookup p a).error ≠ none →
      handoffCalls (DrmPreview.Show p a).events = handoffCalls (DrmPreview.lookup p a).events) ∧
    ((DrmPreview.lookup p a).error = none →
      letterbox p.width_ p.height_ a.info.width a.info.height = none →
      handoffCalls (DrmPreview.Show p a).events = handoffCalls (DrmPreview.lookup p a).events) ∧
    (∀ rect, (DrmPreview.lookup p a).error = none →
      letterbox p.width_ p.height_ a.info.width a.info.height = some rect →
      handoffCalls (DrmPreview.Show p a).events =
        handoffCalls (DrmPreview.lookup p a).events ++
          [DrmPreview.setPlaneEvent (DrmPreview.lookup p a).state.1
            (DrmPreview.lookup p a).state.2 rect a.env.setPlaneOk]) := by
  have hw := (drm_lookup_handoff p a).2.2.2.1
  have hh := (drm_lookup_handoff p a).2.2.2.2
  simp only [DrmPreview.Show, hw, hh]
  refine ⟨?_, ?_, ?_⟩
  · intro he
    cases e1 : (DrmPreview.lookup p a).error with
    | some err => simp
    | none => exact absurd e1 he
  · intro he hl
    simp [he, hl]
  · intro rect he hl
    have hrel : handoffCalls (releaseEvents (DrmPreview.lookup p a).state.1.last_fd_) = [] := by
      unfold releaseEvents
      split <;> simp [handoffCalls]
    cases e3 : a.env.setPlaneOk <;>
      simp [he, hl, e3, handoffCalls_append, DrmPreview.drawEvents, handoffCalls,
        DrmPreview.setPlaneEvent, hrel]

/-! ## Consequences of the one-call lag for sequences of calls -/

section Lag

variable {σ κ : Type} {step : σ → Call κ → Res σ} {last : σ → Int} {fdOf : κ → Int}

theorem allEvents_cons (r : Res σ) (rs : List (Res σ)) :
    allEvents (r :: rs) = r.events ++ allEvents rs := by
  simp [allEvents]

/-- Every call releases at most one id. -/
theorem ReclaimStep.length_le_one (h : ReclaimStep step last fdOf) (s : σ) (c : Call κ) :
    (releases (step s c).events).length ≤ 1 := by
  cases c with
  | reset => simp [(h.2.2 s).1]
  | present a =>
    by_cases e : (step s (Call.present a)).error = none
    · rw [(h.1 s a e).1]; split <;> simp
    · rw [(h.2.1 s a e).1]; simp

/-- The accounting identity of the reclaim protocol, for any id that is not negative: the
releases of the id, the times a `Reset` found it in flight, and one if it is in flight when
the sequence is over, add up to the `Show` calls of the id that returned, and one if it was
in flight at the start. -/
theorem ReclaimStep.accounting (h : ReclaimStep step last fdOf) (id : Int) (hid : 0 ≤ id)
    (s : σ) (cs : List (Call κ)) :
    (releases (allEvents (outcomes step s cs))).count id +
        (droppedIds step last s cs).count id +
        (if last (finalState step s cs) = id then 1 else 0) =
      (completedIds step fdOf s cs).count id + (if last s = id then 1 else 0) := by
  induction cs generalizing s with
  | nil => simp [outcomes, allEvents, releases, droppedIds, finalState, completedIds]
  | cons c cs ih =>
    have ih1 := ih (step s c).state
    cases c with
    | reset =>
      have hne : ¬ ((-1 : Int) = id) := by omega
      simp only [outcomes, allEvents_cons, releases_append, (h.2.2 s).1, droppedIds, finalState,
        completedIds, List.nil_append, List.count_cons] at ih1 ⊢
      rw [(h.2.2 s).2] at ih1
      simp only [hne, if_false] at ih1
      by_cases hl : last s = id
      · simp [hl] at ih1 ⊢; omega
      · have hl2 : ¬ ((last s == id) = true) := by simpa using hl
        simp [hl, hl2] at ih1 ⊢; omega
    | present a =>
      by_cases e : (step s (Call.present a)).error = none
      · have hcs : ∀ x : Int, List.count id [x] = if x = id then 1 else 0 := by
          intro x
          by_cases hx : x = id
          · simp [hx]
          · have hx2 : ¬ ((x == id) = true) := by simpa using hx
            simp [List.count_cons, hx, hx2]
        have hc : (if 0 ≤ last s then [last s] else []).count id =
            if last s = id then 1 else 0 := by
          by_cases h0 : 0 ≤ last s
          · simp only [h0, if_true, hcs]
          · have hne : ¬ (last s = id) := by omega
            simp [h0, hne]
        simp only [outcomes, allEvents_cons, releases_append, (h.1 s a e).1, droppedIds,
          finalState, completedIds, e, if_true, List.count_append, hc, hcs] at ih1 ⊢
        rw [(h.1 s a e).2] at ih1
        omega
      · simp only [outcomes, allEvents_cons, releases_append, (h.2.1 s a e).1, droppedIds,
          finalState, completedIds, e, if_false, List.nil_append] at ih1 ⊢
        rw [(h.2.1 s a e).2] at ih1
        exact ih1

/-- No negative id is ever released. -/
theorem ReclaimStep.released_nonneg (h : ReclaimStep step last fdOf) (s : σ)
    (cs : List (Call κ)) (id : Int) (hm : id ∈ releases (allEvents (outcomes step s cs))) :
    0 ≤ id := by
  induction cs generalizing s with
  | nil => simp [outcomes, allEvents, releases] at hm
  | cons c cs ih =>
    simp only [outcomes, allEvents_cons, releases_append, List.mem_append] at hm
    rcases hm with hm | hm
    · cases c with
      | reset => simp [(h.2.2 s).1] at hm
      | present a =>
        by_cases e : (step s (Call.present a)).error = none
        · rw [(h.1 s a e).1] at hm
          split at hm
          · simp at hm; omega
          · simp at hm
        · simp [(h.2.1 s a e).1] at hm
    · exact ih _ hm

/-- With no `Reset` in between, the in-flight id is the id of the last `Show` call that
returned, or the in-flight id at the start when none did. -/
theorem ReclaimStep.last_eq_getLast (h : ReclaimStep step last fdOf) (s : σ) (as : List κ) :
    last (finalState step s (presents as)) =
      ((completedIds step fdOf s (presents as)).getLast?).getD (last s) := by
  induction as generalizing s with
  | nil => simp [presents, finalState, completedIds]
  | cons a as ih =>
    have ih1 := ih (step s (Call.present a)).state
    simp only [presents, List.map_cons, finalState, completedIds] at ih1 ⊢
    by_cases e : (step s (Call.present a)).error = none
    · rw [ih1, (h.1 s a e).2]
      simp only [e, if_true, List.singleton_append]
      cases completedIds step fdOf (step s (Call.present a)).state (List.map Call.present as) with
      | nil => simp
      | cons x xs => simp [List.getLast?_eq_getLast _ (List.cons_ne_nil x xs)]
    · rw [ih1, (h.2.1 s a e).2]
      simp [e]

/-- Releases in a run of `Show` calls on an object with no id in flight: a call releases at
most one id, that id is the id of the last call before it that returned, and an id is
released at most as often as a call presenting it returned. -/
theorem ReclaimStep.release_after_present (h : ReclaimStep step last fdOf) (s : σ)
    (hs : last s = -1) (pre : List κ) (a : κ) (id : Int) :
    (releases (step (finalState step s (presents pre)) (Call.present a)).events).length ≤ 1 ∧
    (id ∈ releases (step (finalState step s (presents pre)) (Call.present a)).events →
      (completedIds step fdOf s (presents pre)).getLast? = some id) ∧
    (releases (allEvents (outcomes step s (presents pre)))).count id ≤
      (completedIds step fdOf s (presents pre)).count id := by
  refine ⟨h.length_le_one _ _, ?_, ?_⟩
  · intro hm
    have hl := h.last_eq_getLast s pre
    by_cases e : (step (finalState step s (presents pre)) (Call.present a)).error = none
    · rw [(h.1 _ a e).1] at hm
      split at hm
      · rename_i h0
        simp only [List.mem_singleton] at hm
        subst hm
        cases hg : (completedIds step fdOf s (presents pre)).getLast? with
        | none => rw [hg, hs] at hl; simp at hl; omega
        | some x => rw [hg] at hl; simp at hl; rw [hl]
      · simp at hm
    · simp [(h.2.1 _ a e).1] at hm
  · by_cases hid : 0 ≤ id
    · have hacc := h.accounting id hid s (presents pre)
      have hne : ¬ (last s = id) := by omega
      simp only [hne, if_false] at hacc
      omega
    · have hz : (releases (allEvents (outcomes step s (presents pre)))).count id = 0 := by
        apply List.count_eq_zero_of_not_mem
        intro hm
        exact hid (h.released_nonneg s _ id hm)
      omega

/-- The release lists of a one-call lag over ids that are not negative: the list for the
in-flight id, then one singleton per call but the last. -/
theorem lagged_eq_take (l : Int) (ids : List Int) (hids : ∀ id ∈ ids, 0 ≤ id) :
    lagged l ids = ((if 0 ≤ l then [l] else []) :: ids.map (fun id => [id])).take ids.length := by
  induction ids generalizing l with
  | nil => simp [lagged]
  | cons x xs ih =>
    have hx : 0 ≤ x := hids x (List.mem_cons_self x xs)
    have ih1 := ih x (fun id hm => hids id (List.mem_cons_of_mem x hm))
    simp only [hx, if_true] at ih1
    simp [lagged, ih1]

/-- A run of `Show` calls that all return follows the one-call lag, and after every call the
in-flight id is the id just presented. -/
theorem ReclaimStep.lag_run (h : ReclaimStep step last fdOf) (s : σ) (as : List κ)
    (hall : allCompleted (outcomes step s (presents as))) :
    releasesPerCall (outcomes step s (presents as)) = lagged (last s) (as.map fdOf) ∧
    (outcomes step s (presents as)).map (fun r => last r.state) = as.map fdOf := by
  induction as generalizing s with
  | nil => simp [presents, outcomes, releasesPerCall, lagged]
  | cons a as ih =>
    have e : (step s (Call.present a)).error = none :=
      hall _ (by simp [presents, outcomes])
    have hall1 : allCompleted (outcomes step (step s (Call.present a)).state (presents as)) := by
      intro r hr
      exact hall r (by simp only [presents, List.map_cons, outcomes]; exact List.mem_cons_of_mem _ hr)
    have ih1 := ih (step s (Call.present a)).state hall1
    simp only [presents, List.map_cons, outcomes, releasesPerCall, lagged] at ih1 ⊢
    rw [(h.1 s a e).2] at ih1 ⊢
    rw [(h.1 s a e).1]
    exact ⟨by rw [ih1.1], by rw [ih1.2]⟩

end Lag

/-! ## The letterbox rectangle -/

/-- The letterbox expressions without wrap-around: the rectangle in each of the two cases. -/
theorem letterbox_formula (width_ height_ iw ih : Nat) (hiw : iw ≠ 0) (hih : ih ≠ 0)
    (h1 : iw * height_ < WORD) (h2 : width_ * ih < WORD) :
    (iw * height_ > width_ * ih →
      letterbox width_ height_ iw ih =
        some { x_off := 0, y_off := (height_ - width_ * ih / iw) / 2, w := width_,
               h := width_ * ih / iw } ∧
      width_ * ih / iw ≤ height_) ∧
    (¬ (iw * height_ > width_ * ih) →
      letterbox width_ height_ iw ih =
        some { x_off := (width_ - height_ * iw / ih) / 2, y_off := 0, w := height_ * iw / ih,
               h := height_ } ∧
      height_ * iw / ih ≤ width_) := by
  have hH : height_ < WORD := by
    have : height_ ≤ iw * height_ := Nat.le_mul_of_pos_left _ (Nat.pos_of_ne_zero hiw)
    omega
  have hW : width_ < WORD := by
    have : width_ ≤ width_ * ih := Nat.le_mul_of_pos_right _ (Nat.pos_of_ne_zero hih)
    omega
  have e1 : (iw * height_) % WORD = iw * height_ := Nat.mod_eq_of_lt h1
  have e2 : (width_ * ih) % WORD = width_ * ih := Nat.mod_eq_of_lt h2
  have e3 : (height_ * iw) % WORD = height_ * iw := by rw [Nat.mul_comm]; exact e1
  constructor
  · intro hgt
    have hle : width_ * ih / iw ≤ height_ := by
      have : width_ * ih / iw < height_ := Nat.div_lt_of_lt_mul hgt
      omega
    refine ⟨?_, hle⟩
    have e4 : (height_ + WORD - width_ * ih / iw) % WORD = height_ - width_ * ih / iw := by
      generalize width_ * ih / iw = q at hle ⊢
      unfold WORD at hH ⊢
      omega
    simp [letterbox, e1, e2, hgt, hiw, e4]
  · intro hngt
    have hle : height_ * iw / ih ≤ width_ := by
      apply Nat.div_le_of_le_mul
      rw [Nat.mul_comm ih width_, Nat.mul_comm height_ iw]
      omega
    refine ⟨?_, hle⟩
    have e4 : (width_ + WORD - height_ * iw / ih) % WORD = width_ - height_ * iw / ih := by
      generalize height_ * iw / ih = q at hle ⊢
      unfold WORD at hW ⊢
      omega
    simp [letterbox, e1, e2, e3, hngt, hih, e4]

/-- The function `drm_set_property` in one step: the first reported enum property whose name
contains the requested name decides; its first enum entry whose name contains the value name
is set, and without such a property or entry nothing is set and the result is -1. -/
theorem drm_set_property_eq (props : List DrmProperty) (name val : String) :
    drm_set_property props name val =
      match props.find? (propertyMatches name) with
      | none => ([], -1)
      | some prop =>
        match findEnum val prop.enums with
        | some e => ([Event.setProperty prop.prop_id e.value e.setResult], e.setResult)
        | none => ([], -1) := by
  induction props with
  | nil => simp [drm_set_property]
  | cons prop rest ih =>
    unfold drm_set_property
    cases hp : prop.present <;> cases he : prop.isEnum <;> cases hs : strstr prop.name name <;>
      simp [List.find?, propertyMatches, hp, he, hs, ih]

theorem findEnum_eq_none (val : String) (enums : List DrmEnumEntry) :
    findEnum val enums = none ↔ ∀ e ∈ enums, strstr e.name val = false := by
  induction enums with
  | nil => simp [findEnum]
  | cons e rest ih =>
    unfold findEnum
    cases h : strstr e.name val <;> simp [h, ih]

/-! ## Cache entries of failed imports -/

theorem mapIndex_miss {β : Type} (fdOf : β → Int) (dflt : β) (hd : fdOf dflt = -1)
    (m : List (Int × β)) (k : Int) (hm : ¬ marked fdOf m k) :
    fdOf (mapIndex dflt m k).2 = -1 := by
  by_contra hne
  apply hm
  rw [mapIndex_snd] at hne
  cases hf : mapFind m k with
  | none => simp [hf, hd] at hne
  | some b => exact ⟨b, hf, by simpa [hf] using hne⟩

/-- An `EglPreview::makeBuffer` call that gets through its first-time block and fails to
create the image throws with the id recorded in the buffer. -/
theorem egl_makeBuffer_failed (p : EglPreview) (e : EglImportEnv) (fd : Int)
    (size : Nat) (info : StreamInfo) (b : EglPreview.Buffer)
    (hft : p.first_time_ = true → e.makeCurrentOk = true ∧ e.setupOk = true)
    (hi : e.imageOk = false) :
    (EglPreview.makeBuffer p e fd size info b).error ≠ none ∧
    (EglPreview.makeBuffer p e fd size info b).state.2.fd = fd := by
  revert hft
  unfold EglPreview.makeBuffer
  cases p.first_time_ <;> cases e.makeCurrentOk <;> cases e.setupOk <;> simp [hi]

/-- A `DrmPreview::makeBuffer` call that gets through its first-time block and fails in
handle translation, framebuffer creation or image creation throws with the id recorded in
the buffer. -/
theorem drm_makeBuffer_failed (p : DrmPreview) (e : DrmEnv) (fd : Int)
    (size : Nat) (info : StreamInfo) (b : DrmPreview.Buffer)
    (hft : p.first_time_ = true → e.makeCurrentOk = true ∧ e.setupOk = true)
    (hi : e.primeOk = false ∨ e.addFbOk = false ∨ e.imageOk = false) :
    (DrmPreview.makeBuffer p e fd size info b).error ≠ none ∧
    (DrmPreview.makeBuffer p e fd size info b).state.2.fd = fd := by
  have h1 : (DrmPreview.firstTime p e info).error = none := by
    revert hft
    unfold DrmPreview.firstTime setup_colour_space
    cases p.first_time_ <;> cases e.makeCurrentOk <;> cases e.setupOk <;> simp
  revert hi
  simp only [DrmPreview.makeBuffer, h1]
  cases e.primeOk <;> cases e.addFbOk <;> cases e.imageOk <;> simp

theorem egl_lookup1_failed (p : EglPreview) (a : EglShowArgs)
    (hm : ¬ marked EglPreview.Buffer.fd p.buffers_ a.fd)
    (hft : p.first_time_ = true → a.env.makeCurrentOk = true ∧ a.env.setupOk = true)
    (hi : a.env.imageOk = false) :
    (EglPreview.lookup1 p a).error ≠ none ∧
    ∃ b, mapFind (EglPreview.lookup1 p a).state.1.buffers_ a.fd = some b ∧ b.fd = a.fd := by
  have hc := mapIndex_miss EglPreview.Buffer.fd EglPreview.Buffer.new rfl p.buffers_ a.fd hm
  have hf := egl_makeBuffer_failed
    { p with buffers_ := (mapIndex EglPreview.Buffer.new p.buffers_ a.fd).1 }
    a.env a.fd a.size a.info (mapIndex EglPreview.Buffer.new p.buffers_ a.fd).2 hft hi
  simp only [EglPreview.lookup1, hc, if_true]
  exact ⟨hf.1, _, mapFind_mapSet_self _ _ _, hf.2⟩

theorem drm_lookup_failed (p : DrmPreview) (a : DrmShowArgs)
    (hm : ¬ marked DrmPreview.Buffer.fd p.buffers_ a.fd)
    (hft : p.first_time_ = true → a.env.makeCurrentOk = true ∧ a.env.setupOk = true)
    (hi : a.env.primeOk = false ∨ a.env.addFbOk = false ∨ a.env.imageOk = false) :
    (DrmPreview.lookup p a).error ≠ none ∧
    ∃ b, mapFind (DrmPreview.lookup p a).state.1.buffers_ a.fd = some b ∧ b.fd = a.fd := by
  have hc := mapIndex_miss DrmPreview.Buffer.fd DrmPreview.Buffer.new rfl p.buffers_ a.fd hm
  have hf := drm_makeBuffer_failed
    { p with buffers_ := (mapIndex DrmPreview.Buffer.new p.buffers_ a.fd).1 }
    a.env a.fd a.size a.info (mapIndex DrmPreview.Buffer.new p.buffers_ a.fd).2 hft hi
  simp only [DrmPreview.lookup, hc, if_true]
  exact ⟨hf.1, _, mapFind_mapSet_self _ _ _, hf.2⟩

/-- A `Show` call throws when its first lookup throws. -/
theorem Show_error_of_lookup :
    (∀ (p : EglPreview) (a : EglShowArgs), (EglPreview.lookup1 p a).error ≠ none →
      (EglPreview.Show p a).error ≠ none) ∧
    (∀ (p : DrmPreview) (a : DrmShowArgs), (DrmPreview.lookup p a).error ≠ none →
      (DrmPreview.Show p a).error ≠ none) := by
  constructor
  · intro p a h
    simp only [EglPreview.Show]
    cases e1 : (EglPreview.lookup1 p a).error with
    | none => exact absurd e1 h
    | some err => simp
  · intro p a h
    simp only [DrmPreview.Show]
    cases e1 : (DrmPreview.lookup p a).error with
    | none => exact absurd e1 h
    | some err => simp

/-- A marked entry of the first-stream cache is left as it is by `EglPreview::Show`. -/
theorem egl_Show_keeps_entry (p : EglPreview) (a : EglShowArgs) (id : Int)
    (b : EglPreview.Buffer) (hb : mapFind p.buffers_ id = some b) (hfd : b.fd ≠ -1) :
    mapFind (EglPreview.Show p a).state.buffers_ id = some b := by
  rw [(egl_Show_buffers p a).1]
  by_cases hid : id = a.fd
  · subst hid
    rw [(egl_lookup1_hit p a ⟨b, hb, hfd⟩).2.2]
    exact hb
  · rw [(egl_lookup1_frame p a).2.1 id hid]
    exact hb

/-- A marked cache entry is left as it is by `DrmPreview::Show`. -/
theorem drm_Show_keeps_entry (p : DrmPreview) (a : DrmShowArgs) (id : Int)
    (b : DrmPreview.Buffer) (hb : mapFind p.buffers_ id = some b) (hfd : b.fd ≠ -1) :
    mapFind (DrmPreview.Show p a).state.buffers_ id = some b := by
  rw [(drm_Show_buffers p a).1]
  by_cases hid : id = a.fd
  · subst hid
    rw [(drm_lookup_hit p a ⟨b, hb, hfd⟩).2.2]
    exact hb
  · rw [(drm_lookup_frame p a).1 id hid]
    exact hb

theorem egl_presents_keep_entry (p : EglPreview) (as : List EglShowArgs) (id : Int)
    (b : EglPreview.Buffer) (hb : mapFind p.buffers_ id = some b) (hfd : b.fd ≠ -1) :
    mapFind (finalState EglPreview.call p (presents as)).buffers_ id = some b := by
  induction as generalizing p with
  | nil => simpa [presents, finalState] using hb
  | cons a as ih => exact ih (EglPreview.Show p a).state (egl_Show_keeps_entry p a id b hb hfd)

theorem drm_presents_keep_entry (p : DrmPreview) (as : List DrmShowArgs) (id : Int)
    (b : DrmPreview.Buffer) (hb : mapFind p.buffers_ id = some b) (hfd : b.fd ≠ -1) :
    mapFind (finalState DrmPreview.call p (presents as)).buffers_ id = some b := by
  induction as generalizing p with
  | nil => simpa [presents, finalState] using hb
  | cons a as ih => exact ih (DrmPreview.Show p a).state (drm_Show_keeps_entry p a id b hb hfd)

/-! ## The maximum image size plays no part in `Show` -/

theorem egl_makeBuffer_withMax (p : EglPreview) (w h : Nat) (e : EglImportEnv) (fd : Int)
    (size : Nat) (info : StreamInfo) (b : EglPreview.Buffer) :
    EglPreview.makeBuffer (p.withMax w h) e fd size info b =
      { state := ((EglPreview.makeBuffer p e fd size info b).state.1.withMax w h,
                  (EglPreview.makeBuffer p e fd size info b).state.2),
        events := (EglPreview.makeBuffer p e fd size info b).events,
        error := (EglPreview.makeBuffer p e fd size info b).error } := by
  cases hf : p.first_time_ <;> cases hm : e.makeCurrentOk <;> cases hs : e.setupOk <;>
    cases hi : e.imageOk <;>
    simp [EglPreview.makeBuffer, EglPreview.withMax, hf, hm, hs, hi]

theorem egl_lookup1_withMax (p : EglPreview) (w h : Nat) (a : EglShowArgs) :
    EglPreview.lookup1 (p.withMax w h) a =
      { state := ((EglPreview.lookup1 p a).state.1.withMax w h, (EglPreview.lookup1 p a).state.2),
        events := (EglPreview.lookup1 p a).events, error := (EglPreview.lookup1 p a).error } := by
  have hmb := egl_makeBuffer_withMax
    { p with buffers_ := (mapIndex EglPreview.Buffer.new p.buffers_ a.fd).1 } w h
    a.env a.fd a.size a.info (mapIndex EglPreview.Buffer.new p.buffers_ a.fd).2
  have hb : (p.withMax w h).buffers_ = p.buffers_ := rfl
  by_cases hc : (mapIndex EglPreview.Buffer.new p.buffers_ a.fd).2.fd = -1
  · simp only [EglPreview.lookup1, hb, hc, if_true]
    have hst : ({ p.withMax w h with
        buffers_ := (mapIndex EglPreview.Buffer.new p.buffers_ a.fd).1 } : EglPreview) =
        EglPreview.withMax
          { p with buffers_ := (mapIndex EglPreview.Buffer.new p.buffers_ a.fd).1 } w h := rfl
    rw [hst, hmb]
    rfl
  · simp only [EglPreview.lookup1, hb, hc, if_false]
    rfl

theorem egl_lookup2_withMax (p : EglPreview) (w h : Nat) (a : EglShowArgs) :
    EglPreview.lookup2 (p.withMax w h) a =
      { state := ((EglPreview.lookup2 p a).state.1.withMax w h, (EglPreview.lookup2 p a).state.2),
        events := (EglPreview.lookup2 p a).events, error := (EglPreview.lookup2 p a).error } := by
  have hmb := egl_makeBuffer_withMax
    { p with buffers2_ := (mapIndex EglPreview.Buffer.new p.buffers2_ a.fd2).1 } w h
    a.env2 a.fd2 a.size2 a.info2 (mapIndex EglPreview.Buffer.new p.buffers2_ a.fd2).2
  have hb : (p.withMax w h).buffers2_ = p.buffers2_ := rfl
  by_cases hc : (mapIndex EglPreview.Buffer.new p.buffers2_ a.fd2).2.fd = -1
  · simp only [EglPreview.lookup2, hb, hc, if_true]
    have hst : ({ p.withMax w h with
        buffers2_ := (mapIndex EglPreview.Buffer.new p.buffers2_ a.fd2).1 } : EglPreview) =
        EglPreview.withMax
          { p with buffers2_ := (mapIndex EglPreview.Buffer.new p.buffers2_ a.fd2).1 } w h :=
      rfl
    rw [hst, hmb]
    rfl
  · simp only [EglPreview.lookup2, hb, hc, if_false]
    rfl

/-- The calls made and the exception of `EglPreview::Show` are the same whatever the maximum
image size of the object is. -/
theorem egl_Show_withMax (p : EglPreview) (w h : Nat) (a : EglShowArgs) :
    (EglPreview.Show (p.withMax w h) a).events = (EglPreview.Show p a).events ∧
    (EglPreview.Show (p.withMax w h) a).error = (EglPreview.Show p a).error ∧
    (EglPreview.Show (p.withMax w h) a).state = (EglPreview.Show p a).state.withMax w h := by
  have h1 := egl_lookup1_withMax p w h a
  have h2 := egl_lookup2_withMax (EglPreview.lookup1 p a).state.1 w h a
  simp only [EglPreview.Show, h1, h2]
  cases e1 : (EglPreview.lookup1 p a).error with
  | some err => exact ⟨rfl, rfl, rfl⟩
  | none =>
    cases e2 : (EglPreview.lookup2 (EglPreview.lookup1 p a).state.1 a).error with
    | some err => exact ⟨rfl, rfl, rfl⟩
    | none => exact ⟨rfl, rfl, rfl⟩

theorem drm_makeBuffer_withMax (p : DrmPreview) (w h : Nat) (e : DrmEnv) (fd : Int)
    (size : Nat) (info : StreamInfo) (b : DrmPreview.Buffer) :
    DrmPreview.makeBuffer (p.withMax w h) e fd size info b =
      { state := ((DrmPreview.makeBuffer p e fd size info b).state.1.withMax w h,
                  (DrmPreview.makeBuffer p e fd size info b).state.2),
        events := (DrmPreview.makeBuffer p e fd size info b).events,
        error := (DrmPreview.makeBuffer p e fd size info b).error } := by
  cases hf : p.first_time_ <;> cases hm : e.makeCurrentOk <;> cases hs : e.setupOk <;>
    cases hp : e.primeOk <;> cases ha : e.addFbOk <;> cases hi : e.imageOk <;>
    simp [DrmPreview.makeBuffer, DrmPreview.firstTime, DrmPreview.rotate, DrmPreview.withMax,
      setup_colour_space, hf, hm, hs, hp, ha, hi]

theorem drm_lookup_withMax (p : DrmPreview) (w h : Nat) (a : DrmShowArgs) :
    DrmPreview.lookup (p.withMax w h) a =
      { state := ((DrmPreview.lookup p a).state.1.withMax w h, (DrmPreview.lookup p a).state.2),
        events := (DrmPreview.lookup p a).events, error := (DrmPreview.lookup p a).error } := by
  have hmb := drm_makeBuffer_withMax
    { p with buffers_ := (mapIndex DrmPreview.Buffer.new p.buffers_ a.fd).1 } w h
    a.env a.fd a.size a.info (mapIndex DrmPreview.Buffer.new p.buffers_ a.fd).2
  have hb : (p.withMax w h).buffers_ = p.buffers_ := rfl
  by_cases hc : (mapIndex DrmPreview.Buffer.new p.buffers_ a.fd).2.fd = -1
  · simp only [DrmPreview.lookup, hb, hc, if_true]
    have hst : ({ p.withMax w h with
        buffers_ := (mapIndex DrmPreview.Buffer.new p.buffers_ a.fd).1 } : DrmPreview) =
        DrmPreview.withMax
          { p with buffers_ := (mapIndex DrmPreview.Buffer.new p.buffers_ a.fd).1 } w h := rfl
    rw [hst, hmb]
    rfl
  · simp only [DrmPreview.lookup, hb, hc, if_false]
    rfl

/-- The calls made and the exception of `DrmPreview::Show` are the same whatever the maximum
image size of the object is. -/
theorem drm_Show_withMax (p : DrmPreview) (w h : Nat) (a : DrmShowArgs) :
    (DrmPreview.Show (p.withMax w h) a).events = (DrmPreview.Show p a).events ∧
    (DrmPreview.Show (p.withMax w h) a).error = (DrmPreview.Show p a).error ∧
    (DrmPreview.Show (p.withMax w h) a).state = (DrmPreview.Show p a).state.withMax w h := by
  have h1 := drm_lookup_withMax p w h a
  simp only [DrmPreview.Show, h1]
  cases e1 : (DrmPreview.lookup p a).error with
  | some err => exact ⟨rfl, rfl, rfl⟩
  | none =>
    have hw : ((DrmPreview.lookup p a).state.1.withMax w h).width_ =
        (DrmPreview.lookup p a).state.1.width_ := rfl
    have hh : ((DrmPreview.lookup p a).state.1.withMax w h).height_ =
        (DrmPreview.lookup p a).state.1.height_ := rfl
    simp only [hw, hh]
    cases e2 : letterbox (DrmPreview.lookup p a).state.1.width_
        (DrmPreview.lookup p a).state.1.height_ a.info.width a.info.height with
    | none => exact ⟨rfl, rfl, rfl⟩
    | some rect => cases e3 : a.env.setPlaneOk <;> exact ⟨rfl, rfl, rfl⟩

theorem withMax_self :
    (∀ p : EglPreview, p.withMax p.max_image_width_ p.max_image_height_ = p) ∧
    (∀ p : DrmPreview, p.withMax p.max_image_width_ p.max_image_height_ = p) :=
  ⟨fun _ => rfl, fun _ => rfl⟩

/-- No `Show` call changes what `MaxImageSize` reports. -/
theorem Show_MaxImageSize :
    (∀ (p : EglPreview) (a : EglShowArgs),
      EglPreview.MaxImageSize (EglPreview.Show p a).state = EglPreview.MaxImageSize p) ∧
    (∀ (p : DrmPreview) (a : DrmShowArgs),
      DrmPreview.MaxImageSize (DrmPreview.Show p a).state = DrmPreview.MaxImageSize p) := by
  constructor
  · intro p a
    have h := (egl_Show_withMax p p.max_image_width_ p.max_image_height_ a).2.2
    rw [withMax_self.1 p] at h
    rw [h]
    rfl
  · intro p a
    have h := (drm_Show_withMax p p.max_image_width_ p.max_image_height_ a).2.2
    rw [withMax_self.2 p] at h
    rw [h]
    rfl

/-! ## Plane selection -/

theorem formatIndex_le (fourcc : Nat) (l : List Nat) : formatIndex fourcc l ≤ l.length := by
  induction l with
  | nil => simp [formatIndex]
  | cons f rest ih =>
    unfold formatIndex
    split
    · simp
    · simp only [List.length_cons]; omega

theorem formatIndex_eq_length (fourcc : Nat) (l : List Nat) :
    formatIndex fourcc l = l.length ↔ fourcc ∉ l := by
  induction l with
  | nil => simp [formatIndex]
  | cons f rest ih =>
    unfold formatIndex
    by_cases h : f = fourcc
    · subst h; simp
    · have hne : ¬ (fourcc = f) := fun e => h e.symm
      simp only [h, if_false, List.length_cons, List.mem_cons, hne, false_or]
      rw [← ih]
      omega

/-- The outer loop of `findPlane` finds the first plane that passes both tests. -/
theorem findPlaneLoop_eq_find (crtcIdx fourcc : Nat) (planes : List DrmPlane) :
    findPlaneLoop crtcIdx fourcc planes =
      (planes.find? (fun pl => pl.possible_crtcs.testBit crtcIdx &&
        decide (fourcc ∈ pl.formats))).map (fun pl => pl.plane_id) := by
  induction planes with
  | nil => rfl
  | cons pl rest ih =>
    unfold findPlaneLoop
    cases hb : pl.possible_crtcs.testBit crtcIdx
    · simp [List.find?, hb, ih]
    · by_cases hf : fourcc ∈ pl.formats
      · have hne : ¬ (formatIndex fourcc pl.formats = pl.formats.length) := by
          rw [formatIndex_eq_length]; simpa using hf
        simp [List.find?, hb, hf, hne]
      · have he : formatIndex fourcc pl.formats = pl.formats.length := by
          rw [formatIndex_eq_length]; exact hf
        simp [List.find?, hb, hf, he, ih]

/-! ## Connector selection and construction -/

/-- Once a connector is chosen the loop keeps it and its controller. -/
theorem selectLoop_keeps (dev : DrmDevice) (s : Selection) (cons : List DrmConnector)
    (h : s.conId_ ≠ 0) :
    (selectLoop dev s cons).conId_ = s.conId_ ∧ (selectLoop dev s cons).crtcId_ = s.crtcId_ := by
  induction cons generalizing s with
  | nil => exact ⟨rfl, rfl⟩
  | cons c rest ih =>
    have hstep : (selectStep dev s c).conId_ = s.conId_ ∧
        (selectStep dev s c).crtcId_ = s.crtcId_ := by
      unfold selectStep
      cases connectorCrtc dev c with
      | none => exact ⟨rfl, rfl⟩
      | some crtc => simp [h]
    have := ih (selectStep dev s c) (by rw [hstep.1]; exact h)
    simp only [selectLoop]
    exact ⟨by rw [this.1, hstep.1], by rw [this.2, hstep.2]⟩

/-- The connector loop chooses the first connector with an active controller. -/
theorem selectLoop_first (dev : DrmDevice) (s : Selection) (cons : List DrmConnector)
    (h0 : s.conId_ = 0) (hid : ∀ c ∈ cons, toInt32 c.connector_id ≠ 0) :
    (cons.find? (activeConnector dev) = none → (selectLoop dev s cons).conId_ = 0) ∧
    (∀ c crtc, cons.find? (activeConnector dev) = some c → connectorCrtc dev c = some crtc →
      (selectLoop dev s cons).conId_ = toInt32 c.connector_id ∧
      (selectLoop dev s cons).crtcId_ = crtc.crtc_id) := by
  induction cons generalizing s with
  | nil => simp [selectLoop, h0]
  | cons c rest ih =>
    have hrest : ∀ c ∈ rest, toInt32 c.connector_id ≠ 0 :=
      fun x hx => hid x (List.mem_cons_of_mem c hx)
    cases hc : connectorCrtc dev c with
    | none =>
      have hstep : selectStep dev s c = s := by simp [selectStep, hc]
      have hact : activeConnector dev c = false := by simp [activeConnector, hc]
      simp only [selectLoop, hstep, List.find?, hact]
      exact ih s h0 hrest
    | some crtc0 =>
      have hact : activeConnector dev c = true := by simp [activeConnector, hc]
      have hstep : (selectStep dev s c).conId_ = toInt32 c.connector_id ∧
          (selectStep dev s c).crtcId_ = crtc0.crtc_id := by
        simp [selectStep, hc, h0]
      have hne : (selectStep dev s c).conId_ ≠ 0 := by
        rw [hstep.1]; exact hid c (List.mem_cons_self c rest)
      have hk := selectLoop_keeps dev (selectStep dev s c) rest hne
      simp only [selectLoop, List.find?, hact]
      constructor
      · intro hn; cases hn
      · intro c1 crtc1 h1 h2
        simp only [Option.some.injEq] at h1
        subst h1
        rw [hc] at h2
        simp only [Option.some.injEq] at h2
        subst h2
        exact ⟨by rw [hk.1, hstep.1], by rw [hk.2, hstep.2]⟩

/-- The connector loop records the output size of the last connector with an active
controller. -/
theorem selectLoop_screen (dev : DrmDevice) (s : Selection) (cons : List DrmConnector) :
    (cons.reverse.find? (activeConnector dev) = none →
      (selectLoop dev s cons).screen_width_ = s.screen_width_ ∧
      (selectLoop dev s cons).screen_height_ = s.screen_height_) ∧
    (∀ c crtc, cons.reverse.find? (activeConnector dev) = some c →
      connectorCrtc dev c = some crtc →
      (selectLoop dev s cons).screen_width_ = crtc.width ∧
      (selectLoop dev s cons).screen_height_ = crtc.height) := by
  induction cons generalizing s with
  | nil => simp [selectLoop]
  | cons c rest ih =>
    have ih1 := ih (selectStep dev s c)
    simp only [selectLoop, List.reverse_cons, List.find?_append]
    cases hr : rest.reverse.find? (activeConnector dev) with
    | some c2 =>
      simp only [Option.or_some]
      constructor
      · intro hn; cases hn
      · intro c1 crtc1 h1 h2
        simp only [Option.some.injEq] at h1
        subst h1
        exact ih1.2 c2 crtc1 hr h2
    | none =>
      have hkeep := ih1.1 hr
      simp only [Option.none_or]
      cases hc : connectorCrtc dev c with
      | none =>
        have hstep : selectStep dev s c = s := by simp [selectStep, hc]
        have hact : activeConnector dev c = false := by simp [activeConnector, hc]
        rw [hstep] at hkeep
        simp only [List.find?, hact, hstep]
        exact ⟨fun _ => hkeep, fun c1 crtc1 h1 => by cases h1⟩
      | some crtc0 =>
        have hact : activeConnector dev c = true := by simp [activeConnector, hc]
        have hstep : (selectStep dev s c).screen_width_ = crtc0.width ∧
            (selectStep dev s c).screen_height_ = crtc0.height := by
          simp [selectStep, hc]
        simp only [List.find?, hact]
        constructor
        · intro hn; cases hn
        · intro c1 crtc1 h1 h2
          simp only [Option.some.injEq] at h1
          subst h1
          rw [hc] at h2
          simp only [Option.some.injEq] at h2
          subst h2
          exact ⟨by rw [hkeep.1, hstep.1], by rw [hkeep.2, hstep.2]⟩

theorem selectLoop_inactive (dev : DrmDevice) (s : Selection) (cons : List DrmConnector)
    (h : ∀ c ∈ cons, connectorCrtc dev c = none) : selectLoop dev s cons = s := by
  induction cons generalizing s with
  | nil => rfl
  | cons c rest ih =>
    have hstep : selectStep dev s c = s := by
      simp [selectStep, h c (List.mem_cons_self c rest)]
    simp only [selectLoop, hstep]
    exact ih s (fun x hx => h x (List.mem_cons_of_mem c hx))

theorem crtcGeometry_planeId (opts : Options) (crtc : DrmCrtc) (p : DrmPreview) (id : Nat) :
    ({ DrmPreview.crtcGeometry opts crtc p with planeId_ := id } : DrmPreview) =
      DrmPreview.crtcGeometry opts crtc { p with planeId_ := id } := by
  unfold DrmPreview.crtcGeometry
  split <;> rfl

/-- What `findCrtc` has done when it returns: the connector loop has chosen a connector, the
controller has been found in the controller list, and the geometry block has run. -/
theorem findCrtc_ok (dev : DrmDevice) (opts : Options) (p q : DrmPreview) (sel : Selection)
    (hp : p.conId_ = 0)
    (hs : sel = selectLoop dev ⟨0, p.crtcId_, p.screen_width_, p.screen_height_⟩ dev.connectors)
    (h : DrmPreview.findCrtc dev opts p = Except.ok q) :
    ∃ (idx : Nat) (crtc : DrmCrtc) (p1 : DrmPreview),
      sel.conId_ ≠ 0 ∧ crtcIndexFrom sel.crtcId_ dev.crtcs 0 = some (idx, crtc) ∧
      p1.conId_ = sel.conId_ ∧ p1.crtcId_ = sel.crtcId_ ∧ p1.crtcIdx_ = (idx : Int) ∧
      p1.screen_width_ = sel.screen_width_ ∧ p1.screen_height_ = sel.screen_height_ ∧
      p1.max_image_width_ = dev.max_width ∧ p1.max_image_height_ = dev.max_height ∧
      p1.rect = p.rect ∧ p1.planeId_ = p.planeId_ ∧
      q = DrmPreview.crtcGeometry opts crtc p1 := by
  simp only [DrmPreview.findCrtc, hp, if_true, ← hs] at h
  cases hres : dev.resourcesOk
  · simp [hres] at h
  · simp only [hres, Bool.not_true, Bool.false_eq_true, if_false] at h
    by_cases hl : dev.crtcs.length = 0
    · simp [hl] at h
    · simp only [hl, if_false] at h
      by_cases hsel : sel.conId_ = 0
      · simp [hsel] at h
      · simp only [hsel, if_false] at h
        cases hidx : crtcIndexFrom sel.crtcId_ dev.crtcs 0 with
        | none => simp [hidx] at h
        | some ic =>
          obtain ⟨idx, crtc⟩ := ic
          simp only [hidx] at h
          by_cases hcl : dev.connectors.length = 0
          · simp [hcl] at h
          · simp only [hcl, if_false] at h
            cases hfind : dev.connectors.find? (fun c => decide (c.connector_id =
                toU32 sel.conId_)) with
            | none => simp [hfind] at h
            | some c =>
              simp only [hfind] at h
              by_cases hcm : c.count_modes = 0
              · simp [hcm] at h
              · simp only [hcm, if_false] at h
                cases hg : dev.gbmEglOk
                · simp [hg] at h
                · simp only [hg, if_true, Except.ok.injEq] at h
                  exact ⟨idx, crtc,
                    { p with max_image_width_ := dev.max_width,
                             max_image_height_ := dev.max_height,
                             conId_ := sel.conId_, crtcId_ := sel.crtcId_,
                             crtcIdx_ := (idx : Int), screen_width_ := sel.screen_width_,
                             screen_height_ := sel.screen_height_ },
                    hsel, rfl, rfl, rfl, rfl, rfl, rfl, rfl, rfl, rfl, rfl, h.symm⟩

/-- What the constructor has done when it returns an object. -/
theorem construct_ok (dev : DrmDevice) (opts : Options) (q : DrmPreview) (sel : Selection)
    (hs : sel = selectLoop dev ⟨0, 0, 0, 0⟩ dev.connectors)
    (h : DrmPreview.construct dev opts = Except.ok q) :
    ∃ (idx : Nat) (crtc : DrmCrtc) (p1 : DrmPreview),
      sel.conId_ ≠ 0 ∧ crtcIndexFrom sel.crtcId_ dev.crtcs 0 = some (idx, crtc) ∧
      p1.conId_ = sel.conId_ ∧ p1.crtcId_ = sel.crtcId_ ∧ p1.crtcIdx_ = (idx : Int) ∧
      p1.screen_width_ = sel.screen_width_ ∧ p1.screen_height_ = sel.screen_height_ ∧
      p1.max_image_width_ = dev.max_width ∧ p1.max_image_height_ = dev.max_height ∧
      p1.rect = (opts.preview_x, opts.preview_y, opts.preview_width, opts.preview_height) ∧
      (∀ id, findPlaneLoop idx DRM_FORMAT_YUV420 dev.planes = some id → p1.planeId_ = id) ∧
      q = DrmPreview.finalGeometry opts (DrmPreview.crtcGeometry opts crtc p1) := by
  simp only [DrmPreview.construct] at h
  cases ho : dev.openOk
  · simp [ho] at h
  · cases hm : dev.isMaster
    · simp [ho, hm] at h
    · simp only [ho, hm, Bool.not_true, Bool.false_eq_true, if_false] at h
      generalize hp0 :
        ({ conId_ := 0, crtcId_ := 0, crtcIdx_ := 0, planeId_ := 0,
           x_ := opts.preview_x, y_ := opts.preview_y, width_ := opts.preview_width,
           height_ := opts.preview_height, screen_width_ := 0, screen_height_ := 0,
           buffers_ := [], last_fd_ := -1, max_image_width_ := 0, max_image_height_ := 0,
           first_time_ := true, bo := 0, previous_bo := 0,
           previous_fb := 0 } : DrmPreview) = p0 at h
      cases hfc : DrmPreview.findCrtc dev opts p0 with
      | error e => simp [hfc] at h
      | ok p1c =>
        simp only [hfc] at h
        have hsel0 : sel = selectLoop dev ⟨0, p0.crtcId_, p0.screen_width_, p0.screen_height_⟩
            dev.connectors := by rw [hs, ← hp0]
        obtain ⟨idx, crtc, p1, h1, h2, h3, h4, h5, h6, h7, h8, h9, h10, h11, h12⟩ :=
          findCrtc_ok dev opts p0 p1c sel (by rw [← hp0]) hsel0 hfc
        have hrect : p1.rect =
            (opts.preview_x, opts.preview_y, opts.preview_width, opts.preview_height) := by
          rw [h10, ← hp0]; rfl
        have hidx : p1c.crtcIdx_.toNat = idx := by
          rw [h12]
          have : (DrmPreview.crtcGeometry opts crtc p1).crtcIdx_ = p1.crtcIdx_ := by
            unfold DrmPreview.crtcGeometry; split <;> rfl
          rw [this, h5]; rfl
        simp only [DrmPreview.findPlane, hidx] at h
        cases hpr : dev.planeResourcesOk
        · simp [hpr] at h
        · simp only [hpr, Bool.not_true, Bool.false_eq_true, if_false] at h
          cases hfp : findPlaneLoop idx DRM_FORMAT_YUV420 dev.planes with
          | none =>
            simp only [hfp, Except.ok.injEq] at h
            refine ⟨idx, crtc, p1, h1, h2, h3, h4, h5, h6, h7, h8, h9, hrect, ?_, ?_⟩
            · intro id hid; rw [hfp] at hid; cases hid
            · rw [← h, h12]
          | some id =>
            simp only [hfp, Except.ok.injEq] at h
            refine ⟨idx, crtc, { p1 with planeId_ := id }, h1, h2, h3, h4, h5, h6, h7, h8, h9,
              hrect, ?_, ?_⟩
            · intro id2 hid
              rw [hfp] at hid
              exact Option.some.inj hid
            · rw [← h, h12, crtcGeometry_planeId]

/-- The constructor throws when no connector has an active controller. -/
theorem construct_no_connector (dev : DrmDevice) (opts : Options)
    (h : ∀ c ∈ dev.connectors, connectorCrtc dev c = none) :
    ∃ e, DrmPreview.construct dev opts = Except.error e := by
  cases hc : DrmPreview.construct dev opts with
  | error e => exact ⟨e, rfl⟩
  | ok q =>
    obtain ⟨idx, crtc, p1, h1, _⟩ := construct_ok dev opts q _ rfl hc
    rw [selectLoop_inactive dev _ dev.connectors h] at h1
    exact absurd rfl h1

/-- The two geometry blocks write the rectangle only. -/
theorem geometry_frame (opts : Options) (crtc : DrmCrtc) (p : DrmPreview) :
    (DrmPreview.finalGeometry opts (DrmPreview.crtcGeometry opts crtc p)).conId_ = p.conId_ ∧
    (DrmPreview.finalGeometry opts (DrmPreview.crtcGeometry opts crtc p)).crtcId_ = p.crtcId_ ∧
    (DrmPreview.finalGeometry opts (DrmPreview.crtcGeometry opts crtc p)).crtcIdx_ =
      p.crtcIdx_ ∧
    (DrmPreview.finalGeometry opts (DrmPreview.crtcGeometry opts crtc p)).planeId_ =
      p.planeId_ ∧
    (DrmPreview.finalGeometry opts (DrmPreview.crtcGeometry opts crtc p)).screen_width_ =
      p.screen_width_ ∧
    (DrmPreview.finalGeometry opts (DrmPreview.crtcGeometry opts crtc p)).screen_height_ =
      p.screen_height_ ∧
    DrmPreview.MaxImageSize (DrmPreview.finalGeometry opts (DrmPreview.crtcGeometry opts crtc p))
      = DrmPreview.MaxImageSize p := by
  unfold DrmPreview.finalGeometry DrmPreview.crtcGeometry
  split <;> split <;> exact ⟨rfl, rfl, rfl, rfl, rfl, rfl, rfl⟩

/-! ## Claims -/

/-- C1, counterexample. On both back-ends, after `Show` of id 5 a second `Show` of the same
id 5 returns and releases id 5, the id it has just presented; and in the run of ids
5, 6, 5, 6 the id 5 is released twice. -/
theorem C1_counterexample :
    (releasesPerCall (outcomes DrmPreview.call drm0
        (presents [drmShow 5 1 21 11, drmShow 5 2 22 12])) = [[], [5]] ∧
      releases (allEvents (outcomes DrmPreview.call drm0
        (presents [drmShow 5 1 21 11, drmShow 6 2 22 12, drmShow 5 3 23 13,
          drmShow 6 4 24 14]))) = [5, 6, 5]) ∧
    (releasesPerCall (outcomes EglPreview.call egl0
        (presents [eglShow 5 7, eglShow 5 7])) = [[], [5]] ∧
      releases (allEvents (outcomes EglPreview.call egl0
        (presents [eglShow 5 7, eglShow 6 8, eglShow 5 7, eglShow 6 8]))) = [5, 6, 5]) := by
  decide

/-- C1, as amended. In both back-ends, in every sequence of `Show` calls on an object with no
id in flight (as constructed, or after `Reset`), whatever the outside world answers: a call
invokes the release callback at most once; an id it releases is the id of the most recent
earlier `Show` call that returned; and an id is released at most as many times as a `Show`
call presenting it has returned. -/
theorem C1_release_follows_present :
    (∀ (p : EglPreview), p.last_fd_ = -1 → ∀ (pre : List EglShowArgs) (a : EglShowArgs)
        (id : Int),
      (releases (EglPreview.Show (finalState EglPreview.call p (presents pre)) a).events).length
          ≤ 1 ∧
      (id ∈ releases (EglPreview.Show (finalState EglPreview.call p (presents pre)) a).events →
        (completedIds EglPreview.call EglShowArgs.fd p (presents pre)).getLast? = some id) ∧
      (releases (allEvents (outcomes EglPreview.call p (presents pre)))).count id ≤
        (completedIds EglPreview.call EglShowArgs.fd p (presents pre)).count id) ∧
    (∀ (p : DrmPreview), p.last_fd_ = -1 → ∀ (pre : List DrmShowArgs) (a : DrmShowArgs)
        (id : Int),
      (releases (DrmPreview.Show (finalState DrmPreview.call p (presents pre)) a).events).length
          ≤ 1 ∧
      (id ∈ releases (DrmPreview.Show (finalState DrmPreview.call p (presents pre)) a).events →
        (completedIds DrmPreview.call DrmShowArgs.fd p (presents pre)).getLast? = some id) ∧
      (releases (allEvents (outcomes DrmPreview.call p (presents pre)))).count id ≤
        (completedIds DrmPreview.call DrmShowArgs.fd p (presents pre)).count id) :=
  ⟨fun p hp pre a id => egl_reclaimStep.release_after_present p hp pre a id,
   fun p hp pre a id => drm_reclaimStep.release_after_present p hp pre a id⟩

/-- C1, witness: the amended statement on the sample objects, for the call that presents id 6
after id 5 and the released id 5. -/
theorem C1_release_follows_present_witness :
    (egl0.last_fd_ = -1 ∧
      (5 ∈ releases (EglPreview.Show
          (finalState EglPreview.call egl0 (presents [eglShow 5 7])) (eglShow 6 8)).events →
        (completedIds EglPreview.call EglShowArgs.fd egl0 (presents [eglShow 5 7])).getLast?
          = some 5)) ∧
    (drm0.last_fd_ = -1 ∧
      (5 ∈ releases (DrmPreview.Show
          (finalState DrmPreview.call drm0 (presents [drmShow 5 1 21 11]))
          (drmShow 6 2 22 12)).events →
        (completedIds DrmPreview.call DrmShowArgs.fd drm0
          (presents [drmShow 5 1 21 11])).getLast? = some 5)) :=
  ⟨⟨rfl, (C1_release_follows_present.1 egl0 rfl [eglShow 5 7] (eglShow 6 8) 5).2.1⟩,
   ⟨rfl, (C1_release_follows_present.2 drm0 rfl [drmShow 5 1 21 11] (drmShow 6 2 22 12) 5).2.1⟩⟩

/-- C2. Reclaim state machine, in both back-ends: over any run of `Show` calls that all
return, with ids that are not negative and no `Reset` in between, on an object with no id in
flight (`last_fd_ = -1`, as after construction or `Reset`), the first call releases nothing,
every later call releases exactly the id of the call before it, and after every call
`last_fd_` is the id just presented. -/
theorem C2_reclaim_state_machine :
    (∀ (p : EglPreview) (as : List EglShowArgs), p.last_fd_ = -1 → (∀ a ∈ as, 0 ≤ a.fd) →
      allCompleted (outcomes EglPreview.call p (presents as)) →
      releasesPerCall (outcomes EglPreview.call p (presents as)) =
        (([] : List Int) :: as.map (fun a => [a.fd])).take as.length ∧
      (outcomes EglPreview.call p (presents as)).map (fun r => r.state.last_fd_) =
        as.map (fun a => a.fd)) ∧
    (∀ (p : DrmPreview) (as : List DrmShowArgs), p.last_fd_ = -1 → (∀ a ∈ as, 0 ≤ a.fd) →
      allCompleted (outcomes DrmPreview.call p (presents as)) →
      releasesPerCall (outcomes DrmPreview.call p (presents as)) =
        (([] : List Int) :: as.map (fun a => [a.fd])).take as.length ∧
      (outcomes DrmPreview.call p (presents as)).map (fun r => r.state.last_fd_) =
        as.map (fun a => a.fd)) := by
  constructor
  · intro p as hp hids hall
    have h := egl_reclaimStep.lag_run p as hall
    have hl := lagged_eq_take p.last_fd_ (as.map EglShowArgs.fd)
      (by simpa using hids)
    refine ⟨?_, h.2⟩
    rw [h.1, hl, hp]
    simp [List.map_map, Function.comp_def]
  · intro p as hp hids hall
    have h := drm_reclaimStep.lag_run p as hall
    have hl := lagged_eq_take p.last_fd_ (as.map DrmShowArgs.fd)
      (by simpa using hids)
    refine ⟨?_, h.2⟩
    rw [h.1, hl, hp]
    simp [List.map_map, Function.comp_def]

/-- C2, witness: three calls on each sample object, presenting ids 5, 6, 6; the release lists
are none, 5, 6. -/
theorem C2_reclaim_state_machine_witness :
    (releasesPerCall (outcomes EglPreview.call egl0
        (presents [eglShow 5 7, eglShow 6 8, eglShow 6 8])) =
        (([] : List Int) :: [eglShow 5 7, eglShow 6 8, eglShow 6 8].map (fun a => [a.fd])).take 3 ∧
      (outcomes EglPreview.call egl0
        (presents [eglShow 5 7, eglShow 6 8, eglShow 6 8])).map (fun r => r.state.last_fd_) =
        [5, 6, 6]) ∧
    (releasesPerCall (outcomes DrmPreview.call drm0
        (presents [drmShow 5 1 21 11, drmShow 6 2 22 12, drmShow 6 2 22 12])) =
        (([] : List Int) :: [drmShow 5 1 21 11, drmShow 6 2 22 12, drmShow 6 2 22 12].map
          (fun a => [a.fd])).take 3 ∧
      (outcomes DrmPreview.call drm0
        (presents [drmShow 5 1 21 11, drmShow 6 2 22 12, drmShow 6 2 22 12])).map
          (fun r => r.state.last_fd_) = [5, 6, 6]) :=
  ⟨C2_reclaim_state_machine.1 egl0 [eglShow 5 7, eglShow 6 8, eglShow 6 8] rfl (by decide)
      (by unfold allCompleted; decide),
   C2_reclaim_state_machine.2 drm0 [drmShow 5 1 21 11, drmShow 6 2 22 12, drmShow 6 2 22 12] rfl
      (by decide) (by unfold allCompleted; decide)⟩

/-- C3, counterexample. On both back-ends, in the sequence `Show` 5, `Reset`, `Show` 6,
`Show` 7 every call returns and the only release is that of id 6: id 5, in flight when `Reset`
was called, is never released. On the windowed back-end the ids 7 and 8 of the second stream
are never released either. -/
theorem C3_counterexample :
    (releases (allEvents (outcomes DrmPreview.call drm0
        [Call.present (drmShow 5 1 21 11), Call.reset, Call.present (drmShow 6 2 22 12),
         Call.present (drmShow 7 3 23 13)])) = [6] ∧
      completedIds DrmPreview.call DrmShowArgs.fd drm0
        [Call.present (drmShow 5 1 21 11), Call.reset, Call.present (drmShow 6 2 22 12),
         Call.present (drmShow 7 3 23 13)] = [5, 6, 7]) ∧
    (releases (allEvents (outcomes EglPreview.call egl0
        [Call.present (eglShow 5 7), Call.reset, Call.present (eglShow 6 8),
         Call.present (eglShow 7 9)])) = [6] ∧
      completedIds EglPreview.call EglShowArgs.fd egl0
        [Call.present (eglShow 5 7), Call.reset, Call.present (eglShow 6 8),
         Call.present (eglShow 7 9)] = [5, 6, 7]) ∧
    releases (allEvents (outcomes EglPreview.call egl0
        [Call.present (eglShow 1 7), Call.present (eglShow 2 8),
         Call.present (eglShow 3 9)])) = [1, 2] := by
  decide

/-- C3, as amended. In both back-ends, for every finite sequence of `Show` and `Reset` calls
on an object with no id in flight, and every id that is not negative: the number of releases
of the id, plus the number of `Reset` calls that found it in flight, plus one if it is in
flight at the end, is the number of `Show` calls presenting it (as first-stream id) that
returned. So every presentation that returned is released exactly once, except the one still
in flight at the end and those in flight when `Reset` was called; `Reset` itself releases
nothing, and no negative id is ever released. -/
theorem C3_release_accounting :
    (∀ (p : EglPreview) (cs : List (Call EglShowArgs)) (id : Int), p.last_fd_ = -1 → 0 ≤ id →
      (releases (allEvents (outcomes EglPreview.call p cs))).count id +
          (droppedIds EglPreview.call EglPreview.last_fd_ p cs).count id +
          (if (finalState EglPreview.call p cs).last_fd_ = id then 1 else 0) =
        (completedIds EglPreview.call EglShowArgs.fd p cs).count id) ∧
    (∀ p : EglPreview, releases (EglPreview.Reset p).events = []) ∧
    (∀ (p : DrmPreview) (cs : List (Call DrmShowArgs)) (id : Int), p.last_fd_ = -1 → 0 ≤ id →
      (releases (allEvents (outcomes DrmPreview.call p cs))).count id +
          (droppedIds DrmPreview.call DrmPreview.last_fd_ p cs).count id +
          (if (finalState DrmPreview.call p cs).last_fd_ = id then 1 else 0) =
        (completedIds DrmPreview.call DrmShowArgs.fd p cs).count id) ∧
    (∀ p : DrmPreview, releases (DrmPreview.Reset p).events = []) ∧
    (∀ (p : EglPreview) (cs : List (Call EglShowArgs)) (id : Int),
      id ∈ releases (allEvents (outcomes EglPreview.call p cs)) → 0 ≤ id) ∧
    (∀ (p : DrmPreview) (cs : List (Call DrmShowArgs)) (id : Int),
      id ∈ releases (allEvents (outcomes DrmPreview.call p cs)) → 0 ≤ id) := by
  refine ⟨?_, fun p => (egl_reclaimStep.2.2 p).1, ?_, fun p => (drm_reclaimStep.2.2 p).1,
    fun p cs id h => egl_reclaimStep.released_nonneg p cs id h,
    fun p cs id h => drm_reclaimStep.released_nonneg p cs id h⟩
  · intro p cs id hp hid
    have h := egl_reclaimStep.accounting id hid p cs
    have hne : ¬ (p.last_fd_ = id) := by omega
    simpa [hne] using h
  · intro p cs id hp hid
    have h := drm_reclaimStep.accounting id hid p cs
    have hne : ¬ (p.last_fd_ = id) := by omega
    simpa [hne] using h

/-- C3, witness: the accounting for id 5 in the sequence `Show` 5, `Reset`, `Show` 6,
`Show` 7 on the sample objects. -/
theorem C3_release_accounting_witness :
    ((releases (allEvents (outcomes EglPreview.call egl0
        [Call.present (eglShow 5 7), Call.reset, Call.present (eglShow 6 8),
         Call.present (eglShow 7 9)]))).count 5 +
      (droppedIds EglPreview.call EglPreview.last_fd_ egl0
        [Call.present (eglShow 5 7), Call.reset, Call.present (eglShow 6 8),
         Call.present (eglShow 7 9)]).count 5 +
      (if (finalState EglPreview.call egl0
        [Call.present (eglShow 5 7), Call.reset, Call.present (eglShow 6 8),
         Call.present (eglShow 7 9)]).last_fd_ = 5 then 1 else 0) =
      (completedIds EglPreview.call EglShowArgs.fd egl0
        [Call.present (eglShow 5 7), Call.reset, Call.present (eglShow 6 8),
         Call.present (eglShow 7 9)]).count 5) ∧
    ((releases (allEvents (outcomes DrmPreview.call drm0
        [Call.present (drmShow 5 1 21 11), Call.reset, Call.present (drmShow 6 2 22 12),
         Call.present (drmShow 7 3 23 13)]))).count 5 +
      (droppedIds DrmPreview.call DrmPreview.last_fd_ drm0
        [Call.present (drmShow 5 1 21 11), Call.reset, Call.present (drmShow 6 2 22 12),
         Call.present (drmShow 7 3 23 13)]).count 5 +
      (if (finalState DrmPreview.call drm0
        [Call.present (drmShow 5 1 21 11), Call.reset, Call.present (drmShow 6 2 22 12),
         Call.present (drmShow 7 3 23 13)]).last_fd_ = 5 then 1 else 0) =
      (completedIds DrmPreview.call DrmShowArgs.fd drm0
        [Call.present (drmShow 5 1 21 11), Call.reset, Call.present (drmShow 6 2 22 12),
         Call.present (drmShow 7 3 23 13)]).count 5) :=
  ⟨C3_release_accounting.1 egl0 _ 5 rfl (by decide),
   C3_release_accounting.2.2.1 drm0 _ 5 rfl (by decide)⟩

/-- C4, counterexample. (1) The id -1 is never a cache hit: on both back-ends two `Show` calls
of id -1 in a row both return and both run the import (two textures for the first stream; on
the overlay back-end two framebuffers). (2) On the windowed back-end a `Show` of id 5 that
throws in `eglMakeCurrent` leaves an unmarked entry, and the next `Show` of id 5 runs
`makeBuffer` again. (3) On the windowed back-end id 6, imported as second-stream id by the
first call, is imported again when the second call presents it as first-stream id. -/
theorem C4_counterexample :
    (allCompleted (outcomes DrmPreview.call drm0
        (presents [drmShow (-1) 1 21 11, drmShow (-1) 2 22 12])) ∧
      (outcomes DrmPreview.call drm0
        (presents [drmShow (-1) 1 21 11, drmShow (-1) 2 22 12])).map
          (fun r => (texturesCreated r.events, framebuffersCreated r.events)) =
        [([11], [21]), ([12], [22])]) ∧
    (allCompleted (outcomes EglPreview.call egl0
        (presents [eglShow (-1) 7, eglShow (-1) 7])) ∧
      (outcomes EglPreview.call egl0 (presents [eglShow (-1) 7, eglShow (-1) 7])).map
          (fun r => texturesCreated r.events) = [[11, 12], [11]]) ∧
    (outcomes EglPreview.call egl0 (presents [eglShowNoContext 5 7, eglShow 5 7])).map
        (fun r => (r.events.take 1, r.error.isSome)) =
      [([Event.makeCurrent false], true), ([Event.makeCurrent true], false)] ∧
    (outcomes EglPreview.call egl0 (presents [eglShow 5 6, eglShow 6 5])).map
        (fun r => (imports r.events).length) = [2, 2] := by
  unfold allCompleted
  decide

/-- C4, as amended. In both back-ends, for every id other than -1: once a `Show` call
presenting the id has returned, every later `Show` call presenting the same id in the same
stream, with any `Show` calls and no `Reset` in between, finds a marked cache entry: its
lookup runs no `makeBuffer` (it makes no call to the outside world, while every `makeBuffer`
call makes one) and leaves the object, so the cache, as it was. When this holds for each id
of the call, the call creates no image, texture or framebuffer and leaves the caches
unchanged. -/
theorem C4_import_cache_idempotent :
    (∀ (p q : EglPreview) (a b : EglShowArgs) (mid : List EglShowArgs),
      (EglPreview.Show p a).error = none →
      q = finalState EglPreview.call (EglPreview.Show p a).state (presents mid) →
      (a.fd ≠ -1 → b.fd = a.fd →
        (EglPreview.lookup1 q b).events = [] ∧ (EglPreview.lookup1 q b).state.1 = q) ∧
      (a.fd2 ≠ -1 → b.fd2 = a.fd2 →
        (EglPreview.lookup2 (EglPreview.lookup1 q b).state.1 b).events = [] ∧
        (EglPreview.lookup2 (EglPreview.lookup1 q b).state.1 b).state.1 =
          (EglPreview.lookup1 q b).state.1) ∧
      (a.fd ≠ -1 → a.fd2 ≠ -1 → b.fd = a.fd → b.fd2 = a.fd2 →
        imports (EglPreview.Show q b).events = [] ∧
        texturesCreated (EglPreview.Show q b).events = [] ∧
        (EglPreview.Show q b).state.buffers_ = q.buffers_ ∧
        (EglPreview.Show q b).state.buffers2_ = q.buffers2_)) ∧
    (∀ (p q : DrmPreview) (a b : DrmShowArgs) (mid : List DrmShowArgs),
      (DrmPreview.Show p a).error = none →
      q = finalState DrmPreview.call (DrmPreview.Show p a).state (presents mid) →
      a.fd ≠ -1 → b.fd = a.fd →
        (DrmPreview.lookup q b).events = [] ∧ (DrmPreview.lookup q b).state.1 = q ∧
        imports (DrmPreview.Show q b).events = [] ∧
        texturesCreated (DrmPreview.Show q b).events = [] ∧
        framebuffersCreated (DrmPreview.Show q b).events = [] ∧
        (DrmPreview.Show q b).state.buffers_ = q.buffers_) ∧
    ((∀ (p : EglPreview) (e : EglImportEnv) (fd : Int) (size : Nat) (info : StreamInfo)
      (b : EglPreview.Buffer), (EglPreview.makeBuffer p e fd size info b).events ≠ []) ∧
     (∀ (p : DrmPreview) (e : DrmEnv) (fd : Int) (size : Nat) (info : StreamInfo)
      (b : DrmPreview.Buffer), (DrmPreview.makeBuffer p e fd size info b).events ≠ [])) := by
  refine ⟨?_, ?_, makeBuffer_events_ne_nil⟩
  · intro p q a b mid he hq
    have hm := egl_Show_ok_marked p a he
    have hpres := fun id => egl_presents_marked (EglPreview.Show p a).state mid id
    have k1 : a.fd ≠ -1 → b.fd = a.fd → marked EglPreview.Buffer.fd q.buffers_ b.fd := by
      intro hne hb
      rw [hq, hb]
      exact (hpres a.fd).1 (hm.1 hne)
    have k2 : a.fd2 ≠ -1 → b.fd2 = a.fd2 →
        marked EglPreview.Buffer.fd (EglPreview.lookup1 q b).state.1.buffers2_ b.fd2 := by
      intro hne hb
      rw [(egl_lookup1_frame q b).1, hq, hb]
      exact (hpres a.fd2).2 (hm.2 hne)
    refine ⟨?_, ?_, ?_⟩
    · intro hne hb
      have h := egl_lookup1_hit q b (k1 hne hb)
      exact ⟨h.1, h.2.2⟩
    · intro hne hb
      have h := egl_lookup2_hit _ b (k2 hne hb)
      exact ⟨h.1, h.2.2⟩
    · intro hne hne2 hb hb2
      have h1 := egl_lookup1_hit q b (k1 hne hb)
      have h2 := egl_lookup2_hit _ b (k2 hne2 hb2)
      have hs := egl_Show_buffers q b
      have hok : (EglPreview.Show q b).error = none := by
        simp only [EglPreview.Show, h1.2.1, h2.2.1]
      have hev := egl_Show_ok_events q b hok
      refine ⟨?_, ?_, ?_, ?_⟩
      · rw [hev, h1.1, h2.1]
        simp [imports_append, EglPreview.drawEvents, imports, releaseEvents_no_import]
      · rw [hev, h1.1, h2.1]
        simp [texturesCreated_append, EglPreview.drawEvents, texturesCreated,
          releaseEvents_no_import]
      · rw [hs.1, h1.2.2]
      · rw [(hs.2.2 hok).2.2, h2.2.2, h1.2.2]
  · intro p q a b mid he hq hne hb
    have hmk : marked DrmPreview.Buffer.fd q.buffers_ b.fd := by
      rw [hq, hb]
      exact drm_presents_marked _ mid a.fd (drm_Show_ok_marked p a he hne)
    have h := drm_lookup_hit q b hmk
    have hi := drm_Show_imports q b
    refine ⟨h.1, h.2.2, ?_, ?_, ?_, ?_⟩
    · rw [hi.1, h.1]; rfl
    · rw [hi.2.1, h.1]; rfl
    · rw [hi.2.2, h.1]; rfl
    · rw [(drm_Show_buffers q b).1, h.2.2]

/-- C4, witness: on the sample objects, id 5 (with 7 as second-stream id) is presented, then
id 6, then id 5 again; the last call is a cache hit. -/
theorem C4_import_cache_idempotent_witness :
    (imports (EglPreview.Show (finalState EglPreview.call (EglPreview.Show egl0
        (eglShow 5 7)).state (presents [eglShow 6 8])) (eglShow 5 7)).events = [] ∧
      texturesCreated (EglPreview.Show (finalState EglPreview.call (EglPreview.Show egl0
        (eglShow 5 7)).state (presents [eglShow 6 8])) (eglShow 5 7)).events = [] ∧
      (EglPreview.Show (finalState EglPreview.call (EglPreview.Show egl0
        (eglShow 5 7)).state (presents [eglShow 6 8])) (eglShow 5 7)).state.buffers_ =
        (finalState EglPreview.call (EglPreview.Show egl0
        (eglShow 5 7)).state (presents [eglShow 6 8])).buffers_ ∧
      (EglPreview.Show (finalState EglPreview.call (EglPreview.Show egl0
        (eglShow 5 7)).state (presents [eglShow 6 8])) (eglShow 5 7)).state.buffers2_ =
        (finalState EglPreview.call (EglPreview.Show egl0
        (eglShow 5 7)).state (presents [eglShow 6 8])).buffers2_) ∧
    ((DrmPreview.lookup (finalState DrmPreview.call (DrmPreview.Show drm0
        (drmShow 5 1 21 11)).state (presents [drmShow 6 2 22 12])) (drmShow 5 3 23 13)).events
        = [] ∧
      (DrmPreview.lookup (finalState DrmPreview.call (DrmPreview.Show drm0
        (drmShow 5 1 21 11)).state (presents [drmShow 6 2 22 12])) (drmShow 5 3 23 13)).state.1
        = finalState DrmPreview.call (DrmPreview.Show drm0
        (drmShow 5 1 21 11)).state (presents [drmShow 6 2 22 12]) ∧
      imports (DrmPreview.Show (finalState DrmPreview.call (DrmPreview.Show drm0
        (drmShow 5 1 21 11)).state (presents [drmShow 6 2 22 12])) (drmShow 5 3 23 13)).events
        = [] ∧
      texturesCreated (DrmPreview.Show (finalState DrmPreview.call (DrmPreview.Show drm0
        (drmShow 5 1 21 11)).state (presents [drmShow 6 2 22 12])) (drmShow 5 3 23 13)).events
        = [] ∧
      framebuffersCreated (DrmPreview.Show (finalState DrmPreview.call (DrmPreview.Show drm0
        (drmShow 5 1 21 11)).state (presents [drmShow 6 2 22 12])) (drmShow 5 3 23 13)).events
        = [] ∧
      (DrmPreview.Show (finalState DrmPreview.call (DrmPreview.Show drm0
        (drmShow 5 1 21 11)).state (presents [drmShow 6 2 22 12])) (drmShow 5 3 23 13)).state.buffers_
        = (finalState DrmPreview.call (DrmPreview.Show drm0
        (drmShow 5 1 21 11)).state (presents [drmShow 6 2 22 12])).buffers_) :=
  ⟨(C4_import_cache_idempotent.1 egl0 _ (eglShow 5 7) (eglShow 5 7) [eglShow 6 8]
      (by decide) rfl).2.2 (by decide) (by decide) rfl rfl,
   C4_import_cache_idempotent.2.1 drm0 _ (drmShow 5 1 21 11) (drmShow 5 3 23 13)
      [drmShow 6 2 22 12] (by decide) rfl (by decide) rfl⟩

/-- C5. `Reset` on the windowed back-end empties only the first-stream cache. After `Show` of
ids 5 and 7 on the sample object (textures 11 and 12 created), `Reset` deletes texture 11
alone and leaves the entry of id 7, marked, in `buffers2_`. The rest of the postcondition
holds from every state: on both back-ends `buffers_` is empty, every texture cached in it has
been deleted (and on the overlay back-end every cached framebuffer unregistered), `last_fd_`
is -1 and `first_time_` is true; `Reset` does not touch `buffers2_` and `last_fd2_`. -/
theorem C5_reset_keeps_second_cache :
    (texturesCreated (EglPreview.Show egl0 (eglShow 5 7)).events = [11, 12] ∧
      texturesDeleted (EglPreview.Reset (EglPreview.Show egl0 (eglShow 5 7)).state).events
        = [11] ∧
      (EglPreview.Reset (EglPreview.Show egl0 (eglShow 5 7)).state).state.buffers2_.map
        (fun kv => (kv.1, kv.2.fd, kv.2.texture)) = [(7, 7, 12)]) ∧
    (∀ p : EglPreview,
      (EglPreview.Reset p).state.buffers_ = [] ∧
      texturesDeleted (EglPreview.Reset p).events = p.buffers_.map (fun kv => kv.2.texture) ∧
      (EglPreview.Reset p).state.last_fd_ = -1 ∧
      (EglPreview.Reset p).state.first_time_ = true ∧
      (EglPreview.Reset p).state.buffers2_ = p.buffers2_ ∧
      (EglPreview.Reset p).state.last_fd2_ = p.last_fd2_) ∧
    (∀ p : DrmPreview,
      (DrmPreview.Reset p).state.buffers_ = [] ∧
      texturesDeleted (DrmPreview.Reset p).events = p.buffers_.map (fun kv => kv.2.texture) ∧
      framebuffersRemoved (DrmPreview.Reset p).events =
        p.buffers_.map (fun kv => kv.2.fb_handle) ∧
      (DrmPreview.Reset p).state.last_fd_ = -1 ∧
      (DrmPreview.Reset p).state.first_time_ = true) := by
  refine ⟨by decide, ?_, ?_⟩
  · intro p
    refine ⟨rfl, ?_, rfl, rfl, rfl, rfl⟩
    simp only [EglPreview.Reset]
    induction p.buffers_ with
    | nil => rfl
    | cons x xs ih => simpa [texturesDeleted] using ih
  · intro p
    refine ⟨rfl, ?_, ?_, rfl, rfl⟩
    · simp only [DrmPreview.Reset]
      induction p.buffers_ with
      | nil => rfl
      | cons x xs ih => simpa [texturesDeleted] using ih
    · simp only [DrmPreview.Reset]
      induction p.buffers_ with
      | nil => rfl
      | cons x xs ih => simpa [framebuffersRemoved] using ih

/-- C6. On the windowed back-end the `Show` call after `Reset` does not import the
second-stream id again. In the sequence `Show` of ids 5 and 7, `Reset`, `Show` of ids 5 and 7
on the sample object, the third call makes the context current, runs the setup and imports
id 5, creating one image and one texture, and takes the entry of id 7 from the cache that
`Reset` did not empty. On the overlay back-end the same sequence for id 5 runs the setup and
the import again. -/
theorem C6_second_stream_not_reimported :
    ((outcomes EglPreview.call egl0
        [Call.present (eglShow 5 7), Call.reset, Call.present (eglShow 5 7)]).map
        (fun r => (r.error.isNone, setupCalls r.events)) =
      [(true, [Event.makeCurrent true, Event.glSetup true]), (true, []),
       (true, [Event.makeCurrent true, Event.glSetup true])] ∧
     (outcomes EglPreview.call egl0
        [Call.present (eglShow 5 7), Call.reset, Call.present (eglShow 5 7)]).map
        (fun r => (imports r.events, texturesCreated r.events)) =
      [([eglAttribs 5 sampleInfo, eglAttribs 7 sampleInfo], [11, 12]), ([], []),
       ([eglAttribs 5 sampleInfo], [11])]) ∧
    ((outcomes DrmPreview.call drm0
        [Call.present (drmShow 5 1 21 11), Call.reset, Call.present (drmShow 5 2 22 12)]).map
        (fun r => (r.error.isNone, setupCalls r.events)) =
      [(true, [Event.makeCurrent true, Event.glSetup true]), (true, []),
       (true, [Event.makeCurrent true, Event.glSetup true])] ∧
     (outcomes DrmPreview.call drm0
        [Call.present (drmShow 5 1 21 11), Call.reset, Call.present (drmShow 5 2 22 12)]).map
        (fun r => (imports r.events, texturesCreated r.events)) =
      [([drmAttribs 5 sampleInfo], [11]), ([], []), ([drmAttribs 5 sampleInfo], [12])]) := by
  refine ⟨⟨?_, ?_⟩, ⟨?_, ?_⟩⟩ <;> decide

/-- C7, counterexample. In the dual-stream run that presents the id pairs (5, 7), (6, 8),
(9, 10) on the sample object, every call returns, the second call releases id 5 alone and the
third id 6 alone: the second-stream ids 7 and 8 are not released. -/
theorem C7_counterexample :
    releasesPerCall (outcomes EglPreview.call egl0
        (presents [eglShow 5 7, eglShow 6 8, eglShow 9 10])) = [[], [5], [6]] ∧
    (outcomes EglPreview.call egl0
        (presents [eglShow 5 7, eglShow 6 8, eglShow 9 10])).map (fun r => r.error.isNone) =
      [true, true, true] := by
  constructor <;> decide

/-- C7, as amended. Dual-stream `EglPreview::Show`: a call that returns, for two ids with no
marked entry in the cache of their stream (never presented there before), creates exactly two
images, the first from the attribute list of the first stream and the second from that of the
second stream, and swaps buffers exactly once. Over a run of calls that return, with
first-stream ids that are not negative, on an object with no id in flight, the releases follow
the one-call lag for the first stream only: the first call releases nothing and every later
call releases the first-stream id of the call before it and nothing else; `Show` never writes
`last_fd2_`. -/
theorem C7_dual_stream_present :
    (∀ (p : EglPreview) (a : EglShowArgs),
      ¬ marked EglPreview.Buffer.fd p.buffers_ a.fd →
      ¬ marked EglPreview.Buffer.fd p.buffers2_ a.fd2 →
      (EglPreview.Show p a).error = none →
      imports (EglPreview.Show p a).events = [eglAttribs a.fd a.info, eglAttribs a.fd2 a.info2] ∧
      swaps (EglPreview.Show p a).events = 1) ∧
    (∀ (p : EglPreview) (as : List EglShowArgs), p.last_fd_ = -1 → (∀ a ∈ as, 0 ≤ a.fd) →
      allCompleted (outcomes EglPreview.call p (presents as)) →
      releasesPerCall (outcomes EglPreview.call p (presents as)) =
        (([] : List Int) :: as.map (fun a => [a.fd])).take as.length) ∧
    (∀ (p : EglPreview) (a : EglShowArgs), (EglPreview.Show p a).state.last_fd2_ = p.last_fd2_) := by
  refine ⟨?_, ?_, ?_⟩
  · intro p a hm1 hm2 he
    have hs := (egl_Show_buffers p a).2.2 he
    have hev := egl_Show_ok_events p a he
    have h1 := egl_lookup1_miss p a hm1 hs.1
    have hm2b : ¬ marked EglPreview.Buffer.fd (EglPreview.lookup1 p a).state.1.buffers2_ a.fd2 := by
      rw [(egl_lookup1_frame p a).1]; exact hm2
    have h2 := egl_lookup2_miss _ a hm2b hs.2.1
    rw [hev]
    constructor
    · simp [imports_append, h1.1, h2.1, EglPreview.drawEvents, imports, releaseEvents_no_import]
    · simp [swaps_append, h1.2.2, h2.2.2, EglPreview.drawEvents, swaps, releaseEvents_no_import]
  · intro p as hp hids hall
    have h := egl_reclaimStep.lag_run p as hall
    have hl := lagged_eq_take p.last_fd_ (as.map EglShowArgs.fd) (by simpa using hids)
    rw [h.1, hl, hp]
    simp [List.map_map, Function.comp_def]
  · intro p a
    have hmb : ∀ (q : EglPreview) (e : EglImportEnv) (fd : Int) (size : Nat) (info : StreamInfo)
        (b : EglPreview.Buffer),
        (EglPreview.makeBuffer q e fd size info b).state.1.last_fd2_ = q.last_fd2_ := by
      intro q e fd size info b
      unfold EglPreview.makeBuffer
      cases q.first_time_ <;> cases e.makeCurrentOk <;> cases e.setupOk <;> cases e.imageOk <;>
        simp
    have h1 : ∀ q : EglPreview, (EglPreview.lookup1 q a).state.1.last_fd2_ = q.last_fd2_ := by
      intro q
      by_cases hc : (mapIndex EglPreview.Buffer.new q.buffers_ a.fd).2.fd = -1 <;>
        simp [EglPreview.lookup1, hc, hmb]
    have h2 : ∀ q : EglPreview, (EglPreview.lookup2 q a).state.1.last_fd2_ = q.last_fd2_ := by
      intro q
      by_cases hc : (mapIndex EglPreview.Buffer.new q.buffers2_ a.fd2).2.fd = -1 <;>
        simp [EglPreview.lookup2, hc, hmb]
    simp only [EglPreview.Show]
    cases e1 : (EglPreview.lookup1 p a).error with
    | some err => simp [h1]
    | none =>
      cases e2 : (EglPreview.lookup2 (EglPreview.lookup1 p a).state.1 a).error with
      | some err => simp [h1, h2]
      | none => simp [h1, h2]

/-- C7, witness: the first call on the sample object, for the ids 5 and 7, and the run of the
id pairs (5, 7), (6, 8), (9, 10). -/
theorem C7_dual_stream_present_witness :
    (imports (EglPreview.Show egl0 (eglShow 5 7)).events =
        [eglAttribs 5 sampleInfo, eglAttribs 7 sampleInfo] ∧
      swaps (EglPreview.Show egl0 (eglShow 5 7)).events = 1) ∧
    releasesPerCall (outcomes EglPreview.call egl0
        (presents [eglShow 5 7, eglShow 6 8, eglShow 9 10])) =
      (([] : List Int) :: [eglShow 5 7, eglShow 6 8, eglShow 9 10].map (fun a => [a.fd])).take 3 :=
  ⟨C7_dual_stream_present.1 egl0 (eglShow 5 7)
      (by rintro ⟨b, hb, _⟩; cases hb)
      (by rintro ⟨b, hb, _⟩; cases hb) (by decide),
   C7_dual_stream_present.2.1 egl0 [eglShow 5 7, eglShow 6 8, eglShow 9 10] rfl (by decide)
      (by unfold allCompleted; decide)⟩

/-- C8, counterexample. On the sample overlay object `Show` of id 5 imports it (buffer object
1 locked). The next call, `Show` of id 6, releases buffer object 1 during its import and only
then calls `drmModeSetPlane`; when that call is rejected the release has already happened and
`Show` throws. The same order is seen when `drmModeSetPlane` succeeds. -/
theorem C8_counterexample :
    ((outcomes DrmPreview.call drm0
        (presents [drmShow 5 1 21 11, drmShowRejected 6 2 22 12])).map
        (fun r => (handoffCalls r.events, r.error.isSome)) =
      [([Event.setPlane 65 91 21 240 0 1440 1080 41943040 31457280 true], false),
       ([Event.rmFB 5, Event.releaseBuffer 1,
         Event.setPlane 65 91 22 240 0 1440 1080 41943040 31457280 false], true)]) ∧
    ((outcomes DrmPreview.call drm0
        (presents [drmShow 5 1 21 11, drmShow 6 2 22 12])).map
        (fun r => (handoffCalls r.events, r.error.isSome)) =
      [([Event.setPlane 65 91 21 240 0 1440 1080 41943040 31457280 true], false),
       ([Event.rmFB 5, Event.releaseBuffer 1,
         Event.setPlane 65 91 22 240 0 1440 1080 41943040 31457280 true], false)]) := by
  constructor <;> decide

/-- C8, as amended. In every `DrmPreview::Show` call the previous buffer object is released
only by a `makeBuffer` call that returns, that is, only when the id has no marked cache entry
and its import succeeds to the end; the unregistering (`drmModeRmFB` of `previous_fb`) and the
release (`gbm_surface_release_buffer` of `previous_bo`) come before the `drmModeSetPlane`
call of that `Show` and do not depend on its answer. A `Show` that is a cache hit, or in
which the import throws, releases nothing, and nothing is released after `drmModeSetPlane`. -/
theorem C8_release_before_handoff :
    ∀ (p : DrmPreview) (a : DrmShowArgs),
      ((DrmPreview.lookup p a).error ≠ none → handoffCalls (DrmPreview.Show p a).events = []) ∧
      (∀ rect, letterbox p.width_ p.height_ a.info.width a.info.height = some rect →
        marked DrmPreview.Buffer.fd p.buffers_ a.fd →
        handoffCalls (DrmPreview.Show p a).events =
          [DrmPreview.setPlaneEvent (DrmPreview.lookup p a).state.1
            (DrmPreview.lookup p a).state.2 rect a.env.setPlaneOk]) ∧
      (∀ rect, letterbox p.width_ p.height_ a.info.width a.info.height = some rect →
        ¬ marked DrmPreview.Buffer.fd p.buffers_ a.fd → (DrmPreview.lookup p a).error = none →
        handoffCalls (DrmPreview.Show p a).events =
          (if p.previous_bo ≠ 0 then
            [Event.rmFB p.previous_fb, Event.releaseBuffer p.previous_bo] else []) ++
          [DrmPreview.setPlaneEvent (DrmPreview.lookup p a).state.1
            (DrmPreview.lookup p a).state.2 rect a.env.setPlaneOk]) ∧
      (letterbox p.width_ p.height_ a.info.width a.info.height = none →
        (marked DrmPreview.Buffer.fd p.buffers_ a.fd →
          handoffCalls (DrmPreview.Show p a).events = []) ∧
        (¬ marked DrmPreview.Buffer.fd p.buffers_ a.fd → (DrmPreview.lookup p a).error = none →
          handoffCalls (DrmPreview.Show p a).events =
            if p.previous_bo ≠ 0 then
              [Event.rmFB p.previous_fb, Event.releaseBuffer p.previous_bo] else [])) := by
  intro p a
  have hl := drm_lookup_handoff p a
  have hs := drm_Show_handoff p a
  refine ⟨?_, ?_, ?_, ?_⟩
  · intro he
    rw [hs.1 he, hl.1 he]
  · intro rect hr hm
    rw [hs.2.2 rect (drm_lookup_hit p a hm).2.1 hr, hl.2.1 hm]
    rfl
  · intro rect hr hm he
    rw [hs.2.2 rect he hr, hl.2.2.1 hm he]
  · intro hr
    constructor
    · intro hm
      rw [hs.2.1 (drm_lookup_hit p a hm).2.1 hr, hl.2.1 hm]
    · intro hm he
      rw [hs.2.1 he hr, hl.2.2.1 hm he]

/-- C8, witness: the second call of the counterexample run, whose `drmModeSetPlane` call is
rejected. -/
theorem C8_release_before_handoff_witness :
    handoffCalls (DrmPreview.Show (DrmPreview.Show drm0 (drmShow 5 1 21 11)).state
        (drmShowRejected 6 2 22 12)).events =
      (if (DrmPreview.Show drm0 (drmShow 5 1 21 11)).state.previous_bo ≠ 0 then
        [Event.rmFB (DrmPreview.Show drm0 (drmShow 5 1 21 11)).state.previous_fb,
         Event.releaseBuffer (DrmPreview.Show drm0 (drmShow 5 1 21 11)).state.previous_bo]
        else []) ++
      [DrmPreview.setPlaneEvent
        (DrmPreview.lookup (DrmPreview.Show drm0 (drmShow 5 1 21 11)).state
          (drmShowRejected 6 2 22 12)).state.1
        (DrmPreview.lookup (DrmPreview.Show drm0 (drmShow 5 1 21 11)).state
          (drmShowRejected 6 2 22 12)).state.2
        { x_off := 240, y_off := 0, w := 1440, h := 1080 } false] :=
  (C8_release_before_handoff (DrmPreview.Show drm0 (drmShow 5 1 21 11)).state
      (drmShowRejected 6 2 22 12)).2.2.1
    { x_off := 240, y_off := 0, w := 1440, h := 1080 } (by decide)
    (by
      rintro ⟨b, hb, _⟩
      have hnone : mapFind (DrmPreview.Show drm0 (drmShow 5 1 21 11)).state.buffers_
          (drmShowRejected 6 2 22 12).fd = none := by decide
      rw [hnone] at hb
      cases hb)
    (by decide)

/-- C9. Letterbox rectangle of `DrmPreview::Show`: for a destination `width_` by `height_`
and a source `iw` by `ih` with `iw` and `ih` not zero and both products below 2^32, when
`iw * height_ > width_ * ih` the rectangle is `w = width_`, `h = width_ * ih / iw`,
`x_off = 0`, `y_off = (height_ - h) / 2`, and otherwise `h = height_`,
`w = height_ * iw / ih`, `x_off = (width_ - w) / 2`, `y_off = 0`; in each case the
subtraction does not go below zero. -/
theorem C9_letterbox (width_ height_ iw ih : Nat) (hiw : iw ≠ 0) (hih : ih ≠ 0)
    (h1 : iw * height_ < WORD) (h2 : width_ * ih < WORD) :
    (iw * height_ > width_ * ih →
      letterbox width_ height_ iw ih =
        some { x_off := 0, y_off := (height_ - width_ * ih / iw) / 2, w := width_,
               h := width_ * ih / iw } ∧
      width_ * ih / iw ≤ height_) ∧
    (¬ (iw * height_ > width_ * ih) →
      letterbox width_ height_ iw ih =
        some { x_off := (width_ - height_ * iw / ih) / 2, y_off := 0, w := height_ * iw / ih,
               h := height_ } ∧
      height_ * iw / ih ≤ width_) :=
  letterbox_formula width_ height_ iw ih hiw hih h1 h2

/-- C9, witness: destination 1920 by 1080, source 640 by 480 gives `w = 1440`, `h = 1080`,
`x_off = 240`, `y_off = 0`. -/
theorem C9_letterbox_witness :
    letterbox 1920 1080 640 480 = some { x_off := 240, y_off := 0, w := 1440, h := 1080 } :=
  ((C9_letterbox 1920 1080 640 480 (by decide) (by decide) (by decide) (by decide)).2
    (by decide)).1

/-- C10, counterexample. For stride 65536 and height 32768 the second and third plane offsets
given to `drmModeAddFB2` are 2147483648 and 2684354560, while the attribute lists of both
back-ends hold the negative numbers -2147483648 and -1610612736 (the same 32-bit words as
`EGLint`). For stride and height 65536 the second offset is 0, not the product. -/
theorem C10_counterexample :
    drmOffsets hugeInfo = [0, 2147483648, 2684354560] ∧
    attribOffsets (drmAttribs 5 hugeInfo) =
      [some (AttrVal.num 0), some (AttrVal.num (-2147483648)),
       some (AttrVal.num (-1610612736))] ∧
    attribOffsets (eglAttribs 5 hugeInfo) =
      [some (AttrVal.num 0), some (AttrVal.num (-2147483648)),
       some (AttrVal.num (-1610612736))] ∧
    drmOffsets { width := 640, height := 65536, stride := 65536, colour_space := none } =
      [0, 0, 1073741824] := by
  refine ⟨?_, ?_, ?_, ?_⟩ <;> decide

/-- C10, as amended. Planar YUV 4:2:0 layout: for every stride below 2^31 and every height
with `stride * height + (stride / 2) * (height / 2)` below 2^31, both back-ends describe the
buffer with plane offsets `0`, `stride * height`,
`stride * height + (stride / 2) * (height / 2)` and plane pitches `stride`, `stride / 2`,
`stride / 2`; the offsets and pitches given to `drmModeAddFB2` are the numbers in the
attribute list; and, with no condition on stride and height, the two back-ends put the same
offsets and pitches in their attribute lists. -/
theorem C10_plane_layout :
    (∀ (fd : Int) (info : StreamInfo), info.stride < 2147483648 →
      info.stride * info.height + (info.stride / 2) * (info.height / 2) < 2147483648 →
      drmOffsets info =
        [0, info.stride * info.height,
         info.stride * info.height + (info.stride / 2) * (info.height / 2)] ∧
      drmPitches info = [info.stride, info.stride / 2, info.stride / 2] ∧
      attribOffsets (drmAttribs fd info) =
        (drmOffsets info).map (fun v => some (AttrVal.num (v : Int))) ∧
      attribPitches (drmAttribs fd info) =
        (drmPitches info).map (fun v => some (AttrVal.num (v : Int)))) ∧
    (∀ (fd : Int) (info : StreamInfo),
      attribOffsets (eglAttribs fd info) = attribOffsets (drmAttribs fd info) ∧
      attribPitches (eglAttribs fd info) = attribPitches (drmAttribs fd info)) := by
  constructor
  · intro fd info hs ht
    have conv : ∀ u : Nat, u < 2147483648 → toEGLint u = (u : Int) := by
      intro u hu
      have hm : u % WORD = u := Nat.mod_eq_of_lt (by unfold WORD; omega)
      simp [toEGLint, hm, hu]
    have hp1 : plane1Offset info = info.stride * info.height := by
      unfold plane1Offset WORD
      omega
    have hp2 : plane2Offset info =
        info.stride * info.height + (info.stride / 2) * (info.height / 2) := by
      unfold plane2Offset WORD
      omega
    have hs2 : info.stride / 2 < 2147483648 := by omega
    refine ⟨by simp [drmOffsets, hp1, hp2], rfl, ?_, ?_⟩
    · simp [attribOffsets, attr, drmAttribs, planeAttribs, drmOffsets, hp1, hp2,
        conv _ (show info.stride * info.height < 2147483648 by omega), conv _ ht]
    · simp [attribPitches, attr, drmAttribs, planeAttribs, drmPitches, conv _ hs, conv _ hs2]
  · intro fd info
    constructor <;> rfl

/-- C10, witness: the sample metadata, stride 640 and height 480, with offsets 0, 307200 and
384000. -/
theorem C10_plane_layout_witness :
    drmOffsets sampleInfo = [0, 640 * 480, 640 * 480 + (640 / 2) * (480 / 2)] ∧
    drmPitches sampleInfo = [640, 640 / 2, 640 / 2] ∧
    attribOffsets (drmAttribs 5 sampleInfo) =
      (drmOffsets sampleInfo).map (fun v => some (AttrVal.num (v : Int))) ∧
    attribPitches (drmAttribs 5 sampleInfo) =
      (drmPitches sampleInfo).map (fun v => some (AttrVal.num (v : Int))) :=
  C10_plane_layout.1 5 sampleInfo (by decide) (by decide)

/-- C11. Colour-space classification (`get_colour_space_info` of both back-ends) is a total
function with no error: Jpeg gives 601 encoding and full range, Smpte170m gives 601 and
limited (narrow) range, Rec709 gives 709 and limited range, and every other tag and the
absent tag give the default, 601 and limited range; the strings of the overlay back-end and
the constants of the windowed back-end agree on every tag. -/
theorem C11_colour_space_classification :
    (eglColourSpaceInfo (some ColorSpace.Jpeg) =
        (AttrVal.EGL_ITU_REC601_EXT, AttrVal.EGL_YUV_FULL_RANGE_EXT) ∧
      drmColourSpaceInfo (some ColorSpace.Jpeg) = ("601", "full")) ∧
    (eglColourSpaceInfo (some ColorSpace.Smpte170m) =
        (AttrVal.EGL_ITU_REC601_EXT, AttrVal.EGL_YUV_NARROW_RANGE_EXT) ∧
      drmColourSpaceInfo (some ColorSpace.Smpte170m) = ("601", "limited")) ∧
    (eglColourSpaceInfo (some ColorSpace.Rec709) =
        (AttrVal.EGL_ITU_REC709_EXT, AttrVal.EGL_YUV_NARROW_RANGE_EXT) ∧
      drmColourSpaceInfo (some ColorSpace.Rec709) = ("709", "limited")) ∧
    (∀ cs : Option ColorSpace, cs ≠ some ColorSpace.Jpeg → cs ≠ some ColorSpace.Smpte170m →
      cs ≠ some ColorSpace.Rec709 →
      eglColourSpaceInfo cs = (AttrVal.EGL_ITU_REC601_EXT, AttrVal.EGL_YUV_NARROW_RANGE_EXT) ∧
      drmColourSpaceInfo cs = ("601", "limited")) ∧
    (∀ cs : Option ColorSpace,
      ((drmColourSpaceInfo cs).1 = "601" ↔
        (eglColourSpaceInfo cs).1 = AttrVal.EGL_ITU_REC601_EXT) ∧
      ((drmColourSpaceInfo cs).1 = "709" ↔
        (eglColourSpaceInfo cs).1 = AttrVal.EGL_ITU_REC709_EXT) ∧
      ((drmColourSpaceInfo cs).2 = "limited" ↔
        (eglColourSpaceInfo cs).2 = AttrVal.EGL_YUV_NARROW_RANGE_EXT) ∧
      ((drmColourSpaceInfo cs).2 = "full" ↔
        (eglColourSpaceInfo cs).2 = AttrVal.EGL_YUV_FULL_RANGE_EXT)) := by
  refine ⟨⟨rfl, rfl⟩, ⟨rfl, rfl⟩, ⟨rfl, rfl⟩, ?_, ?_⟩
  · intro cs h1 h2 h3
    simp [eglColourSpaceInfo, drmColourSpaceInfo, h1, h2, h3]
  · intro cs
    by_cases h1 : cs = some ColorSpace.Jpeg
    · subst h1; simp [eglColourSpaceInfo, drmColourSpaceInfo]
    · by_cases h2 : cs = some ColorSpace.Smpte170m
      · subst h2; simp [eglColourSpaceInfo, drmColourSpaceInfo]
      · by_cases h3 : cs = some ColorSpace.Rec709
        · subst h3; simp [eglColourSpaceInfo, drmColourSpaceInfo]
        · simp [eglColourSpaceInfo, drmColourSpaceInfo, h1, h2, h3]

/-- C11, witness: the absent tag and the tag Rec2020 take the default. -/
theorem C11_colour_space_classification_witness :
    (eglColourSpaceInfo none = (AttrVal.EGL_ITU_REC601_EXT, AttrVal.EGL_YUV_NARROW_RANGE_EXT) ∧
      drmColourSpaceInfo none = ("601", "limited")) ∧
    (eglColourSpaceInfo (some ColorSpace.Rec2020) =
        (AttrVal.EGL_ITU_REC601_EXT, AttrVal.EGL_YUV_NARROW_RANGE_EXT) ∧
      drmColourSpaceInfo (some ColorSpace.Rec2020) = ("601", "limited")) :=
  ⟨C11_colour_space_classification.2.2.2.1 none (by decide) (by decide) (by decide),
   C11_colour_space_classification.2.2.2.1 (some ColorSpace.Rec2020) (by decide) (by decide)
     (by decide)⟩

/-- C12, counterexample. The overlay back-end imports a buffer tagged Rec709 with the 601
encoding hint and a buffer tagged Jpeg with the narrow-range hint, while the classification
gives 709 for the first and full range for the second. -/
theorem C12_counterexample :
    (attr (drmAttribs 5 rec709Info) AttrKey.EGL_YUV_COLOR_SPACE_HINT_EXT =
        some AttrVal.EGL_ITU_REC601_EXT ∧
      eglColourSpaceInfo rec709Info.colour_space =
        (AttrVal.EGL_ITU_REC709_EXT, AttrVal.EGL_YUV_NARROW_RANGE_EXT) ∧
      drmColourSpaceInfo rec709Info.colour_space = ("709", "limited")) ∧
    (attr (drmAttribs 5 jpegInfo) AttrKey.EGL_SAMPLE_RANGE_HINT_EXT =
        some AttrVal.EGL_YUV_NARROW_RANGE_EXT ∧
      eglColourSpaceInfo jpegInfo.colour_space =
        (AttrVal.EGL_ITU_REC601_EXT, AttrVal.EGL_YUV_FULL_RANGE_EXT) ∧
      drmColourSpaceInfo jpegInfo.colour_space = ("601", "full")) := by
  refine ⟨⟨?_, ?_, ?_⟩, ⟨?_, ?_, ?_⟩⟩ <;> decide

/-- C12, as amended. In the windowed back-end, for every buffer metadata, the colour-space
hint and the sample-range hint of the attribute list that `makeBuffer` gives to
`eglCreateImageKHR` are the pair the classification yields for the colour-space tag. In the
overlay back-end the attribute list always carries the 601 encoding hint and the narrow-range
hint; there the classification of the tag goes to the plane properties `COLOR_ENCODING` and
`COLOR_RANGE`, which `setup_colour_space` sets in the first-time block of `makeBuffer`. -/
theorem C12_colour_hints :
    (∀ (fd : Int) (info : StreamInfo),
      attr (eglAttribs fd info) AttrKey.EGL_YUV_COLOR_SPACE_HINT_EXT =
        some (eglColourSpaceInfo info.colour_space).1 ∧
      attr (eglAttribs fd info) AttrKey.EGL_SAMPLE_RANGE_HINT_EXT =
        some (eglColourSpaceInfo info.colour_space).2) ∧
    (∀ (p : EglPreview) (e : EglImportEnv) (fd : Int) (size : Nat) (info : StreamInfo)
        (b : EglPreview.Buffer), (EglPreview.makeBuffer p e fd size info b).error = none →
      imports (EglPreview.makeBuffer p e fd size info b).events = [eglAttribs fd info]) ∧
    (∀ (fd : Int) (info : StreamInfo),
      attr (drmAttribs fd info) AttrKey.EGL_YUV_COLOR_SPACE_HINT_EXT =
        some AttrVal.EGL_ITU_REC601_EXT ∧
      attr (drmAttribs fd info) AttrKey.EGL_SAMPLE_RANGE_HINT_EXT =
        some AttrVal.EGL_YUV_NARROW_RANGE_EXT) ∧
    (∀ (p : DrmPreview) (e : DrmEnv) (fd : Int) (size : Nat) (info : StreamInfo)
        (b : DrmPreview.Buffer), (DrmPreview.makeBuffer p e fd size info b).error = none →
      imports (DrmPreview.makeBuffer p e fd size info b).events = [drmAttribs fd info]) ∧
    (∀ (props : List DrmProperty) (cs : Option ColorSpace) (ok : Bool),
      (setup_colour_space props cs ok).1 =
        (drm_set_property props "COLOR_ENCODING" (drmColourSpaceInfo cs).1).1 ++
        (drm_set_property props "COLOR_RANGE" (drmColourSpaceInfo cs).2).1 ++
        [Event.glSetup ok]) := by
  refine ⟨?_, ?_, ?_, ?_, ?_⟩
  · intro fd info
    constructor <;> simp [attr, eglAttribs, planeAttribs]
  · intro p e fd size info b he
    exact (egl_makeBuffer_ok p e fd size info b he).1
  · intro fd info
    constructor <;> simp [attr, drmAttribs, planeAttribs]
  · intro p e fd size info b he
    exact (drm_makeBuffer_ok p e fd size info b he).1
  · intro props cs ok
    cases ok <;> simp [setup_colour_space]

/-- C12, witness: an import of the Rec709 sample on the sample windowed object creates its
image from the attribute list of the windowed back-end, whose hints are 709 and narrow
range. -/
theorem C12_colour_hints_witness :
    imports (EglPreview.makeBuffer egl0 (eglOk 11) 5 460800 rec709Info
        EglPreview.Buffer.new).events = [eglAttribs 5 rec709Info] ∧
    attr (eglAttribs 5 rec709Info) AttrKey.EGL_YUV_COLOR_SPACE_HINT_EXT =
        some (eglColourSpaceInfo rec709Info.colour_space).1 :=
  ⟨C12_colour_hints.2.1 egl0 (eglOk 11) 5 460800 rec709Info EglPreview.Buffer.new (by decide),
   (C12_colour_hints.1 5 rec709Info).1⟩

/-- C17. Property-by-name lookup is advisory. The function `drm_set_property` is total and
has no error result. When no reported enum property of the plane has a name that contains the
requested name, or the first such property has no enum entry whose name contains the
requested value, it sets no property and returns -1. Whatever the two lookups give,
`setup_colour_space` makes the calls of the first lookup, then those of the second, then
builds shaders, program and mesh, and it fails only when that last step fails. -/
theorem C17_property_lookup_advisory :
    (∀ (props : List DrmProperty) (name val : String),
      (∀ prop ∈ props, propertyMatches name prop = false) →
      drm_set_property props name val = ([], -1)) ∧
    (∀ (props : List DrmProperty) (name val : String) (prop : DrmProperty),
      props.find? (propertyMatches name) = some prop →
      (∀ e ∈ prop.enums, strstr e.name val = false) →
      drm_set_property props name val = ([], -1)) ∧
    (∀ (props : List DrmProperty) (cs : Option ColorSpace) (ok : Bool),
      (setup_colour_space props cs ok).1 =
        (drm_set_property props "COLOR_ENCODING" (drmColourSpaceInfo cs).1).1 ++
        (drm_set_property props "COLOR_RANGE" (drmColourSpaceInfo cs).2).1 ++
        [Event.glSetup ok] ∧
      ((setup_colour_space props cs ok).2 = none ↔ ok = true)) := by
  refine ⟨?_, ?_, ?_⟩
  · intro props name val h
    have hf : props.find? (propertyMatches name) = none := by
      rw [List.find?_eq_none]
      intro x hx
      simp [h x hx]
    rw [drm_set_property_eq, hf]
  · intro props name val prop hf he
    rw [drm_set_property_eq, hf]
    simp [(findEnum_eq_none val prop.enums).2 he]
  · intro props cs ok
    cases ok <;> simp [setup_colour_space]

/-- C17, witness: on the sample plane the name `COLOR_RANGE` matches no property, and the
property `COLOR_ENCODING` has no entry for the value `2020`; both lookups set nothing and
return -1. -/
theorem C17_property_lookup_advisory_witness :
    drm_set_property sampleProps "COLOR_RANGE" "limited" = ([], -1) ∧
    drm_set_property sampleProps "COLOR_ENCODING" "2020" = ([], -1) :=
  ⟨C17_property_lookup_advisory.1 sampleProps "COLOR_RANGE" "limited" (by decide),
   C17_property_lookup_advisory.2.1 sampleProps "COLOR_ENCODING" "2020"
     { prop_id := 8, present := true, isEnum := true, name := "COLOR_ENCODING",
       enums := [ { name := "ITU-R BT.601 YCbCr", value := 0, setResult := 0 },
                  { name := "ITU-R BT.709 YCbCr", value := 1, setResult := 0 } ] }
     (by decide) (by decide)⟩

/-- C18. The letterbox rectangle of `DrmPreview::Show` stays inside the destination: for a
destination `width_` by `height_` and a source `iw` by `ih` with `iw` and `ih` positive and
both products `iw * height_` and `width_ * ih` below 2^32, the rectangle is computed and has
`w ≤ width_`, `h ≤ height_`, `x_off + w ≤ width_`, `y_off + h ≤ height_`, and `w = width_`
or `h = height_`. -/
theorem C18_letterbox_inside (width_ height_ iw ih : Nat) (hiw : 0 < iw) (hih : 0 < ih)
    (h1 : iw * height_ < WORD) (h2 : width_ * ih < WORD) :
    ∃ r : Rect, letterbox width_ height_ iw ih = some r ∧
      r.w ≤ width_ ∧ r.h ≤ height_ ∧ r.x_off + r.w ≤ width_ ∧ r.y_off + r.h ≤ height_ ∧
      (r.w = width_ ∨ r.h = height_) := by
  have h := letterbox_formula width_ height_ iw ih (by omega) (by omega) h1 h2
  by_cases hgt : iw * height_ > width_ * ih
  · obtain ⟨he, hle⟩ := h.1 hgt
    refine ⟨_, he, ?_⟩
    simp only
    clear h he
    generalize width_ * ih / iw = q at hle ⊢
    refine ⟨Nat.le_refl _, hle, by omega, by omega, Or.inl trivial⟩
  · obtain ⟨he, hle⟩ := h.2 hgt
    refine ⟨_, he, ?_⟩
    simp only
    clear h he
    generalize height_ * iw / ih = q at hle ⊢
    refine ⟨hle, Nat.le_refl _, by omega, by omega, Or.inr trivial⟩

/-- C18, witness: destination 1920 by 1080 and source 1920 by 800, the wide case. -/
theorem C18_letterbox_inside_witness :
    ∃ r : Rect, letterbox 1920 1080 1920 800 = some r ∧
      r.w ≤ 1920 ∧ r.h ≤ 1080 ∧ r.x_off + r.w ≤ 1920 ∧ r.y_off + r.h ≤ 1080 ∧
      (r.w = 1920 ∨ r.h = 1080) :=
  C18_letterbox_inside 1920 1080 1920 800 (by decide) (by decide) (by decide) (by decide)

/-- C19. Division safety of the letterbox computation of `DrmPreview::Show` in unsigned 32-bit
arithmetic: for every destination and source, the division that is executed has divisor zero
exactly when the source height is zero and `iw * height_` is 0 modulo 2^32; so with a
positive source height the rectangle is always computed, also for source width zero. -/
theorem C19_division_safety :
    (∀ width_ height_ iw ih : Nat,
      letterbox width_ height_ iw ih = none ↔ (ih = 0 ∧ (iw * height_) % WORD = 0)) ∧
    (∀ width_ height_ iw ih : Nat, 0 < ih → (letterbox width_ height_ iw ih).isSome = true) := by
  have key : ∀ width_ height_ iw ih : Nat,
      letterbox width_ height_ iw ih = none ↔ (ih = 0 ∧ (iw * height_) % WORD = 0) := by
    intro width_ height_ iw ih
    unfold letterbox
    by_cases hgt : (iw * height_) % WORD > (width_ * ih) % WORD
    · have hiw : iw ≠ 0 := by
        intro h0
        subst h0
        simp at hgt
      simp only [hgt, if_true, hiw, if_false]
      constructor
      · intro h; cases h
      · rintro ⟨h0, hz⟩
        omega
    · simp only [hgt, if_false]
      by_cases hih : ih = 0
      · subst hih
        simp at hgt
        simp [hgt]
      · simp [hih]
  refine ⟨key, ?_⟩
  intro width_ height_ iw ih hih
  cases h : letterbox width_ height_ iw ih with
  | some r => rfl
  | none =>
    have := (key width_ height_ iw ih).1 h
    omega

/-- C19, witness: source width zero and source height 480 on a 1920 by 1080 destination. -/
theorem C19_division_safety_witness :
    (letterbox 1920 1080 0 480).isSome = true :=
  C19_division_safety.2 1920 1080 0 480 (by decide)

/-- C20. A failed import leaves a marked cache entry, in both back-ends. When `Show` runs
`makeBuffer` for an id (no marked entry), `makeBuffer` gets through its first-time block and
then throws (image creation fails; on the overlay back-end also handle translation or
framebuffer creation), `Show` throws and the cache holds an entry for the id whose `fd`
member is the id. For an id other than -1 this entry stays as it is through every later
sequence of `Show` calls, and a later `Show` of the id takes the cache-hit path: no
`makeBuffer`, no import. `Reset` empties the cache. -/
theorem C20_failed_import_marks_entry :
    (∀ (p : EglPreview) (a : EglShowArgs),
      ¬ marked EglPreview.Buffer.fd p.buffers_ a.fd →
      (p.first_time_ = true → a.env.makeCurrentOk = true ∧ a.env.setupOk = true) →
      a.env.imageOk = false →
      (EglPreview.Show p a).error ≠ none ∧
      ∃ b, mapFind (EglPreview.Show p a).state.buffers_ a.fd = some b ∧ b.fd = a.fd ∧
        (a.fd ≠ -1 → ∀ (mid : List EglShowArgs) (c : EglShowArgs), c.fd = a.fd →
          mapFind (finalState EglPreview.call (EglPreview.Show p a).state
            (presents mid)).buffers_ a.fd = some b ∧
          (EglPreview.lookup1 (finalState EglPreview.call (EglPreview.Show p a).state
            (presents mid)) c).events = [] ∧
          (EglPreview.lookup1 (finalState EglPreview.call (EglPreview.Show p a).state
            (presents mid)) c).error = none)) ∧
    (∀ p : EglPreview, (EglPreview.Reset p).state.buffers_ = []) ∧
    (∀ (p : DrmPreview) (a : DrmShowArgs),
      ¬ marked DrmPreview.Buffer.fd p.buffers_ a.fd →
      (p.first_time_ = true → a.env.makeCurrentOk = true ∧ a.env.setupOk = true) →
      (a.env.primeOk = false ∨ a.env.addFbOk = false ∨ a.env.imageOk = false) →
      (DrmPreview.Show p a).error ≠ none ∧
      ∃ b, mapFind (DrmPreview.Show p a).state.buffers_ a.fd = some b ∧ b.fd = a.fd ∧
        (a.fd ≠ -1 → ∀ (mid : List DrmShowArgs) (c : DrmShowArgs), c.fd = a.fd →
          mapFind (finalState DrmPreview.call (DrmPreview.Show p a).state
            (presents mid)).buffers_ a.fd = some b ∧
          (DrmPreview.lookup (finalState DrmPreview.call (DrmPreview.Show p a).state
            (presents mid)) c).events = [] ∧
          imports (DrmPreview.Show (finalState DrmPreview.call (DrmPreview.Show p a).state
            (presents mid)) c).events = [])) ∧
    (∀ p : DrmPreview, (DrmPreview.Reset p).state.buffers_ = []) := by
  refine ⟨?_, fun _ => rfl, ?_, fun _ => rfl⟩
  · intro p a hm hft hi
    obtain ⟨he, b, hb, hfd⟩ := egl_lookup1_failed p a hm hft hi
    refine ⟨Show_error_of_lookup.1 p a he, b, ?_, hfd, ?_⟩
    · rw [(egl_Show_buffers p a).1]; exact hb
    · intro hne mid c hc
      have hb0 : mapFind (EglPreview.Show p a).state.buffers_ a.fd = some b := by
        rw [(egl_Show_buffers p a).1]; exact hb
      have hb1 := egl_presents_keep_entry (EglPreview.Show p a).state mid a.fd b hb0
        (by rw [hfd]; exact hne)
      have hit := egl_lookup1_hit
        (finalState EglPreview.call (EglPreview.Show p a).state (presents mid)) c
        ⟨b, by rw [hc]; exact hb1, by rw [hfd]; exact hne⟩
      exact ⟨hb1, hit.1, hit.2.1⟩
  · intro p a hm hft hi
    obtain ⟨he, b, hb, hfd⟩ := drm_lookup_failed p a hm hft hi
    refine ⟨Show_error_of_lookup.2 p a he, b, ?_, hfd, ?_⟩
    · rw [(drm_Show_buffers p a).1]; exact hb
    · intro hne mid c hc
      have hb0 : mapFind (DrmPreview.Show p a).state.buffers_ a.fd = some b := by
        rw [(drm_Show_buffers p a).1]; exact hb
      have hb1 := drm_presents_keep_entry (DrmPreview.Show p a).state mid a.fd b hb0
        (by rw [hfd]; exact hne)
      have hit := drm_lookup_hit
        (finalState DrmPreview.call (DrmPreview.Show p a).state (presents mid)) c
        ⟨b, by rw [hc]; exact hb1, by rw [hfd]; exact hne⟩
      refine ⟨hb1, hit.1, ?_⟩
      rw [(drm_Show_imports _ c).1, hit.1]
      rfl

/-- C20, witness: on the sample objects a `Show` of id 5 whose import fails (no image on the
windowed back-end, no memory handle on the overlay back-end) throws and leaves an entry for
id 5. -/
theorem C20_failed_import_marks_entry_witness :
    ((EglPreview.Show egl0 (eglShowNoImage 5 7)).error ≠ none ∧
      ∃ b, mapFind (EglPreview.Show egl0 (eglShowNoImage 5 7)).state.buffers_ 5 = some b ∧
        b.fd = 5) ∧
    ((DrmPreview.Show drm0 (drmShowNoHandle 5)).error ≠ none ∧
      ∃ b, mapFind (DrmPreview.Show drm0 (drmShowNoHandle 5)).state.buffers_ 5 = some b ∧
        b.fd = 5) := by
  have h1 := C20_failed_import_marks_entry.1 egl0 (eglShowNoImage 5 7)
    (by rintro ⟨b, hb, _⟩; cases hb) (by intro _; exact ⟨rfl, rfl⟩) rfl
  have h2 := C20_failed_import_marks_entry.2.2.1 drm0 (drmShowNoHandle 5)
    (by rintro ⟨b, hb, _⟩; cases hb) (by intro _; exact ⟨rfl, rfl⟩) (Or.inl rfl)
  obtain ⟨e1, b1, hb1, hf1, _⟩ := h1
  obtain ⟨e2, b2, hb2, hf2, _⟩ := h2
  exact ⟨⟨e1, b1, hb1, hf1⟩, ⟨e2, b2, hb2, hf2⟩⟩

/-- C13, counterexample. The sample windowed object reports a maximum image size of 4096 by
4096 and the sample overlay object one of 8192 by 8192. On each, after a `Show` of id 5 with
the 640 by 480 sample, a `Show` of the same id with metadata of 16384 by 12288 pixels finds
the cached entry and returns without an exception. -/
theorem C13_counterexample :
    (EglPreview.MaxImageSize egl0 = (4096, 4096) ∧
      (outcomes EglPreview.call egl0 (presents [eglShow 5 7, eglShowBig 5 7])).map
        (fun r => r.error.isNone) = [true, true] ∧
      (eglShowBig 5 7).info.width = 16384 ∧ (eglShowBig 5 7).info.height = 12288) ∧
    (DrmPreview.MaxImageSize drm0 = (8192, 8192) ∧
      (outcomes DrmPreview.call drm0 (presents [drmShow 5 1 21 11, drmShowBig 5 2 22 12])).map
        (fun r => r.error.isNone) = [true, true] ∧
      (drmShowBig 5 2 22 12).info.width = 16384 ∧
      (drmShowBig 5 2 22 12).info.height = 12288) := by
  refine ⟨⟨?_, ?_, ?_, ?_⟩, ⟨?_, ?_, ?_, ?_⟩⟩ <;> decide

/-- C13, as amended. In both back-ends `MaxImageSize` reports the members recorded at
initialisation, which no `Show` or `Reset` call changes, and `Show` does not look at them: the
calls it makes and the exception it throws are the same whatever the maximum image size of
the object is. A `Show` of ids that are already cached returns whatever width and height its
metadata carry (on the overlay back-end when the letterbox division is defined and
`drmModeSetPlane` accepts the frame). -/
theorem C13_max_image_size_not_checked :
    ((∀ (p : EglPreview) (a : EglShowArgs),
        EglPreview.MaxImageSize (EglPreview.Show p a).state = EglPreview.MaxImageSize p) ∧
      (∀ p : EglPreview,
        EglPreview.MaxImageSize (EglPreview.Reset p).state = EglPreview.MaxImageSize p) ∧
      (∀ (p : EglPreview) (w h : Nat) (a : EglShowArgs),
        (EglPreview.Show (p.withMax w h) a).events = (EglPreview.Show p a).events ∧
        (EglPreview.Show (p.withMax w h) a).error = (EglPreview.Show p a).error) ∧
      (∀ (p : EglPreview) (a : EglShowArgs),
        marked EglPreview.Buffer.fd p.buffers_ a.fd →
        marked EglPreview.Buffer.fd p.buffers2_ a.fd2 →
        (EglPreview.Show p a).error = none)) ∧
    ((∀ (p : DrmPreview) (a : DrmShowArgs),
        DrmPreview.MaxImageSize (DrmPreview.Show p a).state = DrmPreview.MaxImageSize p) ∧
      (∀ p : DrmPreview,
        DrmPreview.MaxImageSize (DrmPreview.Reset p).state = DrmPreview.MaxImageSize p) ∧
      (∀ (p : DrmPreview) (w h : Nat) (a : DrmShowArgs),
        (DrmPreview.Show (p.withMax w h) a).events = (DrmPreview.Show p a).events ∧
        (DrmPreview.Show (p.withMax w h) a).error = (DrmPreview.Show p a).error) ∧
      (∀ (p : DrmPreview) (a : DrmShowArgs),
        marked DrmPreview.Buffer.fd p.buffers_ a.fd →
        (letterbox p.width_ p.height_ a.info.width a.info.height).isSome = true →
        a.env.setPlaneOk = true →
        (DrmPreview.Show p a).error = none)) := by
  refine ⟨⟨Show_MaxImageSize.1, fun _ => rfl, ?_, ?_⟩, ⟨Show_MaxImageSize.2, fun _ => rfl, ?_, ?_⟩⟩
  · intro p w h a
    exact ⟨(egl_Show_withMax p w h a).1, (egl_Show_withMax p w h a).2.1⟩
  · intro p a hm1 hm2
    have h1 := egl_lookup1_hit p a hm1
    have h2 := egl_lookup2_hit (EglPreview.lookup1 p a).state.1 a (by rw [h1.2.2]; exact hm2)
    simp only [EglPreview.Show, h1.2.1, h2.2.1]
  · intro p w h a
    exact ⟨(drm_Show_withMax p w h a).1, (drm_Show_withMax p w h a).2.1⟩
  · intro p a hm hl hs
    have h1 := drm_lookup_hit p a hm
    simp only [DrmPreview.Show, h1.2.1, h1.2.2]
    cases e2 : letterbox p.width_ p.height_ a.info.width a.info.height with
    | none => rw [e2] at hl; cases hl
    | some rect => simp [hs]

/-- C13, witness: the second call of the counterexample runs, on the objects left by the
first call. -/
theorem C13_max_image_size_not_checked_witness :
    (EglPreview.Show (EglPreview.Show egl0 (eglShow 5 7)).state (eglShowBig 5 7)).error = none ∧
    (DrmPreview.Show (DrmPreview.Show drm0 (drmShow 5 1 21 11)).state
      (drmShowBig 5 2 22 12)).error = none :=
  ⟨C13_max_image_size_not_checked.1.2.2.2 (EglPreview.Show egl0 (eglShow 5 7)).state
      (eglShowBig 5 7)
      ((egl_Show_ok_marked egl0 (eglShow 5 7) (by decide)).1 (by decide))
      ((egl_Show_ok_marked egl0 (eglShow 5 7) (by decide)).2 (by decide)),
   C13_max_image_size_not_checked.2.2.2.2 (DrmPreview.Show drm0 (drmShow 5 1 21 11)).state
      (drmShowBig 5 2 22 12)
      (drm_Show_ok_marked drm0 (drmShow 5 1 21 11) (by decide) (by decide))
      (by decide) rfl⟩

/-- C16. Overlay plane selection in `DrmPreview::findPlane`: for every list of planes, the
plane id the loop assigns is the id of the first plane, in order, whose mask of possible
controllers has the bit of the controller index set and whose format list contains the
required pixel format; every plane before it fails one of the two tests, so no plane that
passes only one test is selected. Conversely the first plane passing both tests is selected,
and `findPlane` stores its id in `planeId_`, for the index `crtcIdx_` and the format
YUV420 given by the constructor. -/
theorem C16_plane_selection :
    (∀ (crtcIdx fourcc : Nat) (planes : List DrmPlane) (id : Nat),
      findPlaneLoop crtcIdx fourcc planes = some id →
      ∃ pre pl post, planes = pre ++ pl :: post ∧ pl.plane_id = id ∧
        pl.possible_crtcs.testBit crtcIdx = true ∧ fourcc ∈ pl.formats ∧
        ∀ q ∈ pre, ¬ (q.possible_crtcs.testBit crtcIdx = true ∧ fourcc ∈ q.formats)) ∧
    (∀ (crtcIdx fourcc : Nat) (pre : List DrmPlane) (pl : DrmPlane) (post : List DrmPlane),
      pl.possible_crtcs.testBit crtcIdx = true → fourcc ∈ pl.formats →
      (∀ q ∈ pre, ¬ (q.possible_crtcs.testBit crtcIdx = true ∧ fourcc ∈ q.formats)) →
      findPlaneLoop crtcIdx fourcc (pre ++ pl :: post) = some pl.plane_id) ∧
    (∀ (dev : DrmDevice) (p : DrmPreview) (id : Nat), dev.planeResourcesOk = true →
      findPlaneLoop p.crtcIdx_.toNat DRM_FORMAT_YUV420 dev.planes = some id →
      ∃ q, DrmPreview.findPlane dev DRM_FORMAT_YUV420 p = Except.ok q ∧ q.planeId_ = id) := by
  refine ⟨?_, ?_, ?_⟩
  · intro crtcIdx fourcc planes id h
    rw [findPlaneLoop_eq_find] at h
    cases hf : planes.find? (fun pl => pl.possible_crtcs.testBit crtcIdx &&
        decide (fourcc ∈ pl.formats)) with
    | none => rw [hf] at h; cases h
    | some pl =>
      rw [hf] at h
      simp only [Option.map_some', Option.some.injEq] at h
      obtain ⟨hp, pre, post, hsplit, hpre⟩ := List.find?_eq_some.1 hf
      simp only [Bool.and_eq_true, decide_eq_true_eq] at hp
      refine ⟨pre, pl, post, hsplit, h, hp.1, hp.2, ?_⟩
      intro q hq hboth
      have := hpre q hq
      simp [hboth.1, hboth.2] at this
  · intro crtcIdx fourcc pre pl post hb hf hpre
    rw [findPlaneLoop_eq_find]
    have hfind : (pre ++ pl :: post).find? (fun pl => pl.possible_crtcs.testBit crtcIdx &&
        decide (fourcc ∈ pl.formats)) = some pl := by
      rw [List.find?_eq_some]
      refine ⟨by simp [hb, hf], pre, post, rfl, ?_⟩
      intro q hq
      have := hpre q hq
      cases hq1 : q.possible_crtcs.testBit crtcIdx
      · simp
      · simp only [hq1, true_and] at this
        simp [this]
    rw [hfind]
    rfl
  · intro dev p id hres h
    simp [DrmPreview.findPlane, hres, h]

/-- C16, witness: on the sample planes with controller index 0 and format YUV420, plane 65 is
selected; plane 60 fails the mask test and plane 62 the format test. -/
theorem C16_plane_selection_witness :
    ∃ pre pl post, samplePlanes = pre ++ pl :: post ∧ pl.plane_id = 65 ∧
      pl.possible_crtcs.testBit 0 = true ∧ DRM_FORMAT_YUV420 ∈ pl.formats ∧
      ∀ q ∈ pre, ¬ (q.possible_crtcs.testBit 0 = true ∧ DRM_FORMAT_YUV420 ∈ q.formats) :=
  C16_plane_selection.1 0 DRM_FORMAT_YUV420 samplePlanes 65 (by decide)

/-- C14, counterexample. (1) On the sample device with a 1280 by 720 controller for the chosen
connector and a recorded screen size of 1920 by 1080, with no rectangle requested and the
full-screen flag off, the constructor ends with the rectangle of the controller,
(0, 0, 1280, 720), not with the full screen. (2) With the requested rectangle 2 wide at
x = 4294967295 the sum x + width is 2^32 + 1, above the screen width 1920, yet the
constructor keeps the requested rectangle, because the sum is taken in 32 bits. -/
theorem C14_counterexample :
    ((DrmPreview.construct dev2 optsDefault).toOption.map DrmPreview.rect =
        some (0, 0, 1280, 720) ∧
      (DrmPreview.construct dev2 optsDefault).toOption.map
        (fun p => (p.screen_width_, p.screen_height_)) = some (1920, 1080)) ∧
    ((DrmPreview.construct dev1 optsWrap).toOption.map DrmPreview.rect =
        some (4294967295, 0, 2, 100) ∧
      (DrmPreview.construct dev1 optsWrap).toOption.map
        (fun p => (p.screen_width_, p.screen_height_)) = some (1920, 1080) ∧
      optsWrap.preview_x + optsWrap.preview_width > 1920) := by
  refine ⟨⟨?_, ?_⟩, ⟨?_, ?_, ?_⟩⟩ <;> decide

/-- C14, as amended. The on-screen rectangle after the two geometry blocks of the
constructor, for an object `p` holding the requested rectangle and the recorded screen size,
and the chosen controller `crtc`; a rectangle fits when `x + width` and `y + height`, taken
modulo 2^32, do not exceed the screen width and height. With the full-screen flag off: a
requested rectangle of non-zero size that fits is kept; when the requested width or height is
zero, the rectangle of the controller is taken if it has non-zero size and fits. In every
other case the result is the full screen `(0, 0, screen_width_, screen_height_)`. The
constructor, when it returns, has computed its rectangle in this way from the options, the
controller with the chosen id and the recorded screen size. -/
theorem C14_overlay_geometry :
    (∀ (opts : Options) (crtc : DrmCrtc) (p : DrmPreview),
      (opts.fullscreen = false → p.width_ ≠ 0 → p.height_ ≠ 0 →
        (p.x_ + p.width_) % WORD ≤ p.screen_width_ →
        (p.y_ + p.height_) % WORD ≤ p.screen_height_ →
        (DrmPreview.finalGeometry opts (DrmPreview.crtcGeometry opts crtc p)).rect = p.rect) ∧
      (opts.fullscreen = false → (p.width_ = 0 ∨ p.height_ = 0) →
        crtc.width ≠ 0 → crtc.height ≠ 0 →
        (crtc.x + crtc.width) % WORD ≤ p.screen_width_ →
        (crtc.y + crtc.height) % WORD ≤ p.screen_height_ →
        (DrmPreview.finalGeometry opts (DrmPreview.crtcGeometry opts crtc p)).rect =
          (crtc.x, crtc.y, crtc.width, crtc.height)) ∧
      (opts.fullscreen = true →
        (DrmPreview.finalGeometry opts (DrmPreview.crtcGeometry opts crtc p)).rect =
          (0, 0, p.screen_width_, p.screen_height_)) ∧
      (p.width_ ≠ 0 → p.height_ ≠ 0 →
        ¬ ((p.x_ + p.width_) % WORD ≤ p.screen_width_ ∧
           (p.y_ + p.height_) % WORD ≤ p.screen_height_) →
        (DrmPreview.finalGeometry opts (DrmPreview.crtcGeometry opts crtc p)).rect =
          (0, 0, p.screen_width_, p.screen_height_)) ∧
      ((p.width_ = 0 ∨ p.height_ = 0) →
        (crtc.width = 0 ∨ crtc.height = 0 ∨
          ¬ ((crtc.x + crtc.width) % WORD ≤ p.screen_width_ ∧
             (crtc.y + crtc.height) % WORD ≤ p.screen_height_)) →
        (DrmPreview.finalGeometry opts (DrmPreview.crtcGeometry opts crtc p)).rect =
          (0, 0, p.screen_width_, p.screen_height_))) ∧
    (∀ (dev : DrmDevice) (opts : Options) (q : DrmPreview),
      DrmPreview.construct dev opts = Except.ok q →
      ∃ (idx : Nat) (crtc : DrmCrtc) (p : DrmPreview),
        crtcIndexFrom q.crtcId_ dev.crtcs 0 = some (idx, crtc) ∧
        p.rect = (opts.preview_x, opts.preview_y, opts.preview_width, opts.preview_height) ∧
        p.screen_width_ = q.screen_width_ ∧ p.screen_height_ = q.screen_height_ ∧
        q = DrmPreview.finalGeometry opts (DrmPreview.crtcGeometry opts crtc p)) := by
  constructor
  · intro opts crtc p
    refine ⟨?_, ?_, ?_, ?_, ?_⟩
    · intro hf hw hh h1 h2
      have g1 : ¬ ((p.x_ + p.width_) % WORD > p.screen_width_) := by omega
      have g2 : ¬ ((p.y_ + p.height_) % WORD > p.screen_height_) := by omega
      simp [DrmPreview.finalGeometry, DrmPreview.crtcGeometry, DrmPreview.rect, hf, hw, hh,
        g1, g2]
    · intro hf hz hw hh h1 h2
      have g1 : ¬ ((crtc.x + crtc.width) % WORD > p.screen_width_) := by omega
      have g2 : ¬ ((crtc.y + crtc.height) % WORD > p.screen_height_) := by omega
      have hc : (decide (p.width_ = 0) || decide (p.height_ = 0)) = true := by
        rcases hz with hz | hz <;> simp [hz]
      simp [DrmPreview.finalGeometry, DrmPreview.crtcGeometry, DrmPreview.rect, hf, hc, hw,
        hh, g1, g2]
    · intro hf
      simp [DrmPreview.finalGeometry, DrmPreview.crtcGeometry, DrmPreview.rect, hf]
    · intro hw hh hn
      have hc : (decide ((p.x_ + p.width_) % WORD > p.screen_width_) ||
          decide ((p.y_ + p.height_) % WORD > p.screen_height_)) = true := by
        by_cases g1 : (p.x_ + p.width_) % WORD > p.screen_width_
        · simp [g1]
        · have g2 : (p.y_ + p.height_) % WORD > p.screen_height_ := by
            by_contra g2
            exact hn ⟨by omega, by omega⟩
          simp [g2]
      cases hf : opts.fullscreen
      · simp only [DrmPreview.finalGeometry, DrmPreview.crtcGeometry, DrmPreview.rect, hf,
          hw, hh, decide_False, Bool.or_false, Bool.false_eq_true, if_false, Bool.false_or]
        rw [if_pos hc]
      · simp [DrmPreview.finalGeometry, DrmPreview.crtcGeometry, DrmPreview.rect, hf]
    · intro hz hbad
      have hc : (decide (p.width_ = 0) || decide (p.height_ = 0)) = true := by
        rcases hz with hz | hz <;> simp [hz]
      cases hf : opts.fullscreen
      · have hfin : (decide (crtc.width = 0) || decide (crtc.height = 0) ||
            decide ((crtc.x + crtc.width) % WORD > p.screen_width_) ||
            decide ((crtc.y + crtc.height) % WORD > p.screen_height_)) = true := by
          rcases hbad with hb | hb | hb
          · simp [hb]
          · simp [hb]
          · by_cases g1 : (crtc.x + crtc.width) % WORD > p.screen_width_
            · simp [g1]
            · have g2 : (crtc.y + crtc.height) % WORD > p.screen_height_ := by
                by_contra g2
                exact hb ⟨by omega, by omega⟩
              simp [g2]
        simp only [DrmPreview.finalGeometry, DrmPreview.crtcGeometry, DrmPreview.rect, hf,
          Bool.false_or, hc, if_true]
        rw [if_pos hfin]
      · simp [DrmPreview.finalGeometry, DrmPreview.crtcGeometry, DrmPreview.rect, hf]
  · intro dev opts q h
    obtain ⟨idx, crtc, p1, h1, h2, h3, h4, h5, h6, h7, h8, h9, h10, h11, h12⟩ :=
      construct_ok dev opts q _ rfl h
    have hfr := geometry_frame opts crtc p1
    refine ⟨idx, crtc, p1, ?_, h10, ?_, ?_, h12⟩
    · rw [h12, hfr.2.1, h4]; exact h2
    · rw [h12, hfr.2.2.2.2.1]
    · rw [h12, hfr.2.2.2.2.2.1]

/-- C14, witness: on the sample device with one 1920 by 1080 output the requested rectangle
640 by 480 at (100, 50) fits and is kept. -/
theorem C14_overlay_geometry_witness :
    (DrmPreview.finalGeometry optsWindow (DrmPreview.crtcGeometry optsWindow
        { crtc_id := 91, x := 0, y := 0, width := 1920, height := 1080 }
        (DrmPreview.constructed 32 91 0 65 100 50 640 480 1920 1080 8192 8192))).rect =
      (DrmPreview.constructed 32 91 0 65 100 50 640 480 1920 1080 8192 8192).rect :=
  (C14_overlay_geometry.1 optsWindow
      { crtc_id := 91, x := 0, y := 0, width := 1920, height := 1080 }
      (DrmPreview.constructed 32 91 0 65 100 50 640 480 1920 1080 8192 8192)).1
    rfl (by decide) (by decide) (by decide) (by decide)

/-- C15, counterexample. (1) On the sample device with three connectors the first connector
with an active controller is connector 32, on controller 91 with a 1280 by 720 output; the
constructor chooses connector 32 and controller 91 but records the screen size 1920 by 1080,
the output of the controller of connector 34, the last one with an active controller. (2) On
the sample device whose first active connector reports the id 0, the constructor chooses
connector 34 and controller 92. -/
theorem C15_counterexample :
    ((DrmPreview.construct dev2 optsWindow).toOption.map
        (fun p => (p.conId_, p.crtcId_)) = some (32, 91) ∧
      (DrmPreview.construct dev2 optsWindow).toOption.map
        (fun p => (p.screen_width_, p.screen_height_)) = some (1920, 1080) ∧
      dev2.connectors.find? (activeConnector dev2) =
        some { connector_id := 32, encoder_id := 31, encoder_crtc_id := 91, count_modes := 4 } ∧
      getCrtc dev2 91 = some { crtc_id := 91, x := 0, y := 0, width := 1280, height := 720 }) ∧
    ((DrmPreview.construct dev3 optsWindow).toOption.map
        (fun p => (p.conId_, p.crtcId_)) = some (34, 92) ∧
      dev3.connectors.find? (activeConnector dev3) =
        some { connector_id := 0, encoder_id := 31, encoder_crtc_id := 91, count_modes := 4 }) := by
  refine ⟨⟨?_, ?_, ?_, ?_⟩, ⟨?_, ?_⟩⟩ <;> decide

/-- C15, as amended. Connector selection in `DrmPreview::findCrtc` with no connector chosen
beforehand, for every list of connectors with non-zero ids: the chosen connector is the first
one, in order, that has an active controller, and the chosen controller id is that of its
controller. The recorded screen size is the output size of the controller of the last
connector, in order, that has an active controller. The constructor, when it returns, holds
the connector, controller and screen size the loop has chosen; when no connector has an
active controller the constructor throws. -/
theorem C15_connector_selection :
    (∀ (dev : DrmDevice) (s : Selection) (cons : List DrmConnector) (c : DrmConnector)
        (crtc : DrmCrtc),
      s.conId_ = 0 → (∀ x ∈ cons, toInt32 x.connector_id ≠ 0) →
      cons.find? (activeConnector dev) = some c → connectorCrtc dev c = some crtc →
      (selectLoop dev s cons).conId_ = toInt32 c.connector_id ∧
      (selectLoop dev s cons).crtcId_ = crtc.crtc_id) ∧
    (∀ (dev : DrmDevice) (s : Selection) (cons : List DrmConnector) (c : DrmConnector)
        (crtc : DrmCrtc),
      cons.reverse.find? (activeConnector dev) = some c → connectorCrtc dev c = some crtc →
      (selectLoop dev s cons).screen_width_ = crtc.width ∧
      (selectLoop dev s cons).screen_height_ = crtc.height) ∧
    (∀ (dev : DrmDevice) (opts : Options) (q : DrmPreview),
      DrmPreview.construct dev opts = Except.ok q →
      q.conId_ = (selectLoop dev ⟨0, 0, 0, 0⟩ dev.connectors).conId_ ∧
      q.crtcId_ = (selectLoop dev ⟨0, 0, 0, 0⟩ dev.connectors).crtcId_ ∧
      q.screen_width_ = (selectLoop dev ⟨0, 0, 0, 0⟩ dev.connectors).screen_width_ ∧
      q.screen_height_ = (selectLoop dev ⟨0, 0, 0, 0⟩ dev.connectors).screen_height_) ∧
    (∀ (dev : DrmDevice) (opts : Options),
      (∀ c ∈ dev.connectors, connectorCrtc dev c = none) →
      ∃ e, DrmPreview.construct dev opts = Except.error e) := by
  refine ⟨?_, ?_, ?_, ?_⟩
  · intro dev s cons c crtc h0 hid hf hc
    exact (selectLoop_first dev s cons h0 hid).2 c crtc hf hc
  · intro dev s cons c crtc hf hc
    exact (selectLoop_screen dev s cons).2 c crtc hf hc
  · intro dev opts q h
    obtain ⟨idx, crtc, p1, h1, h2, h3, h4, h5, h6, h7, h8, h9, h10, h11, h12⟩ :=
      construct_ok dev opts q _ rfl h
    have hfr := geometry_frame opts crtc p1
    rw [h12]
    exact ⟨by rw [hfr.1, h3], by rw [hfr.2.1, h4], by rw [hfr.2.2.2.2.1, h6],
      by rw [hfr.2.2.2.2.2.1, h7]⟩
  · intro dev opts h
    exact construct_no_connector dev opts h

/-- C15, witness: the connector loop on the sample device with three connectors chooses
connector 32 and controller 91 and records the size of the output of controller 92. -/
theorem C15_connector_selection_witness :
    ((selectLoop dev2 ⟨0, 0, 0, 0⟩ dev2.connectors).conId_ = toInt32 32 ∧
      (selectLoop dev2 ⟨0, 0, 0, 0⟩ dev2.connectors).crtcId_ = 91) ∧
    ((selectLoop dev2 ⟨0, 0, 0, 0⟩ dev2.connectors).screen_width_ = 1920 ∧
      (selectLoop dev2 ⟨0, 0, 0, 0⟩ dev2.connectors).screen_height_ = 1080) :=
  ⟨C15_connector_selection.1 dev2 ⟨0, 0, 0, 0⟩ dev2.connectors
      { connector_id := 32, encoder_id := 31, encoder_crtc_id := 91, count_modes := 4 }
      { crtc_id := 91, x := 0, y := 0, width := 1280, height := 720 }
      rfl (by decide) (by decide) (by decide),
   C15_connector_selection.2.1 dev2 ⟨0, 0, 0, 0⟩ dev2.connectors
      { connector_id := 34, encoder_id := 33, encoder_crtc_id := 92, count_modes := 4 }
      { crtc_id := 92, x := 0, y := 0, width := 1920, height := 1080 }
      (by decide) (by decide)⟩

end Preview
